import Mathlib

/-!
# Kiva ground heat-transfer engine: a verification development of `Ground.cpp`

The definitions below are a shallow embedding of `src/libkiva/Ground.cpp`.

* `double` values are elements of an arbitrary linearly ordered field `K`
  (so every statement holds over the reals and can be evaluated over `ℚ`).
* `std::vector` is `List`; `std::map` with `operator[]` is a partial function.
* Code of the library that lives outside `Ground.cpp` (the cell kernels of
  `Cell.cpp`, the routines of `Algorithms.hpp`, the Eigen solver, the message
  sink of `Errors.hpp`, the mesh builder) is collected in `Externals` and is
  left completely arbitrary.
-/

set_option linter.unusedSectionVars false
set_option linter.unusedVariables false

namespace Kiva

/-! ## Enumerations -/

/-- Modelled from the spec: the enumeration `Surface::SurfaceType` is declared in
`Foundation.hpp`, which is not part of the excerpt.  The five tags that
`Ground.cpp` names are kept, the spec's "deep ground" is added, and every other
tag of the enumeration is `ST_OTHER n`. -/
inductive SurfaceType where
  | ST_SLAB_CORE
  | ST_SLAB_PERIM
  | ST_WALL_INT
  | ST_WALL_EXT
  | ST_GRADE
  | ST_DEEP_GROUND
  | ST_OTHER (tag : Nat)
  deriving DecidableEq, Repr

/-- The output kinds of `GroundOutput::OutputType`. -/
inductive OutputType where
  | OT_TEMP
  | OT_FLUX
  | OT_RATE
  | OT_CONV
  | OT_EFF_TEMP
  deriving DecidableEq, Repr

/-- The schemes of `Foundation::NumericalScheme`. -/
inductive NumericalScheme where
  | NS_ADE
  | NS_EXPLICIT
  | NS_ADI
  | NS_IMPLICIT
  | NS_CRANK_NICOLSON
  | NS_STEADY_STATE
  deriving DecidableEq, Repr

/-- The policies of `Foundation::ConvectionCalculationMethod`. -/
inductive ConvectionCalculationMethod where
  | CCM_AUTO
  | CCM_CONSTANT_COEFFICIENT
  deriving DecidableEq, Repr

/-- The values of `Surface::Orientation`. -/
inductive Orientation where
  | X_POS
  | X_NEG
  | Y_POS
  | Y_NEG
  | Z_POS
  | Z_NEG
  deriving DecidableEq, Repr

/-- The message levels of `Errors.hpp`. -/
inductive MessageType where
  | MSG_INFO
  | MSG_WARN
  | MSG_ERR
  deriving DecidableEq, Repr

/-! ## Data model -/

/-- A named boundary region: the fields of `Surface` that `Ground.cpp` reads. -/
structure Surface (K : Type) where
  type : SurfaceType
  orientation : Orientation
  tilt : K
  area : K
  indices : List Nat

/-- A control volume: the fields of `Cell` that `Ground.cpp` reads or writes.
`emissivity` and `absorptivity` are those of `surfacePtr`; the six neighbour
fields are the `index` of `i_up_Ptr`, `i_down_Ptr`, and so on. -/
structure Cell (K : Type) where
  index : Nat
  area : K
  heatGain : K
  emissivity : K
  absorptivity : K
  i_up : Nat
  i_down : Nat
  j_up : Nat
  j_down : Nat
  k_up : Nat
  k_down : Nat

/-- The fields of `Foundation` that `Ground.cpp` reads.  `slabTotalResistance`
and `wallTotalResistance` are `slab.totalResistance()` and
`wall.totalResistance()`; `surfaceAreas` and `hasSurface` are the two maps
keyed by surface type. -/
structure Foundation (K : Type) where
  numericalScheme : NumericalScheme
  numberOfDimensions : Nat
  convectionCalculationMethod : ConvectionCalculationMethod
  interiorConvectiveCoefficient : K
  exteriorConvectiveCoefficient : K
  surfaces : List (Surface K)
  surfaceAreas : SurfaceType → K
  hasSurface : SurfaceType → Bool
  slabTotalResistance : K
  wallTotalResistance : K
  orientation : K
  useSymmetry : Bool
  isXSymm : Bool
  isYSymm : Bool
  soilAbsorptivity : K
  maxIterations : Nat
  tolerance : K

/-- A snapshot of the external drivers (`BoundaryConditions`). -/
structure BoundaryConditions (K : Type) where
  indoorTemp : K
  outdoorTemp : K
  localWindSpeed : K
  solarAzimuth : K
  solarAltitude : K
  directNormalFlux : K
  diffuseHorizontalFlux : K
  slabAbsRadiation : K
  wallAbsRadiation : K

/-- A message handed to `showMessage`. -/
structure Message where
  messageType : MessageType
  text : String
  deriving DecidableEq, Repr

/-- The table `groundOutput.outputValues`, keyed by (surface type, output kind);
`none` is an absent key. -/
abbrev OutputValues (K : Type) := SurfaceType × OutputType → Option K

/-- What the iterative solver reports after `solveWithGuess`. -/
structure SolverResult (K : Type) where
  x : List K
  success : Bool
  iterations : Nat
  error : K

/-- The row of coefficients returned by `Cell::calcCellMatrix`. -/
structure MatrixRow (K : Type) where
  A : K
  Aip : K
  Aim : K
  Ajp : K
  Ajm : K
  Akp : K
  Akm : K
  bVal : K

/-- The row of coefficients returned by `Cell::calcCellADI`. -/
structure ADIRow (K : Type) where
  Am : K
  A : K
  Ap : K
  bVal : K

/-- The five vectors `solveTDM` receives by reference. -/
structure TDMVectors (K : Type) where
  a1 : List K
  a2 : List K
  a3 : List K
  b_ : List K
  x_ : List K

/-- The members of `Ground`. -/
structure Ground (K : Type) where
  foundation : Foundation K
  bcs : BoundaryConditions K
  timestep : K
  cell : List (Cell K)
  dest_index_vector : List (List Nat)
  nX : Nat
  nY : Nat
  nZ : Nat
  num_cells : Nat
  U : List K
  V : List K
  a1 : List K
  a2 : List K
  a3 : List K
  b_ : List K
  x_ : List K
  tripletList : List (Nat × Nat × K)
  solverMaxIterations : Nat
  solverTolerance : K
  b : List K
  x : List K
  TNew : List K
  TOld : List K
  outputMap : List (SurfaceType × List OutputType)
  outputValues : OutputValues K
  boundaryLayer : List (K × K)
  messages : List Message

/-- Code outside `Ground.cpp` that `Ground.cpp` calls.  Nothing is assumed about
any of these functions. -/
structure Externals (K : Type) where
  /-- from `Algorithms.hpp` -/
  getDOE2ConvectionCoeff : K → K → K → K → K → K → K → K
  /-- from `Algorithms.hpp` -/
  getSimpleInteriorIRCoeff : K → K → K → K
  /-- the in-place Thomas solve of `Algorithms.hpp` -/
  solveTDM : TDMVectors K → TDMVectors K
  /-- `pSolver->compute(Amat)` followed by `solveWithGuess(b, x)`, with the
  settings given to the solver by `buildDomain` -/
  solveWithGuess : Nat → K → Nat → List (Nat × Nat × K) → List K → List K → SolverResult K
  /-- how a stream prints a `double` -/
  formatDouble : K → String
  /-- `Cell::calcCellExplicit`, which reads the previous temperatures -/
  calcCellExplicit : Ground K → Nat → K
  /-- `Cell::calcCellADEUp`: the vector `U` after the call -/
  calcCellADEUp : Ground K → Nat → List K
  /-- `Cell::calcCellADEDown`: the vector `V` after the call -/
  calcCellADEDown : Ground K → Nat → List K
  /-- `Cell::calcCellMatrix` -/
  calcCellMatrix : NumericalScheme → Ground K → Nat → MatrixRow K
  /-- `Cell::calcCellADI` -/
  calcCellADI : Nat → Ground K → Nat → ADIRow K
  /-- `cos`, `sin` of `<cmath>` and the constant `PI` -/
  cos : K → K
  sin : K → K
  PI : K

variable {K : Type} [LinearOrderedField K]

/-! ## Surface aggregation (`Ground.cpp` 337–471) -/

/-- `Ground::getConvectionCoeff`. -/
def getConvectionCoeff (E : Externals K) (foundation : Foundation K)
    (Tsurf Tamb Vair roughness : K) (isExterior : Bool) (tilt : K) : K :=
  if foundation.convectionCalculationMethod = ConvectionCalculationMethod.CCM_AUTO then
    E.getDOE2ConvectionCoeff tilt 0 0 Tsurf Tamb Vair roughness
  else
    if isExterior then foundation.exteriorConvectiveCoefficient
    else foundation.interiorConvectiveCoefficient

/-- `Ground::getSurfaceArea`. -/
def getSurfaceArea (g : Ground K) (surfaceType : SurfaceType) : K :=
  g.foundation.surfaces.foldl
    (fun totalArea s => if s.type = surfaceType then totalArea + s.area else totalArea) 0

/-- The three running sums of `calculateSurfaceAverages`. -/
structure SurfaceSums (K : Type) where
  totalHeatTransferRate : K
  HA : K
  totalArea : K

/-- `TNew[index]`; the indices held by a surface are cell indices of the domain. -/
def tempAt (g : Ground K) (index : Nat) : K := g.TNew.getD index 0

/-- `domain.cell[index]`. -/
def cellAt (g : Ground K) (index : Nat) : Cell K :=
  g.cell.getD index
    { index := index, area := 0, heatGain := 0, emissivity := 0, absorptivity := 0,
      i_up := 0, i_down := 0, j_up := 0, j_down := 0, k_up := 0, k_down := 0 }

/-- `domain.cell[index]->area`. -/
def areaAt (g : Ground K) (index : Nat) : K := (cellAt g index).area

/-- `domain.cell[index]->surfacePtr->emissivity`. -/
def emissivityAt (g : Ground K) (index : Nat) : K := (cellAt g index).emissivity

/-- The combined coefficient `h` of one cell (`Ground.cpp` 416–418). -/
def cellH (E : Externals K) (g : Ground K) (tilt : K) (index : Nat) : K :=
  getConvectionCoeff E g.foundation (tempAt g index) g.bcs.indoorTemp 0 (208 / 100000) false tilt
    + E.getSimpleInteriorIRCoeff (emissivityAt g index) (tempAt g index) g.bcs.indoorTemp

/-- One pass of the loop over `foundation.surfaces[s].indices` (413–436). -/
def accumulateCell (E : Externals K) (g : Ground K) (tilt : K)
    (acc : SurfaceSums K) (index : Nat) : SurfaceSums K :=
  let h := cellH E g tilt index
  let A := areaAt g index
  let Tair := g.bcs.indoorTemp
  { totalArea := acc.totalArea + A
    totalHeatTransferRate := acc.totalHeatTransferRate + h * A * (Tair - tempAt g index)
    HA := acc.HA + h * A }

/-- One pass of the loop over `foundation.surfaces` (401–443). -/
def accumulateSurface (E : Externals K) (g : Ground K) (surface : SurfaceType)
    (acc : SurfaceSums K) (s : Surface K) : SurfaceSums K :=
  let tilt := s.tilt
  if s.type = surface then s.indices.foldl (accumulateCell E g tilt) acc else acc

/-- The sums held when the test `totalArea > 0.0` is reached (392–444). -/
def surfaceSums (E : Externals K) (g : Ground K) (surface : SurfaceType) : SurfaceSums K :=
  let zero : SurfaceSums K := { totalHeatTransferRate := 0, HA := 0, totalArea := 0 }
  if g.foundation.hasSurface surface then
    g.foundation.surfaces.foldl (accumulateSurface E g surface) zero
  else zero

/-- The assignment `outputValues[key] = val`. -/
def setOutputValue (m : OutputValues K) (key : SurfaceType × OutputType) (val : K) :
    OutputValues K :=
  fun k => if k = key then some val else m k

/-- The choice of `constructionRValue` (379–390). -/
def constructionRValue (g : Ground K) (surface : SurfaceType) : K :=
  if surface = SurfaceType.ST_SLAB_CORE then g.foundation.slabTotalResistance
  else if surface = SurfaceType.ST_SLAB_PERIM then g.foundation.slabTotalResistance
  else if surface = SurfaceType.ST_WALL_INT then g.foundation.wallTotalResistance
  else 0

/-- The body of the loop over `groundOutput.outputMap` (376–464), acting on the
output table.  The second component lists the divisor of every division the
body executes, in program order.  Where a listed divisor is 0 the code's
quotient is not a number; the value stored for it here is that of the field's
division and is given no meaning by the theorems below. -/
def storeSurfaceAverages (E : Externals K) (g : Ground K) (surface : SurfaceType)
    (m : OutputValues K) : OutputValues K × List K :=
  let constructionRValue := constructionRValue g surface
  let surfaceArea := g.foundation.surfaceAreas surface
  let sums := surfaceSums E g surface
  let totalHeatTransferRate := sums.totalHeatTransferRate
  let HA := sums.HA
  let totalArea := sums.totalArea
  let Tair := g.bcs.indoorTemp
  if totalArea > 0 then
    let Tavg := Tair - totalHeatTransferRate / HA
    let hAvg := HA / totalArea
    let m := setOutputValue m (surface, OutputType.OT_TEMP) Tavg
    let m := setOutputValue m (surface, OutputType.OT_FLUX) (totalHeatTransferRate / totalArea)
    let m := setOutputValue m (surface, OutputType.OT_RATE)
      (totalHeatTransferRate / totalArea * surfaceArea)
    let m := setOutputValue m (surface, OutputType.OT_CONV) hAvg
    let m := setOutputValue m (surface, OutputType.OT_EFF_TEMP)
      (Tair - (totalHeatTransferRate / totalArea) * (constructionRValue + 1 / hAvg) - 27315 / 100)
    (m, [HA, totalArea, totalArea, totalArea, totalArea, hAvg])
  else
    let m := setOutputValue m (surface, OutputType.OT_TEMP) Tair
    let m := setOutputValue m (surface, OutputType.OT_FLUX) 0
    let m := setOutputValue m (surface, OutputType.OT_RATE) 0
    let m := setOutputValue m (surface, OutputType.OT_CONV) 0
    let m := setOutputValue m (surface, OutputType.OT_EFF_TEMP) (Tair - 27315 / 100)
    (m, [])

/-- The loop of `calculateSurfaceAverages` over a list of output-map entries:
the state is the output table and the log of divisions, each tagged with the
surface type whose iteration executed it. -/
def surfaceAveragesLoop (E : Externals K) (g : Ground K)
    (entries : List (SurfaceType × List OutputType))
    (state : OutputValues K × List (SurfaceType × K)) : OutputValues K × List (SurfaceType × K) :=
  entries.foldl
    (fun st output =>
      let surface := output.1
      let r := storeSurfaceAverages E g surface st.1
      (r.1, st.2 ++ r.2.map (fun d => (surface, d))))
    state

/-- `Ground::calculateSurfaceAverages`: the new `Ground` and the divisions
executed by the call. -/
def calculateSurfaceAverages (E : Externals K) (g : Ground K) :
    Ground K × List (SurfaceType × K) :=
  let r := surfaceAveragesLoop E g g.outputMap (g.outputValues, [])
  ({ g with outputValues := r.1 }, r.2)

/-- `Ground::getSurfaceAverageValue`: the value returned and the `Ground` after
the call.  `outputValues[output]` on a `std::map` returns the value of a key
that is present; for a key that is absent it inserts the key with the value
0.0 and returns that. -/
def getSurfaceAverageValue (g : Ground K) (output : SurfaceType × OutputType) :
    K × Ground K :=
  match g.outputValues output with
  | some val => (val, g)
  | none => (0, { g with outputValues := setOutputValue g.outputValues output 0 })

/-! ### The sums of §4.5, written as in the specification -/

/-- The cells of the surfaces of one type: the pair (tilt of the surface, cell
index) for every index held by a surface of that type. -/
def cellsOfSurfaces (surface : SurfaceType) : List (Surface K) → List (K × Nat)
  | [] => []
  | s :: rest =>
    (if s.type = surface then s.indices.map (fun index => (s.tilt, index)) else [])
      ++ cellsOfSurfaces surface rest

/-- The cells contributing to a surface type; none when the foundation does
not have the surface. -/
def contributingCells (g : Ground K) (surface : SurfaceType) : List (K × Nat) :=
  if g.foundation.hasSurface surface then cellsOfSurfaces surface g.foundation.surfaces else []

/-- Sum of `A_c` over the contributing cells. -/
def sumA (g : Ground K) (surface : SurfaceType) : K :=
  ((contributingCells g surface).map (fun c => areaAt g c.2)).sum

/-- Sum of `A_c * T_c` over the contributing cells. -/
def sumAT (g : Ground K) (surface : SurfaceType) : K :=
  ((contributingCells g surface).map (fun c => areaAt g c.2 * tempAt g c.2)).sum

/-- Sum of `h_c * A_c` over the contributing cells. -/
def sumHA (E : Externals K) (g : Ground K) (surface : SurfaceType) : K :=
  ((contributingCells g surface).map (fun c => cellH E g c.1 c.2 * areaAt g c.2)).sum

/-- Sum of `h_c * A_c * T_c` over the contributing cells. -/
def sumHAT (E : Externals K) (g : Ground K) (surface : SurfaceType) : K :=
  ((contributingCells g surface).map
    (fun c => cellH E g c.1 c.2 * areaAt g c.2 * tempAt g c.2)).sum

/-- Sum of `h_c * A_c * (Tair - T_c)` over the contributing cells. -/
def sumHAdT (E : Externals K) (g : Ground K) (surface : SurfaceType) : K :=
  ((contributingCells g surface).map
    (fun c => cellH E g c.1 c.2 * areaAt g c.2 * (g.bcs.indoorTemp - tempAt g c.2))).sum

/-! ## Boundary-layer table (`Ground.cpp` 473–586) -/

/-- The value of a `std::size_t` expression: arithmetic is modulo `2 ^ 64`. -/
def sizeT (n : Nat) : Nat := n % 2 ^ 64

/-- The local variables of the first loop of `calculateBoundaryLayer`. -/
structure RayState (K : Type) where
  x2s : List K
  fluxSums : List K
  fluxSum : K
  x1_0 : K
  firstIndex : Bool

/-- The body of the loop over `i` (507–527).  `Qz i` is the vertical flux of the
cell of column `i` returned by `calculateHeatFlux`; `dividers` is
`pre.domain.meshX.dividers`.  A read outside a vector is `none`. -/
def rayStep (dividers : List K) (Qz : Nat → K) (st : RayState K) (i : Nat) :
    Option (RayState K) :=
  match dividers.get? i, dividers.get? (i + 1) with
  | some x1, some x2 =>
    if Qz i > 0 then
      let fluxSum := st.fluxSum + max (Qz i) 0 * (x2 - x1)
      some
        { fluxSum := fluxSum
          x1_0 := if st.firstIndex then x1 else st.x1_0
          x2s := st.x2s ++ [x2]
          fluxSums := st.fluxSums ++ [fluxSum]
          firstIndex := false }
    else some st
  | _, _ => none

/-- The loop `for (size_t i = i_min; i < pre.nX; i++)` (507–527), over the list
of the indices it visits. -/
def rayLoop (dividers : List K) (Qz : Nat → K) : List Nat → RayState K → Option (RayState K)
  | [], st => some st
  | i :: rest, st =>
    match rayStep dividers Qz st i with
    | some st1 => rayLoop dividers Qz rest st1
    | none => none

/-- The loop `for (size_t i = 0; i < fluxSums.size() - 1; i++)` (536–540) from
index `i` on; `bound` is the value of `fluxSums.size() - 1`.  A read of `x2s` or
`fluxSums` outside the vector is `none`. -/
def tableLoop (x2s fluxSums : List K) (x1_0 fluxSum : K) (bound : Nat) (i : Nat)
    (boundaryLayer : List (K × K)) : Option (List (K × K)) :=
  if i < bound then
    match x2s.get? i, fluxSums.get? i with
    | some x2, some fs =>
      tableLoop x2s fluxSums x1_0 fluxSum bound (i + 1)
        (boundaryLayer ++ [(x2 - x1_0, fs / fluxSum)])
    | _, _ => none
  else some boundaryLayer
termination_by bound - i

/-- `Ground::calculateBoundaryLayer` from line 491 on: the table it leaves in
`boundaryLayer`, or `none` when it reads outside a vector.  The auxiliary
simulation of lines 475–489 is summarised by its mesh (`dividers`, `nX`), the
flux `Qz` along the ray and the start column `i_min`. -/
def calculateBoundaryLayer (dividers : List K) (Qz : Nat → K) (i_min nX : Nat)
    (boundaryLayer : List (K × K)) : Option (List (K × K)) :=
  match rayLoop dividers Qz (List.range' i_min (nX - i_min))
      { x2s := [], fluxSums := [], fluxSum := 0, x1_0 := 0, firstIndex := true } with
  | none => none
  | some st =>
    tableLoop st.x2s st.fluxSums st.x1_0 st.fluxSum (sizeT (st.fluxSums.length + 2 ^ 64 - 1)) 0
      (boundaryLayer ++ [(0, 0)])

/-- The loop of `getBoundaryValue` (551–560): index `i` runs over the pairs of
neighbouring entries `boundaryLayer[i]`, `boundaryLayer[i+1]`, and a later
bracket overwrites `val`. -/
def boundaryValueLoop (dist : K) : List (K × K) → K → K
  | p :: q :: rest, val =>
    boundaryValueLoop dist (q :: rest)
      (if dist ≥ p.1 ∧ dist < q.1 then
        let m := (q.1 - p.1) / (q.2 - p.2)
        (dist - p.1) / m + p.2
      else val)
  | _, val => val

/-- `Ground::getBoundaryValue`.  On an empty table `boundaryLayer.size()-1`
is `SIZE_MAX` and the first read is outside the vector: `none`. -/
def getBoundaryValue (boundaryLayer : List (K × K)) (dist : K) : Option K :=
  match boundaryLayer.getLast? with
  | none => none
  | some last =>
    if dist > last.1 then some 1
    else some (boundaryValueLoop dist boundaryLayer 0)

/-- The loop of `getBoundaryDistance` (574–583). -/
def boundaryDistanceLoop (val : K) : List (K × K) → K → K
  | p :: q :: rest, dist =>
    boundaryDistanceLoop val (q :: rest)
      (if val ≥ p.2 ∧ val < q.2 then
        let m := (q.2 - p.2) / (q.1 - p.1)
        (val - p.2) / m + p.1
      else dist)
  | _, dist => dist

/-- Modelled from the spec: `showMessage` is defined in `Errors.cpp`, which is
not part of the excerpt.  Following §7 ("reported ... rather than propagating
a fault") the message is appended to the log of reported messages and control
returns to the caller. -/
def showMessage (log : List Message) (type : MessageType) (text : String) : List Message :=
  log ++ [{ messageType := type, text := text }]

/-- `Ground::getBoundaryDistance`: the value returned (`none` when the table is
read outside its bounds, which happens on an empty table only) and the
messages emitted. -/
def getBoundaryDistance (boundaryLayer : List (K × K)) (val : K) : Option K × List Message :=
  if val > 1 ∨ val < 0 then
    (some 0, showMessage [] MessageType.MSG_ERR "Boundary value passed not between 0.0 and 1.0.")
  else
    match boundaryLayer with
    | [] => (none, [])
    | _ :: _ => (some (boundaryDistanceLoop val boundaryLayer 0), [])

/-- What the first loop of `calculateBoundaryLayer` maintains when column
`i` is the next one to be visited: the two vectors have one length, at most
`i`; `x2s` is strictly increasing, above `x1_0` and not beyond divider `i`;
`fluxSums` is strictly increasing, positive and bounded by `fluxSum`; and a
positive flux seen so far has left an entry. -/
def RayInvariant (dividers : List K) (Qz : Nat → K) (i_min : Nat) (st : RayState K)
    (i : Nat) : Prop :=
  st.x2s.length = st.fluxSums.length
  ∧ st.x2s.length ≤ i
  ∧ (st.firstIndex = true → st.x2s = [])
  ∧ (st.firstIndex = false → ∀ d, dividers.get? i = some d → st.x1_0 ≤ d)
  ∧ ((∃ j, i_min ≤ j ∧ j < i ∧ Qz j > 0) → st.fluxSums ≠ [])
  ∧ st.x2s.Pairwise (fun a b => a < b)
  ∧ (∀ x ∈ st.x2s, st.x1_0 < x ∧ ∀ d, dividers.get? i = some d → x ≤ d)
  ∧ st.fluxSums.Pairwise (fun a b => a < b)
  ∧ (∀ f ∈ st.fluxSums, 0 < f ∧ f ≤ st.fluxSum)
  ∧ 0 ≤ st.fluxSum

/-- A table whose distance column and fraction column are both
non-decreasing. -/
def NonDecreasing (boundaryLayer : List (K × K)) : Prop :=
  boundaryLayer.Pairwise (fun p q => p.1 ≤ q.1 ∧ p.2 ≤ q.2)

/-- A table that is strictly increasing in its distance column and in its
fraction column. -/
def StrictlyIncreasing (boundaryLayer : List (K × K)) : Prop :=
  boundaryLayer.Chain' (fun p q => p.1 < q.1 ∧ p.2 < q.2)

/-- The condition under which the tri-diagonal representation is to be used:
the scheme is ADI or the problem is one-dimensional. -/
def usesTDM (foundation : Foundation K) : Prop :=
  foundation.numericalScheme = NumericalScheme.NS_ADI ∨ foundation.numberOfDimensions = 1

/-! ## Linear-system management (`Ground.cpp` 17, 34–76, 220–335) -/

/-- The constant `static const bool TDMA = true`. -/
def TDMA : Bool := true

/-- `v.resize(n, val)`. -/
def resize (v : List K) (n : Nat) (val : K) : List K :=
  v.take n ++ List.replicate (n - v.length) val

/-- What `foundation.createMeshData()` and `domain.setDomain(foundation)` leave
in `domain`: the cells, the traversal orders and the three mesh sizes. -/
structure Domain (K : Type) where
  cell : List (Cell K)
  dest_index_vector : List (List Nat)
  meshXcenters : Nat
  meshYcenters : Nat
  meshZcenters : Nat

/-- `Ground::buildDomain`, given the domain built by the mesher.  `Amat` is
rebuilt from `tripletList` at every solve and `reserve` changes no value, so
neither appears; `link_cells_to_temp` only stores pointers into `TOld`, which
the cell kernels of `Externals` read from the `Ground` they are given.  The
entries that a `resize` without fill value adds are written as 0; only the
sizes are used below. -/
def buildDomain (domain : Domain K) (g : Ground K) : Ground K :=
  let g := { g with cell := domain.cell, dest_index_vector := domain.dest_index_vector }
  let g := { g with nX := domain.meshXcenters, nY := domain.meshYcenters,
                    nZ := domain.meshZcenters }
  let g := { g with num_cells := sizeT (g.nX * g.nY * g.nZ) }
  let g :=
    if g.foundation.numericalScheme = NumericalScheme.NS_ADE then
      { g with U := resize g.U g.num_cells 0, V := resize g.V g.num_cells 0 }
    else g
  let g :=
    if (g.foundation.numericalScheme = NumericalScheme.NS_ADI ∨
        g.foundation.numberOfDimensions = 1) ∧ TDMA = true then
      { g with a1 := resize g.a1 g.num_cells 0, a2 := resize g.a2 g.num_cells 0,
               a3 := resize g.a3 g.num_cells 0, b_ := resize g.b_ g.num_cells 0,
               x_ := resize g.x_ g.num_cells 0 }
    else g
  let g := { g with solverMaxIterations := g.foundation.maxIterations,
                    solverTolerance := g.foundation.tolerance }
  let g := { g with b := resize g.b g.num_cells 0 }
  let g := { g with x := List.replicate g.num_cells (28315 / 100) }
  let g := { g with TNew := resize g.TNew g.num_cells 0 }
  { g with TOld := resize g.TOld g.num_cells 0 }

/-- `Ground::setAmatValue`. -/
def setAmatValue (g : Ground K) (i j : Nat) (val : K) : Ground K :=
  if (g.foundation.numericalScheme = NumericalScheme.NS_ADI ∨
      g.foundation.numberOfDimensions = 1) ∧ TDMA = true then
    if j < i then { g with a1 := g.a1.set i val }
    else if j = i then { g with a2 := g.a2.set i val }
    else { g with a3 := g.a3.set i val }
  else
    { g with tripletList := g.tripletList ++ [(i, j, val)] }

/-- `Ground::setbValue`. -/
def setbValue (g : Ground K) (i : Nat) (val : K) : Ground K :=
  if (g.foundation.numericalScheme = NumericalScheme.NS_ADI ∨
      g.foundation.numberOfDimensions = 1) ∧ TDMA = true then
    { g with b_ := g.b_.set i val }
  else
    { g with b := g.b.set i val }

/-- `Ground::setValuesADI`. -/
def setValuesADI (g : Ground K) (index : Nat) (Am A Ap bVal : K) : Ground K :=
  { g with a1 := g.a1.set index Am, a2 := g.a2.set index A, a3 := g.a3.set index Ap,
           b_ := g.b_.set index bVal }

/-- `Ground::solveLinearSystem`. -/
def solveLinearSystem (E : Externals K) (g : Ground K) : Ground K :=
  if (g.foundation.numericalScheme = NumericalScheme.NS_ADI ∨
      g.foundation.numberOfDimensions = 1) ∧ TDMA = true then
    let r := E.solveTDM { a1 := g.a1, a2 := g.a2, a3 := g.a3, b_ := g.b_, x_ := g.x_ }
    { g with a1 := r.a1, a2 := r.a2, a3 := r.a3, b_ := r.b_, x_ := r.x_ }
  else
    let r := E.solveWithGuess g.solverMaxIterations g.solverTolerance g.num_cells
      g.tripletList g.b g.x
    let g := { g with x := r.x }
    let success := r.success
    if !success then
      let iters := r.iterations
      let residual := r.error
      let ss := "Solution did not converge after " ++ toString iters ++
        " iterations. The final residual was: (" ++ E.formatDouble residual ++ ")."
      { g with messages := showMessage g.messages MessageType.MSG_ERR ss }
    else g

/-- `Ground::clearAmat`. -/
def clearAmat (g : Ground K) : Ground K :=
  if (g.foundation.numericalScheme = NumericalScheme.NS_ADI ∨
      g.foundation.numberOfDimensions = 1) ∧ TDMA = true then
    { g with a1 := List.replicate g.a1.length 0, a2 := List.replicate g.a2.length 0,
             a3 := List.replicate g.a3.length 0, b_ := List.replicate g.b_.length 0 }
  else
    { g with tripletList := [] }

/-- `Ground::getxValue`. -/
def getxValue (g : Ground K) (i : Nat) : K :=
  if (g.foundation.numericalScheme = NumericalScheme.NS_ADI ∨
      g.foundation.numberOfDimensions = 1) ∧ TDMA = true then
    g.x_.getD i 0
  else
    g.x.getD i 0

/-- `Ground::getXvalues`. -/
def getXvalues (g : Ground K) : List K :=
  if (g.foundation.numericalScheme = NumericalScheme.NS_ADI ∨
      g.foundation.numberOfDimensions = 1) ∧ TDMA = true then
    g.x_
  else
    g.x

/-! ## Time-stepping schemes (`Ground.cpp` 78–218) -/

/-- `Ground::calculateADEUpwardSweep`. -/
def calculateADEUpwardSweep (E : Externals K) (g : Ground K) : Ground K :=
  (List.range g.num_cells).foldl (fun g index => { g with U := E.calcCellADEUp g index }) g

/-- The loop of `calculateADEDownwardSweep` from `index` on: it runs while
`index < num_cells` and decrements the unsigned `index` modulo `2 ^ 64`. -/
def downwardSweepLoop (E : Externals K) (num_cells : Nat) (index : Nat) (g : Ground K) :
    Ground K :=
  if index < sizeT num_cells then
    downwardSweepLoop E num_cells (sizeT (index + 2 ^ 64 - 1))
      { g with V := E.calcCellADEDown g index }
  else g
termination_by (if index < sizeT num_cells then index + 1 else 0)
decreasing_by
  simp only [sizeT] at *
  split
  · omega
  · omega

/-- `Ground::calculateADEDownwardSweep`. -/
def calculateADEDownwardSweep (E : Externals K) (g : Ground K) : Ground K :=
  downwardSweepLoop E g.num_cells (sizeT (g.num_cells + 2 ^ 64 - 1)) g

/-- The body of the closing loop of `calculateADE` (90–93). -/
def averageSweeps (g : Ground K) (index : Nat) : Ground K :=
  let g := { g with TNew := g.TNew.set index ((1 / 2) * (g.U.getD index 0 + g.V.getD index 0)) }
  { g with TOld := g.TOld.set index (g.TNew.getD index 0) }

/-- `Ground::calculateADE`.  The two sweeps write `U` and `V` only, so running
them one after the other gives what the two parallel sections give. -/
def calculateADE (E : Externals K) (g : Ground K) : Ground K :=
  let g := calculateADEUpwardSweep E g
  let g := calculateADEDownwardSweep E g
  (List.range g.num_cells).foldl averageSweeps g

/-- `Ground::calculateExplicit`. -/
def calculateExplicit (E : Externals K) (g : Ground K) : Ground K :=
  let g := (List.range g.num_cells).foldl
    (fun g index => { g with TNew := g.TNew.set index (E.calcCellExplicit g index) }) g
  { g with TOld := g.TNew }

/-- The body of the assembly loop of `calculateMatrix` (131–141). -/
def assembleRow (E : Externals K) (scheme : NumericalScheme) (g : Ground K) (index : Nat) :
    Ground K :=
  let this_cell := cellAt g index
  let row := E.calcCellMatrix scheme g index
  let g := setAmatValue g index index row.A
  let g := if row.Aip ≠ 0 then setAmatValue g index this_cell.i_up row.Aip else g
  let g := if row.Aim ≠ 0 then setAmatValue g index this_cell.i_down row.Aim else g
  let g := if row.Ajp ≠ 0 then setAmatValue g index this_cell.j_up row.Ajp else g
  let g := if row.Ajm ≠ 0 then setAmatValue g index this_cell.j_down row.Ajm else g
  let g := if row.Akp ≠ 0 then setAmatValue g index this_cell.k_up row.Akp else g
  let g := if row.Akm ≠ 0 then setAmatValue g index this_cell.k_down row.Akm else g
  setbValue g index row.bVal

/-- `Ground::calculateMatrix`. -/
def calculateMatrix (E : Externals K) (scheme : NumericalScheme) (g : Ground K) : Ground K :=
  let g := (List.range g.num_cells).foldl (assembleRow E scheme) g
  let g := solveLinearSystem E g
  let g := { g with TNew := getXvalues g }
  let g := { g with TOld := g.TNew }
  clearAmat g

/-- The first loop of `calculateADI` (156–165): `pairs` lists, for each step of
the two iterators, the position of `cell_iter` and the value of `*dest_index`. -/
def assembleADI (E : Externals K) (dim : Nat) (pairs : List (Nat × Nat)) (g : Ground K) :
    Ground K :=
  pairs.foldl
    (fun g p =>
      let row := E.calcCellADI dim g p.1
      setValuesADI g p.2 row.Am row.A row.Ap row.bVal)
    g

/-- The second loop of `calculateADI` (169–173). -/
def readBackADI (pairs : List (Nat × Nat)) (g : Ground K) : Ground K :=
  pairs.foldl (fun g p => { g with TNew := g.TNew.set p.1 (g.x_.getD p.2 0) }) g

/-- `Ground::calculateADI`. -/
def calculateADI (E : Externals K) (dim : Nat) (g : Ground K) : Ground K :=
  let dest := g.dest_index_vector.getD (dim - 1) []
  let g := assembleADI E dim dest.enum g
  let g := solveLinearSystem E g
  let g := readBackADI dest.enum g
  let g := { g with TOld := g.TNew }
  clearAmat g

/-- The traversal order `domain.dest_index_vector[dim-1]` used by
`calculateADI(dim)`. -/
def destIndexOf (g : Ground K) (dim : Nat) : List Nat :=
  g.dest_index_vector.getD (dim - 1) []

/-- The assignment `domain.cell[index]->heatGain = q`. -/
def setHeatGain (g : Ground K) (index : Nat) (q : K) : Ground K :=
  { g with cell := g.cell.set index { cellAt g index with heatGain := q } }

/-- The incidence computed for one surface by `setSolarBoundaryConditions`
(698–806). -/
def solarIncidence (E : Externals K) (g : Ground K) (s : Surface K) : K :=
  let azi := g.bcs.solarAzimuth
  let alt := g.bcs.solarAltitude
  let aziYPos := g.foundation.orientation
  let aziXPos := E.PI / 2 + g.foundation.orientation
  let aziYNeg := E.PI + g.foundation.orientation
  let aziXNeg := 3 * E.PI / 2 + g.foundation.orientation
  let incidence : K :=
    if s.orientation = Orientation.Z_POS then E.cos (E.PI / 2 - alt)
    else if s.orientation = Orientation.Z_NEG then E.cos (E.PI / 2 - alt - E.PI)
    else
      if g.foundation.numberOfDimensions = 2 then E.cos alt / E.PI
      else
        let aziSurf :=
          if s.orientation = Orientation.Y_POS then aziYPos
          else if s.orientation = Orientation.X_POS then aziXPos
          else if s.orientation = Orientation.Y_NEG then aziYNeg
          else aziXNeg
        if g.foundation.numberOfDimensions = 3 ∧ g.foundation.useSymmetry = false then
          E.cos alt * E.cos (azi - aziSurf)
        else
          let incidence : K := 0
          let incidence :=
            if s.orientation = Orientation.Y_POS ∨ s.orientation = Orientation.Y_NEG then
              if g.foundation.isXSymm = true then
                let incidenceYPos := E.cos alt * E.cos (azi - aziYPos)
                let incidenceYPos := if incidenceYPos < 0 then 0 else incidenceYPos
                let incidenceYNeg := E.cos alt * E.cos (azi - aziYNeg)
                let incidenceYNeg := if incidenceYNeg < 0 then 0 else incidenceYNeg
                (incidenceYPos + incidenceYNeg) / 2
              else E.cos alt * E.cos (azi - aziSurf)
            else incidence
          if s.orientation = Orientation.X_POS ∨ s.orientation = Orientation.X_NEG then
            if g.foundation.isYSymm = true then
              let incidenceXPos := E.cos alt * E.cos (azi - aziXPos)
              let incidenceXPos := if incidenceXPos < 0 then 0 else incidenceXPos
              let incidenceXNeg := E.cos alt * E.cos (azi - aziXNeg)
              let incidenceXNeg := if incidenceXNeg < 0 then 0 else incidenceXNeg
              (incidenceXPos + incidenceXNeg) / 2
            else E.cos alt * E.cos (azi - aziSurf)
          else incidence
  let incidence := if E.sin alt < 0 then 0 else incidence
  if incidence < 0 then 0 else incidence

/-- `Ground::setSolarBoundaryConditions`. -/
def setSolarBoundaryConditions (E : Externals K) (g : Ground K) : Ground K :=
  if g.foundation.numberOfDimensions = 1 then g
  else
    g.foundation.surfaces.foldl
      (fun g s =>
        if s.type = SurfaceType.ST_GRADE ∨ s.type = SurfaceType.ST_WALL_EXT then
          let alt := g.bcs.solarAltitude
          let qDN := g.bcs.directNormalFlux
          let qDH := g.bcs.diffuseHorizontalFlux
          let qGH := E.cos (E.PI / 2 - alt) * qDN + qDH
          let tilt := s.tilt
          let incidence := solarIncidence E g s
          let Fsky := (1 + E.cos tilt) / 2
          let Fg := 1 - Fsky
          let rho_g := 1 - g.foundation.soilAbsorptivity
          s.indices.foldl
            (fun g index =>
              let alpha := (cellAt g index).absorptivity
              let q :=
                if qGH > 0 then
                  let pssf := incidence
                  alpha * (qDN * pssf + qDH * Fsky + qGH * Fg * rho_g)
                else 0
              setHeatGain g index q)
            g
        else g)
      g

/-- `Ground::setInteriorRadiationBoundaryConditions`. -/
def setInteriorRadiationBoundaryConditions (g : Ground K) : Ground K :=
  g.foundation.surfaces.foldl
    (fun g s =>
      if s.type = SurfaceType.ST_SLAB_CORE ∨ s.type = SurfaceType.ST_SLAB_PERIM ∨
          s.type = SurfaceType.ST_WALL_INT then
        s.indices.foldl
          (fun g index =>
            if s.type = SurfaceType.ST_WALL_INT then setHeatGain g index g.bcs.wallAbsRadiation
            else setHeatGain g index g.bcs.slabAbsRadiation)
          g
      else g)
    g

/-- The first four statements of `Ground::calculate` (183–187). -/
def applyBoundaryConditions (E : Externals K) (g : Ground K)
    (boundaryConditions : BoundaryConditions K) (ts : K) : Ground K :=
  let g := { g with bcs := boundaryConditions }
  let g := { g with timestep := ts }
  let g := setSolarBoundaryConditions E g
  setInteriorRadiationBoundaryConditions g

/-- `Ground::calculate`. -/
def calculate (E : Externals K) (g : Ground K) (boundaryConditions : BoundaryConditions K)
    (ts : K) : Ground K :=
  let g := applyBoundaryConditions E g boundaryConditions ts
  match g.foundation.numericalScheme with
  | NumericalScheme.NS_ADE => calculateADE E g
  | NumericalScheme.NS_EXPLICIT => calculateExplicit E g
  | NumericalScheme.NS_ADI =>
    let g := if g.foundation.numberOfDimensions > 1 then calculateADI E 1 g else g
    let g := if g.foundation.numberOfDimensions = 3 then calculateADI E 2 g else g
    calculateADI E 3 g
  | NumericalScheme.NS_IMPLICIT => calculateMatrix E NumericalScheme.NS_IMPLICIT g
  | NumericalScheme.NS_CRANK_NICOLSON => calculateMatrix E NumericalScheme.NS_CRANK_NICOLSON g
  | NumericalScheme.NS_STEADY_STATE => calculateMatrix E NumericalScheme.NS_STEADY_STATE g

/-! ## Perimeter correction (`Ground.cpp` 588–677) -/

/-- A vertex of `foundation.polygon.outer()`. -/
structure Point (K : Type) where
  x : K
  y : K

/-- Modelled from the spec: the enumeration `Foundation::ReductionStrategy` is
declared in `Foundation.hpp`, which is not part of the excerpt.  The two tags
that `Ground.cpp` names are kept and every other tag is `RS_OTHER n`. -/
inductive ReductionStrategy where
  | RS_AP
  | RS_CUSTOM
  | RS_OTHER (tag : Nat)
  deriving DecidableEq, Repr

/-- Routines of `Geometry.hpp`, `boost::geometry` and `<cmath>` that
`setNewBoundaryGeometry` calls.  Nothing is assumed about them. -/
structure GeometryExternals (K : Type) where
  /-- `boost::geometry::area(polygon)` -/
  area : List (Point K) → K
  /-- `boost::geometry::perimeter(polygon)` -/
  perimeter : List (Point K) → K
  getAngle : Point K → Point K → Point K → K
  getDistance : Point K → Point K → K
  isEqual : K → K → Bool
  sqrt : K → K

/-- The fields of `Foundation` that `setNewBoundaryGeometry` reads and writes;
`polygon` is `polygon.outer()`. -/
structure BoundaryFoundation (K : Type) where
  polygon : List (Point K)
  isExposedPerimeter : List Bool
  reductionStrategy : ReductionStrategy
  twoParameters : Bool
  reductionLength2 : K

/-- The local variables `perimeter` and `interiorPerimeter` of
`setNewBoundaryGeometry`, and the messages emitted so far. -/
structure PerimeterState (K : Type) where
  perimeter : K
  interiorPerimeter : K
  messages : List Message

/-- The indices `vPrev`, `vNext`, `vNext2` computed for vertex `v` of a
polygon of `nV` vertices (597–614); `nV - 1` and `nV - 2` are unsigned. -/
def neighbourIndices (nV v : Nat) : Nat × Nat × Nat :=
  let vPrev := if v = 0 then sizeT (nV + 2 ^ 64 - 1) else sizeT (v + 2 ^ 64 - 1)
  let vNext := if v = sizeT (nV + 2 ^ 64 - 1) then 0 else sizeT (v + 1)
  let vNext2 :=
    if v = sizeT (nV + 2 ^ 64 - 2) then 0
    else if v = sizeT (nV + 2 ^ 64 - 1) then 1
    else sizeT (v + 2)
  (vPrev, vNext, vNext2)

/-- The correction of a U-turn (624–633), once the three edges are known to be
exposed. -/
def correctUTurn (E : Externals K) (G : GeometryExternals K) (boundaryLayer : List (K × K))
    (a b c d : Point K) (st : PerimeterState K) : Option (PerimeterState K) :=
  if G.isEqual (G.getAngle a b c + G.getAngle b c d) E.PI = true then
    let AB := G.getDistance a b
    let BC := G.getDistance b c
    let CD := G.getDistance c d
    let edgeDistance := BC
    let reductionDistance := min AB CD
    match getBoundaryValue boundaryLayer edgeDistance with
    | none => none
    | some value =>
      let reductionValue := 1 - value
      some { st with perimeter := st.perimeter - 2 * reductionDistance * reductionValue }
  else some st

/-- The two chamfer legs (649–658): the new values of `A` and `B`. -/
def chamferLegs (A B d : K) : K × K :=
  if A < d ∨ B < d then
    let A := min A B
    let B := min A B
    (A, B)
  else
    (d, d)

/-- The chamfer distance `d` (645–648) for the angle `alpha` and the distance
`dist` returned by `getBoundaryDistance`. -/
def chamferDistance (E : Externals K) (alpha dist : K) : K :=
  let f := dist / E.sin (alpha / 2)
  f / E.cos (alpha / 2)

/-- The chamfer of a corner (638–663), once its two edges are known to be
exposed. -/
def chamferCorner (E : Externals K) (G : GeometryExternals K) (boundaryLayer : List (K × K))
    (a b c : Point K) (st : PerimeterState K) : Option (PerimeterState K) :=
  let alpha := G.getAngle a b c
  let A := G.getDistance a b
  let B := G.getDistance b c
  if E.sin alpha > 0 then
    let r := getBoundaryDistance boundaryLayer
      (1 - E.sin (alpha / 2) / (1 + E.cos (alpha / 2)))
    match r.1 with
    | none => none
    | some dist =>
      let d := chamferDistance E alpha dist
      let legs := chamferLegs A B d
      let A := legs.1
      let B := legs.2
      let C := G.sqrt (A * A + B * B - 2 * A * B * E.cos alpha)
      some { perimeter := st.perimeter + (C - (A + B))
             interiorPerimeter := st.interiorPerimeter
             messages := st.messages ++ r.2 }
  else some st

/-- The first `if` of the loop body (622–634): `isExposedPerimeter[vNext]` is
read only when the two flags before it are set. -/
def uTurnPart (E : Externals K) (G : GeometryExternals K) (boundaryLayer : List (K × K))
    (isExposedPerimeter : List Bool) (vNext : Nat) (a b c d : Point K)
    (exposedPrev exposedV : Bool) (st : PerimeterState K) : Option (PerimeterState K) :=
  if (exposedPrev && exposedV) = true then
    match isExposedPerimeter[vNext]? with
    | none => none
    | some exposedNext =>
      if exposedNext = true then correctUTurn E G boundaryLayer a b c d st else some st
  else some st

/-- The body of the loop over the vertices (597–669); a read outside the
polygon or outside `isExposedPerimeter` is `none`. -/
def vertexStep (E : Externals K) (G : GeometryExternals K) (boundaryLayer : List (K × K))
    (fnd : BoundaryFoundation K) (nV : Nat) (st : PerimeterState K) (v : Nat) :
    Option (PerimeterState K) :=
  let vPrev := (neighbourIndices nV v).1
  let vNext := (neighbourIndices nV v).2.1
  let vNext2 := (neighbourIndices nV v).2.2
  match fnd.polygon[vPrev]?, fnd.polygon[v]?, fnd.polygon[vNext]?, fnd.polygon[vNext2]?,
      fnd.isExposedPerimeter[vPrev]?, fnd.isExposedPerimeter[v]? with
  | some a, some b, some c, some d, some exposedPrev, some exposedV =>
    match uTurnPart E G boundaryLayer fnd.isExposedPerimeter vNext a b c d
        exposedPrev exposedV st with
    | none => none
    | some st1 =>
      match (if (exposedPrev && exposedV) = true then chamferCorner E G boundaryLayer a b c st1
          else some st1) with
      | none => none
      | some st2 =>
        if (!exposedV) = true then
          some { st2 with interiorPerimeter := st2.interiorPerimeter + G.getDistance b c }
        else some st2
  | _, _, _, _, _, _ => none

/-- The loop `for (v = 0; v < nV; v++)` over the list of the vertices it
visits. -/
def vertexLoop (E : Externals K) (G : GeometryExternals K) (boundaryLayer : List (K × K))
    (fnd : BoundaryFoundation K) (nV : Nat) : List Nat → PerimeterState K →
    Option (PerimeterState K)
  | [], st => some st
  | v :: rest, st =>
    match vertexStep E G boundaryLayer fnd nV st v with
    | none => none
    | some st1 => vertexLoop E G boundaryLayer fnd nV rest st1

/-- `Ground::setNewBoundaryGeometry`: the foundation fields after the call and
the final values of `perimeter` and `interiorPerimeter`, or `none` when a
vector is read outside its bounds. -/
def setNewBoundaryGeometry (E : Externals K) (G : GeometryExternals K)
    (boundaryLayer : List (K × K)) (fnd : BoundaryFoundation K) :
    Option (BoundaryFoundation K × PerimeterState K) :=
  let area := G.area fnd.polygon
  let perimeter := G.perimeter fnd.polygon
  let interiorPerimeter : K := 0
  let nV := fnd.polygon.length
  match vertexLoop E G boundaryLayer fnd nV (List.range nV)
      { perimeter := perimeter, interiorPerimeter := interiorPerimeter, messages := [] } with
  | none => none
  | some st =>
    let fnd := { fnd with reductionStrategy := ReductionStrategy.RS_CUSTOM }
    let fnd := { fnd with twoParameters := false }
    some ({ fnd with reductionLength2 := area / (st.perimeter - st.interiorPerimeter) }, st)

/-! ## Concrete data used to evaluate the definitions -/

/-- External routines over `ℚ`: the long-wave coefficient of a cell is its
emissivity, the tri-diagonal solve returns the right-hand side as solution, the
sparse solve returns its right-hand side and reports failure after 7
iterations, and the cell kernels return fixed rows. -/
def exampleExternals : Externals ℚ where
  getDOE2ConvectionCoeff := fun _ _ _ _ _ _ _ => 0
  getSimpleInteriorIRCoeff := fun emissivity _ _ => emissivity
  solveTDM := fun v => { v with x_ := v.b_ }
  solveWithGuess := fun _ _ _ _ b _ => { x := b, success := false, iterations := 7, error := 1 / 2 }
  formatDouble := fun _ => "0.5"
  calcCellExplicit := fun g index => g.TOld.getD index 0 + 1
  calcCellADEUp := fun g index => g.U.set index (g.TOld.getD index 0 + 1)
  calcCellADEDown := fun g index => g.V.set index (g.TOld.getD index 0 + 3)
  calcCellMatrix := fun _ g index =>
    { A := 1, Aip := 0, Aim := 0, Ajp := 0, Ajm := 0, Akp := 0, Akm := 0,
      bVal := g.TOld.getD index 0 + 1 }
  calcCellADI := fun dim g index => { Am := 0, A := 1, Ap := 0, bVal := g.TOld.getD index 0 + dim }
  cos := fun _ => 1
  sin := fun _ => 0
  PI := 3

/-- A cell of area `area`, emissivity `emissivity` and index `index`. -/
def exampleCell (index : Nat) (area emissivity : ℚ) : Cell ℚ :=
  { index := index, area := area, heatGain := 0, emissivity := emissivity, absorptivity := 0,
    i_up := 0, i_down := 0, j_up := 0, j_down := 0, k_up := 0, k_down := 0 }

/-- A foundation with one slab-core surface made of cells 0 and 1, constant
convective coefficients equal to 0, slab resistance 2 and slab-core area 5. -/
def exampleFoundation (scheme : NumericalScheme) (numberOfDimensions : Nat) : Foundation ℚ :=
  { numericalScheme := scheme
    numberOfDimensions := numberOfDimensions
    convectionCalculationMethod := ConvectionCalculationMethod.CCM_CONSTANT_COEFFICIENT
    interiorConvectiveCoefficient := 0
    exteriorConvectiveCoefficient := 0
    surfaces := [{ type := SurfaceType.ST_SLAB_CORE, orientation := Orientation.Z_POS,
                   tilt := 0, area := 5, indices := [0, 1] }]
    surfaceAreas := fun s => if s = SurfaceType.ST_SLAB_CORE then 5 else 0
    hasSurface := fun s => decide (s = SurfaceType.ST_SLAB_CORE)
    slabTotalResistance := 2
    wallTotalResistance := 0
    orientation := 0
    useSymmetry := false
    isXSymm := false
    isYSymm := false
    soilAbsorptivity := 0
    maxIterations := 100
    tolerance := 1 / 1000 }

/-- Indoor air at 10, everything else 0. -/
def exampleBCs : BoundaryConditions ℚ :=
  { indoorTemp := 10, outdoorTemp := 0, localWindSpeed := 0, solarAzimuth := 0,
    solarAltitude := 0, directNormalFlux := 0, diffuseHorizontalFlux := 0,
    slabAbsRadiation := 0, wallAbsRadiation := 0 }

/-- A two-cell `Ground` as `buildDomain` leaves it, tracking the slab core. -/
def exampleGround (scheme : NumericalScheme) (numberOfDimensions : Nat)
    (cells : List (Cell ℚ)) (TNew : List ℚ) : Ground ℚ :=
  { foundation := exampleFoundation scheme numberOfDimensions
    bcs := exampleBCs
    timestep := 1
    cell := cells
    dest_index_vector := [[1, 0], [0, 1], [1, 0]]
    nX := 2, nY := 1, nZ := 1, num_cells := 2
    U := [0, 0], V := [0, 0]
    a1 := [0, 0], a2 := [0, 0], a3 := [0, 0], b_ := [0, 0], x_ := [0, 0]
    tripletList := []
    solverMaxIterations := 100
    solverTolerance := 1 / 1000
    b := [0, 0], x := [28315 / 100, 28315 / 100]
    TNew := TNew, TOld := TNew
    outputMap := [(SurfaceType.ST_SLAB_CORE, [OutputType.OT_RATE])]
    outputValues := fun _ => none
    boundaryLayer := []
    messages := [] }

/-- Two slab cells of area 0. -/
def zeroAreaGround : Ground ℚ :=
  exampleGround NumericalScheme.NS_STEADY_STATE 2 [exampleCell 0 0 1, exampleCell 1 0 3] [0, 4]

/-- Two slab cells of area 1 with coefficients 1 and 3 and temperatures 0 and 4. -/
def twoCellGround : Ground ℚ :=
  exampleGround NumericalScheme.NS_STEADY_STATE 2 [exampleCell 0 1 1, exampleCell 1 1 3] [0, 4]

/-- Two slab cells of area 1 whose combined coefficients are both 0. -/
def zeroConductanceGround : Ground ℚ :=
  exampleGround NumericalScheme.NS_STEADY_STATE 2 [exampleCell 0 1 0, exampleCell 1 1 0] [0, 4]

/-- A two-cell steady-state state in 2-D: the sparse path.  The solver of
`exampleExternals` reports failure on it. -/
def sparseGround : Ground ℚ :=
  exampleGround NumericalScheme.NS_STEADY_STATE 2 [exampleCell 0 1 1, exampleCell 1 1 3] [0, 4]

/-- A two-cell ADI state in 2-D; its traversal order along axis 1 is [1, 0]. -/
def adiGround : Ground ℚ :=
  exampleGround NumericalScheme.NS_ADI 2 [exampleCell 0 1 1, exampleCell 1 1 3] [0, 4]

/-- The routines of `exampleExternals` with `sin` = 3/5 and `cos` = 4/5 at every
angle. -/
def chamferExternals : Externals ℚ :=
  { exampleExternals with sin := fun _ => 3 / 5, cos := fun _ => 4 / 5 }

/-- Geometry routines over `ℚ` used to evaluate the perimeter correction: every
angle is 2, every distance is 1, and `sqrt` is a stand-in (the identity). -/
def exampleGeometry : GeometryExternals ℚ :=
  { area := fun _ => 144
    perimeter := fun _ => 48
    getAngle := fun _ _ _ => 2
    getDistance := fun _ _ => 1
    isEqual := fun x y => decide (x = y)
    sqrt := fun x => x }

/-- A boundary-layer table with the two entries (0,0) and (1,1). -/
def unitTable : List (ℚ × ℚ) := [(0, 0), (1, 1)]

/-- The routines of `exampleGeometry` with the integer square root of the
integer part in place of `sqrt`. -/
def integerRootGeometry : GeometryExternals ℚ :=
  { exampleGeometry with sqrt := fun x => ((Nat.sqrt ⌊x⌋₊ : Nat) : ℚ) }

/-- A square of four vertices with every edge exposed. -/
def squareFoundation : BoundaryFoundation ℚ :=
  { polygon := [Point.mk 0 0, Point.mk 12 0, Point.mk 12 12, Point.mk 0 12]
    isExposedPerimeter := [true, true, true, true]
    reductionStrategy := ReductionStrategy.RS_AP
    twoParameters := true
    reductionLength2 := 0 }

/-- A two-entry boundary-layer table whose last fraction is 1/2. -/
def exampleTable : List (ℚ × ℚ) := [(0, 0), (1, 1 / 2)]

/-- Mesh dividers of a two-column ray. -/
def exampleDividers : List ℚ := [0, 1, 2]

/-- A ray on which every cell has vertical flux 1. -/
def unitFlux : Nat → ℚ := fun _ => 1

/-- A ray on which no cell has a positive vertical flux. -/
def noFlux : Nat → ℚ := fun _ => 0

/-! ## Surface aggregation: proofs -/

section SurfaceAggregation

open OutputType

theorem setOutputValue_same (m : OutputValues K) (key : SurfaceType × OutputType) (v : K) :
    setOutputValue m key v key = some v := by
  simp [setOutputValue]

theorem setOutputValue_other (m : OutputValues K) (key k : SurfaceType × OutputType) (v : K)
    (h : k ≠ key) : setOutputValue m key v k = m k := by
  simp [setOutputValue, h]

/-- The values written by one iteration do not depend on the table they are
written into. -/
theorem store_own_key (E : Externals K) (g : Ground K) (s : SurfaceType) (ot : OutputType)
    (m m' : OutputValues K) :
    (storeSurfaceAverages E g s m).1 (s, ot) = (storeSurfaceAverages E g s m').1 (s, ot) := by
  unfold storeSurfaceAverages
  by_cases h : (surfaceSums E g s).totalArea > 0
  · cases ot <;> simp [h, setOutputValue]
  · cases ot <;> simp [h, setOutputValue]

/-- One iteration leaves the keys of every other surface type alone. -/
theorem store_other_key (E : Externals K) (g : Ground K) (s s' : SurfaceType)
    (ot : OutputType) (m : OutputValues K) (h : s' ≠ s) :
    (storeSurfaceAverages E g s m).1 (s', ot) = m (s', ot) := by
  unfold storeSurfaceAverages
  by_cases hA : (surfaceSums E g s).totalArea > 0
  · simp [hA, setOutputValue, h]
  · simp [hA, setOutputValue, h]

/-- An iteration that divides has found a positive total area. -/
theorem store_divisors (E : Externals K) (g : Ground K) (s : SurfaceType)
    (m : OutputValues K) (d : K) (hd : d ∈ (storeSurfaceAverages E g s m).2) :
    (surfaceSums E g s).totalArea > 0 := by
  unfold storeSurfaceAverages at hd
  by_cases hA : (surfaceSums E g s).totalArea > 0
  · exact hA
  · simp [hA] at hd

theorem loop_absent_key (E : Externals K) (g : Ground K) (surface : SurfaceType)
    (ot : OutputType) (entries : List (SurfaceType × List OutputType))
    (st : OutputValues K × List (SurfaceType × K))
    (h : surface ∉ entries.map Prod.fst) :
    (surfaceAveragesLoop E g entries st).1 (surface, ot) = st.1 (surface, ot) := by
  induction entries generalizing st with
  | nil => rfl
  | cons e rest ih =>
    simp only [List.map_cons, List.mem_cons, not_or] at h
    have hstep := ih ((storeSurfaceAverages E g e.1 st.1).1,
      st.2 ++ (storeSurfaceAverages E g e.1 st.1).2.map (fun d => (e.1, d))) h.2
    simp only [surfaceAveragesLoop, List.foldl_cons] at hstep ⊢
    rw [hstep]
    exact store_other_key E g e.1 surface ot st.1 h.1

theorem loop_listed_key (E : Externals K) (g : Ground K) (surface : SurfaceType)
    (ot : OutputType) (entries : List (SurfaceType × List OutputType))
    (st : OutputValues K × List (SurfaceType × K)) (m0 : OutputValues K)
    (h : surface ∈ entries.map Prod.fst) :
    (surfaceAveragesLoop E g entries st).1 (surface, ot)
      = (storeSurfaceAverages E g surface m0).1 (surface, ot) := by
  induction entries generalizing st with
  | nil => simp at h
  | cons e rest ih =>
    by_cases hrest : surface ∈ rest.map Prod.fst
    · have hstep := ih ((storeSurfaceAverages E g e.1 st.1).1,
        st.2 ++ (storeSurfaceAverages E g e.1 st.1).2.map (fun d => (e.1, d))) hrest
      simp only [surfaceAveragesLoop, List.foldl_cons] at hstep ⊢
      exact hstep
    · have he : surface = e.1 := by
        simp only [List.map_cons, List.mem_cons] at h
        rcases h with h | h
        · exact h
        · exact absurd h hrest
      have hstep := loop_absent_key E g surface ot rest
        ((storeSurfaceAverages E g e.1 st.1).1,
          st.2 ++ (storeSurfaceAverages E g e.1 st.1).2.map (fun d => (e.1, d))) hrest
      simp only [surfaceAveragesLoop, List.foldl_cons] at hstep ⊢
      rw [hstep, ← he]
      exact store_own_key E g surface ot st.1 m0

theorem loop_divisors (E : Externals K) (g : Ground K)
    (entries : List (SurfaceType × List OutputType))
    (st : OutputValues K × List (SurfaceType × K)) (d : SurfaceType × K)
    (hd : d ∈ (surfaceAveragesLoop E g entries st).2) :
    d ∈ st.2 ∨ (surfaceSums E g d.1).totalArea > 0 := by
  induction entries generalizing st with
  | nil => exact Or.inl hd
  | cons e rest ih =>
    have hstep := ih ((storeSurfaceAverages E g e.1 st.1).1,
      st.2 ++ (storeSurfaceAverages E g e.1 st.1).2.map (fun d => (e.1, d)))
    simp only [surfaceAveragesLoop, List.foldl_cons] at hstep hd
    rcases hstep hd with h | h
    · rcases List.mem_append.mp h with h | h
      · exact Or.inl h
      · obtain ⟨x, hx, rfl⟩ := List.mem_map.mp h
        exact Or.inr (store_divisors E g e.1 st.1 x hx)
    · exact Or.inr h

/-- Surfaces that hold no cell index leave the running sums as they are. -/
theorem foldl_accumulateSurface_no_cells (E : Externals K) (g : Ground K)
    (surface : SurfaceType) (surfaces : List (Surface K)) (acc : SurfaceSums K)
    (h : ∀ s ∈ surfaces, s.type = surface → s.indices = []) :
    surfaces.foldl (accumulateSurface E g surface) acc = acc := by
  induction surfaces generalizing acc with
  | nil => rfl
  | cons s rest ih =>
    have hs : accumulateSurface E g surface acc s = acc := by
      unfold accumulateSurface
      by_cases ht : s.type = surface
      · simp [ht, h s (List.mem_cons_self _ _) ht]
      · simp [ht]
    rw [List.foldl_cons, hs]
    exact ih acc (fun s' hs' => h s' (List.mem_cons_of_mem _ hs'))

/-- The three ways in which a surface has no contributing area. -/
theorem totalArea_zero_cases (E : Externals K) (g : Ground K) (surface : SurfaceType)
    (hzero : g.foundation.hasSurface surface = false
      ∨ (∀ s ∈ g.foundation.surfaces, s.type = surface → s.indices = [])
      ∨ (surfaceSums E g surface).totalArea = 0) :
    (surfaceSums E g surface).totalArea = 0 := by
  rcases hzero with h | h | h
  · simp [surfaceSums, h]
  · unfold surfaceSums
    by_cases hs : g.foundation.hasSurface surface = true
    · simp [hs, foldl_accumulateSurface_no_cells E g surface _ _ h]
    · simp [hs]
  · exact h

theorem foldl_accumulateCell (E : Externals K) (g : Ground K) (tilt : K)
    (indices : List Nat) (acc : SurfaceSums K) :
    (indices.foldl (accumulateCell E g tilt) acc).totalArea
        = acc.totalArea + (indices.map (fun i => areaAt g i)).sum
    ∧ (indices.foldl (accumulateCell E g tilt) acc).HA
        = acc.HA + (indices.map (fun i => cellH E g tilt i * areaAt g i)).sum
    ∧ (indices.foldl (accumulateCell E g tilt) acc).totalHeatTransferRate
        = acc.totalHeatTransferRate + (indices.map
            (fun i => cellH E g tilt i * areaAt g i * (g.bcs.indoorTemp - tempAt g i))).sum := by
  induction indices generalizing acc with
  | nil => simp
  | cons i rest ih =>
    obtain ⟨h1, h2, h3⟩ := ih (accumulateCell E g tilt acc i)
    simp only [List.foldl_cons, List.map_cons, List.sum_cons]
    rw [h1, h2, h3]
    simp only [accumulateCell]
    refine ⟨by ring, by ring, by ring⟩

theorem foldl_accumulateSurface (E : Externals K) (g : Ground K) (surface : SurfaceType)
    (surfaces : List (Surface K)) (acc : SurfaceSums K) :
    (surfaces.foldl (accumulateSurface E g surface) acc).totalArea
        = acc.totalArea + ((cellsOfSurfaces surface surfaces).map (fun c => areaAt g c.2)).sum
    ∧ (surfaces.foldl (accumulateSurface E g surface) acc).HA
        = acc.HA + ((cellsOfSurfaces surface surfaces).map
            (fun c => cellH E g c.1 c.2 * areaAt g c.2)).sum
    ∧ (surfaces.foldl (accumulateSurface E g surface) acc).totalHeatTransferRate
        = acc.totalHeatTransferRate + ((cellsOfSurfaces surface surfaces).map
            (fun c => cellH E g c.1 c.2 * areaAt g c.2 * (g.bcs.indoorTemp - tempAt g c.2))).sum := by
  induction surfaces generalizing acc with
  | nil => simp [cellsOfSurfaces]
  | cons s rest ih =>
    obtain ⟨h1, h2, h3⟩ := ih (accumulateSurface E g surface acc s)
    simp only [List.foldl_cons]
    rw [h1, h2, h3]
    by_cases ht : s.type = surface
    · obtain ⟨c1, c2, c3⟩ := foldl_accumulateCell E g s.tilt s.indices acc
      simp only [accumulateSurface, cellsOfSurfaces, ht, if_true, List.map_append, List.sum_append,
        List.map_map, Function.comp_def]
      rw [c1, c2, c3]
      refine ⟨by ring, by ring, by ring⟩
    · simp [accumulateSurface, cellsOfSurfaces, ht]

/-- The running sums of the code are the sums of the specification. -/
theorem surfaceSums_eq (E : Externals K) (g : Ground K) (surface : SurfaceType) :
    (surfaceSums E g surface).totalArea = sumA g surface
    ∧ (surfaceSums E g surface).HA = sumHA E g surface
    ∧ (surfaceSums E g surface).totalHeatTransferRate = sumHAdT E g surface := by
  unfold surfaceSums sumA sumHA sumHAdT contributingCells
  by_cases hs : g.foundation.hasSurface surface = true
  · obtain ⟨h1, h2, h3⟩ := foldl_accumulateSurface E g surface g.foundation.surfaces
      { totalHeatTransferRate := 0, HA := 0, totalArea := 0 }
    simp only [hs, if_true]
    rw [h1, h2, h3]
    simp
  · simp [hs]

/-- What `calculateSurfaceAverages` leaves at the keys of a listed surface type
is what the iteration of that surface type writes. -/
theorem calculateSurfaceAverages_key (E : Externals K) (g : Ground K) (surface : SurfaceType)
    (ot : OutputType) (hlisted : surface ∈ g.outputMap.map Prod.fst) :
    (calculateSurfaceAverages E g).1.outputValues (surface, ot)
      = (storeSurfaceAverages E g surface g.outputValues).1 (surface, ot) :=
  loop_listed_key E g surface ot g.outputMap (g.outputValues, []) g.outputValues hlisted

/-- C1: for every surface type listed in the output map whose contributing
area is zero (the foundation has no such surface, or no surface of that type
holds a cell index, or the cell areas sum to 0), `calculateSurfaceAverages`
stores flux 0, rate 0, coefficient 0, temperature `bcs.indoorTemp` and effective
temperature `bcs.indoorTemp - 273.15`, and the iteration of that surface type
executes no division. -/
theorem calculateSurfaceAverages_zero_area (E : Externals K) (g : Ground K)
    (surface : SurfaceType)
    (hlisted : surface ∈ g.outputMap.map Prod.fst)
    (hzero : g.foundation.hasSurface surface = false
      ∨ (∀ s ∈ g.foundation.surfaces, s.type = surface → s.indices = [])
      ∨ (surfaceSums E g surface).totalArea = 0) :
    (calculateSurfaceAverages E g).1.outputValues (surface, OT_FLUX) = some 0
    ∧ (calculateSurfaceAverages E g).1.outputValues (surface, OT_RATE) = some 0
    ∧ (calculateSurfaceAverages E g).1.outputValues (surface, OT_CONV) = some 0
    ∧ (calculateSurfaceAverages E g).1.outputValues (surface, OT_TEMP) = some g.bcs.indoorTemp
    ∧ (calculateSurfaceAverages E g).1.outputValues (surface, OT_EFF_TEMP)
        = some (g.bcs.indoorTemp - 27315 / 100)
    ∧ ∀ d ∈ (calculateSurfaceAverages E g).2, d.1 ≠ surface := by
  have h0 := totalArea_zero_cases E g surface hzero
  have hnot : ¬ (surfaceSums E g surface).totalArea > 0 := by rw [h0]; exact lt_irrefl _
  have key : ∀ ot, (calculateSurfaceAverages E g).1.outputValues (surface, ot)
      = (storeSurfaceAverages E g surface g.outputValues).1 (surface, ot) := fun ot =>
    loop_listed_key E g surface ot g.outputMap (g.outputValues, []) g.outputValues hlisted
  refine ⟨?_, ?_, ?_, ?_, ?_, ?_⟩
  · rw [key]; simp [storeSurfaceAverages, hnot, setOutputValue]
  · rw [key]; simp [storeSurfaceAverages, hnot, setOutputValue]
  · rw [key]; simp [storeSurfaceAverages, hnot, setOutputValue]
  · rw [key]; simp [storeSurfaceAverages, hnot, setOutputValue]
  · rw [key]; simp [storeSurfaceAverages, hnot, setOutputValue]
  · intro d hd hsurf
    rcases loop_divisors E g g.outputMap (g.outputValues, []) d hd with h | h
    · simp at h
    · rw [hsurf] at h
      exact hnot h

/-- The hypotheses of C1 hold for the slab core of `zeroAreaGround`, whose two
cells have area 0. -/
theorem calculateSurfaceAverages_zero_area_witness :
    (calculateSurfaceAverages exampleExternals zeroAreaGround).1.outputValues
        (SurfaceType.ST_SLAB_CORE, OT_FLUX) = some 0
    ∧ (calculateSurfaceAverages exampleExternals zeroAreaGround).1.outputValues
        (SurfaceType.ST_SLAB_CORE, OT_RATE) = some 0
    ∧ (calculateSurfaceAverages exampleExternals zeroAreaGround).1.outputValues
        (SurfaceType.ST_SLAB_CORE, OT_CONV) = some 0
    ∧ (calculateSurfaceAverages exampleExternals zeroAreaGround).1.outputValues
        (SurfaceType.ST_SLAB_CORE, OT_TEMP) = some 10
    ∧ (calculateSurfaceAverages exampleExternals zeroAreaGround).1.outputValues
        (SurfaceType.ST_SLAB_CORE, OT_EFF_TEMP) = some (10 - 27315 / 100)
    ∧ ∀ d ∈ (calculateSurfaceAverages exampleExternals zeroAreaGround).2,
        d.1 ≠ SurfaceType.ST_SLAB_CORE :=
  calculateSurfaceAverages_zero_area exampleExternals zeroAreaGround SurfaceType.ST_SLAB_CORE
    (by simp [zeroAreaGround, exampleGround])
    (Or.inr (Or.inr (by
      simp [surfaceSums, zeroAreaGround, exampleGround, exampleFoundation, accumulateSurface,
        accumulateCell, areaAt, cellAt, exampleCell])))

/-- What one iteration writes when the total area is positive, in terms of the
running sums. -/
theorem store_positive (E : Externals K) (g : Ground K) (s : SurfaceType)
    (m : OutputValues K) (h : (surfaceSums E g s).totalArea > 0) :
    (storeSurfaceAverages E g s m).1 (s, OT_TEMP)
        = some (g.bcs.indoorTemp
            - (surfaceSums E g s).totalHeatTransferRate / (surfaceSums E g s).HA)
    ∧ (storeSurfaceAverages E g s m).1 (s, OT_FLUX)
        = some ((surfaceSums E g s).totalHeatTransferRate / (surfaceSums E g s).totalArea)
    ∧ (storeSurfaceAverages E g s m).1 (s, OT_RATE)
        = some ((surfaceSums E g s).totalHeatTransferRate / (surfaceSums E g s).totalArea
            * g.foundation.surfaceAreas s)
    ∧ (storeSurfaceAverages E g s m).1 (s, OT_CONV)
        = some ((surfaceSums E g s).HA / (surfaceSums E g s).totalArea)
    ∧ (storeSurfaceAverages E g s m).1 (s, OT_EFF_TEMP)
        = some (g.bcs.indoorTemp
            - (surfaceSums E g s).totalHeatTransferRate / (surfaceSums E g s).totalArea
              * (constructionRValue g s
                  + 1 / ((surfaceSums E g s).HA / (surfaceSums E g s).totalArea))
            - 27315 / 100) := by
  unfold storeSurfaceAverages
  refine ⟨?_, ?_, ?_, ?_, ?_⟩ <;> simp [h, setOutputValue]

/-- The running sums of `twoCellGround`: rate 28, conductance 4, area 2. -/
theorem twoCellGround_sums :
    (surfaceSums exampleExternals twoCellGround SurfaceType.ST_SLAB_CORE).totalArea = 2
    ∧ (surfaceSums exampleExternals twoCellGround SurfaceType.ST_SLAB_CORE).HA = 4
    ∧ (surfaceSums exampleExternals twoCellGround SurfaceType.ST_SLAB_CORE).totalHeatTransferRate
        = 28 := by
  refine ⟨?_, ?_, ?_⟩ <;>
  · simp [surfaceSums, twoCellGround, exampleGround, exampleFoundation, accumulateSurface,
      accumulateCell, cellH, getConvectionCoeff, areaAt, emissivityAt, tempAt, cellAt,
      exampleCell, exampleExternals, exampleBCs]
    try norm_num

theorem twoCellGround_listed :
    SurfaceType.ST_SLAB_CORE ∈ twoCellGround.outputMap.map Prod.fst := by
  simp [twoCellGround, exampleGround]

/-- C10: for every tracked surface whose contributing cell area is positive,
`calculateSurfaceAverages` stores flux = (sum of h*A*(Tair - T)) / (sum of A),
rate = flux * `foundation.surfaceAreas[surface]`, coefficient = (sum of h*A) /
(sum of A) and, where that coefficient can be divided by (the sum of h*A is
not zero), effective temperature = Tair - flux * (R + 1/coefficient) - 273.15,
with R the slab resistance for slab core and slab perimeter, the wall
resistance for the interior wall and 0 for every other surface type. -/
theorem calculateSurfaceAverages_positive_area (E : Externals K) (g : Ground K)
    (surface : SurfaceType)
    (hlisted : surface ∈ g.outputMap.map Prod.fst)
    (hpos : 0 < sumA g surface) :
    (calculateSurfaceAverages E g).1.outputValues (surface, OT_FLUX)
        = some (sumHAdT E g surface / sumA g surface)
    ∧ (calculateSurfaceAverages E g).1.outputValues (surface, OT_RATE)
        = some (sumHAdT E g surface / sumA g surface * g.foundation.surfaceAreas surface)
    ∧ (calculateSurfaceAverages E g).1.outputValues (surface, OT_CONV)
        = some (sumHA E g surface / sumA g surface)
    ∧ (sumHA E g surface ≠ 0 →
      (calculateSurfaceAverages E g).1.outputValues (surface, OT_EFF_TEMP)
        = some (g.bcs.indoorTemp
            - sumHAdT E g surface / sumA g surface
              * ((if surface = SurfaceType.ST_SLAB_CORE ∨ surface = SurfaceType.ST_SLAB_PERIM
                    then g.foundation.slabTotalResistance
                  else if surface = SurfaceType.ST_WALL_INT
                    then g.foundation.wallTotalResistance
                  else 0)
                + 1 / (sumHA E g surface / sumA g surface))
            - 27315 / 100)) := by
  obtain ⟨hA, hHA, hR⟩ := surfaceSums_eq E g surface
  have hgt : (surfaceSums E g surface).totalArea > 0 := by rw [hA]; exact hpos
  have hRval : constructionRValue g surface
      = (if surface = SurfaceType.ST_SLAB_CORE ∨ surface = SurfaceType.ST_SLAB_PERIM
          then g.foundation.slabTotalResistance
        else if surface = SurfaceType.ST_WALL_INT then g.foundation.wallTotalResistance
        else 0) := by
    unfold constructionRValue
    by_cases h1 : surface = SurfaceType.ST_SLAB_CORE
    · simp [h1]
    · by_cases h2 : surface = SurfaceType.ST_SLAB_PERIM
      · simp [h2]
      · simp [h1, h2]
  obtain ⟨-, p2, p3, p4, p5⟩ := store_positive E g surface g.outputValues hgt
  refine ⟨?_, ?_, ?_, ?_⟩
  · rw [calculateSurfaceAverages_key E g surface _ hlisted, p2, hA, hR]
  · rw [calculateSurfaceAverages_key E g surface _ hlisted, p3, hA, hR]
  · rw [calculateSurfaceAverages_key E g surface _ hlisted, p4, hA, hHA]
  · intro _
    rw [calculateSurfaceAverages_key E g surface _ hlisted, p5, hA, hHA, hR, hRval]

/-- The hypotheses of C10 hold for the slab core of `twoCellGround`, whose
area sum is 2 and whose sum of h*A is 4: the flux stored is 28/2 and the
effective temperature 10 - 14 * (2 + 1/2) - 273.15. -/
theorem calculateSurfaceAverages_positive_area_witness :
    (0 : ℚ) < sumA twoCellGround SurfaceType.ST_SLAB_CORE
    ∧ sumHA exampleExternals twoCellGround SurfaceType.ST_SLAB_CORE ≠ 0
    ∧ (calculateSurfaceAverages exampleExternals twoCellGround).1.outputValues
        (SurfaceType.ST_SLAB_CORE, OT_FLUX)
        = some (sumHAdT exampleExternals twoCellGround SurfaceType.ST_SLAB_CORE
            / sumA twoCellGround SurfaceType.ST_SLAB_CORE)
    ∧ (calculateSurfaceAverages exampleExternals twoCellGround).1.outputValues
        (SurfaceType.ST_SLAB_CORE, OT_EFF_TEMP)
        = some (twoCellGround.bcs.indoorTemp
            - sumHAdT exampleExternals twoCellGround SurfaceType.ST_SLAB_CORE
                / sumA twoCellGround SurfaceType.ST_SLAB_CORE
              * ((if SurfaceType.ST_SLAB_CORE = SurfaceType.ST_SLAB_CORE
                      ∨ SurfaceType.ST_SLAB_CORE = SurfaceType.ST_SLAB_PERIM
                    then twoCellGround.foundation.slabTotalResistance
                  else if SurfaceType.ST_SLAB_CORE = SurfaceType.ST_WALL_INT
                    then twoCellGround.foundation.wallTotalResistance
                  else 0)
                + 1 / (sumHA exampleExternals twoCellGround SurfaceType.ST_SLAB_CORE
                    / sumA twoCellGround SurfaceType.ST_SLAB_CORE))
            - 27315 / 100) :=
  have hpos : (0 : ℚ) < sumA twoCellGround SurfaceType.ST_SLAB_CORE := by
    rw [← (surfaceSums_eq exampleExternals twoCellGround SurfaceType.ST_SLAB_CORE).1,
      twoCellGround_sums.1]
    norm_num
  have hHA : sumHA exampleExternals twoCellGround SurfaceType.ST_SLAB_CORE ≠ 0 := by
    rw [← (surfaceSums_eq exampleExternals twoCellGround SurfaceType.ST_SLAB_CORE).2.1,
      twoCellGround_sums.2.1]
    norm_num
  ⟨hpos, hHA,
    (calculateSurfaceAverages_positive_area exampleExternals twoCellGround
      SurfaceType.ST_SLAB_CORE twoCellGround_listed hpos).1,
    (calculateSurfaceAverages_positive_area exampleExternals twoCellGround
      SurfaceType.ST_SLAB_CORE twoCellGround_listed hpos).2.2.2 hHA⟩

/-- C9 fails as stated: in `twoCellGround` (areas 1 and 1, coefficients 1 and 3,
temperatures 0 and 4, indoor air at 10) the stored `OT_TEMP` is 3 while the
area-weighted average temperature is 2. -/
theorem OT_TEMP_not_area_weighted :
    SurfaceType.ST_SLAB_CORE ∈ twoCellGround.outputMap.map Prod.fst
    ∧ 0 < sumA twoCellGround SurfaceType.ST_SLAB_CORE
    ∧ (calculateSurfaceAverages exampleExternals twoCellGround).1.outputValues
        (SurfaceType.ST_SLAB_CORE, OT_TEMP) = some 3
    ∧ sumAT twoCellGround SurfaceType.ST_SLAB_CORE / sumA twoCellGround SurfaceType.ST_SLAB_CORE = 2
    ∧ (calculateSurfaceAverages exampleExternals twoCellGround).1.outputValues
        (SurfaceType.ST_SLAB_CORE, OT_TEMP)
        ≠ some (sumAT twoCellGround SurfaceType.ST_SLAB_CORE
            / sumA twoCellGround SurfaceType.ST_SLAB_CORE) := by
  obtain ⟨s1, s2, s3⟩ := twoCellGround_sums
  have hA : sumA twoCellGround SurfaceType.ST_SLAB_CORE = 2 := by
    rw [← (surfaceSums_eq exampleExternals twoCellGround SurfaceType.ST_SLAB_CORE).1, s1]
  have hAT : sumAT twoCellGround SurfaceType.ST_SLAB_CORE = 4 := by
    simp [sumAT, contributingCells, cellsOfSurfaces, twoCellGround, exampleGround,
      exampleFoundation, areaAt, tempAt, cellAt, exampleCell]
  have hT : (calculateSurfaceAverages exampleExternals twoCellGround).1.outputValues
      (SurfaceType.ST_SLAB_CORE, OT_TEMP) = some 3 := by
    have hb : twoCellGround.bcs.indoorTemp = 10 := rfl
    rw [calculateSurfaceAverages_key _ _ _ _ twoCellGround_listed,
      (store_positive exampleExternals twoCellGround SurfaceType.ST_SLAB_CORE _
        (by rw [s1]; norm_num)).1, s2, s3, hb]
    norm_num
  refine ⟨twoCellGround_listed, ?_, hT, ?_, ?_⟩
  · rw [hA]; norm_num
  · rw [hA, hAT]; norm_num
  · rw [hT, hA, hAT]; norm_num

/-- C9, amended: for every tracked surface whose contributing cell area is
positive and whose conductance sum (sum of h*A) is not zero, the stored
`OT_TEMP` is the conductance-weighted average (sum of h*A*T) / (sum of h*A); it
is the area-weighted average (sum of A*T) / (sum of A) when all contributing
cells have one common non-zero coefficient. -/
theorem calculateSurfaceAverages_temp (E : Externals K) (g : Ground K)
    (surface : SurfaceType)
    (hlisted : surface ∈ g.outputMap.map Prod.fst)
    (hpos : 0 < sumA g surface) :
    (sumHA E g surface ≠ 0 →
      (calculateSurfaceAverages E g).1.outputValues (surface, OT_TEMP)
        = some (sumHAT E g surface / sumHA E g surface))
    ∧ (∀ h0 : K, h0 ≠ 0 → (∀ c ∈ contributingCells g surface, cellH E g c.1 c.2 = h0) →
      (calculateSurfaceAverages E g).1.outputValues (surface, OT_TEMP)
        = some (sumAT g surface / sumA g surface)) := by
  obtain ⟨hA, hHA, hR⟩ := surfaceSums_eq E g surface
  have hgt : (surfaceSums E g surface).totalArea > 0 := by rw [hA]; exact hpos
  have hstored : (calculateSurfaceAverages E g).1.outputValues (surface, OT_TEMP)
      = some (g.bcs.indoorTemp - sumHAdT E g surface / sumHA E g surface) := by
    rw [calculateSurfaceAverages_key E g surface _ hlisted,
      (store_positive E g surface g.outputValues hgt).1, hHA, hR]
  have hsplit : sumHAdT E g surface
      = g.bcs.indoorTemp * sumHA E g surface - sumHAT E g surface := by
    unfold sumHAdT sumHA sumHAT
    induction contributingCells g surface with
    | nil => simp
    | cons c rest ih =>
      simp only [List.map_cons, List.sum_cons]
      rw [ih]
      ring
  have hweighted : sumHA E g surface ≠ 0 →
      g.bcs.indoorTemp - sumHAdT E g surface / sumHA E g surface
        = sumHAT E g surface / sumHA E g surface := by
    intro hne
    rw [hsplit]
    field_simp
  refine ⟨fun hne => by rw [hstored, hweighted hne], ?_⟩
  intro h0 hh0 hall
  have e1 : sumHA E g surface = h0 * sumA g surface := by
    unfold sumHA sumA
    revert hall
    generalize contributingCells g surface = cells
    intro hall
    induction cells with
    | nil => simp
    | cons c rest ih =>
      simp only [List.map_cons, List.sum_cons]
      rw [ih (fun c' hc' => hall c' (List.mem_cons_of_mem _ hc')),
        hall c (List.mem_cons_self _ _)]
      ring
  have e2 : sumHAT E g surface = h0 * sumAT g surface := by
    unfold sumHAT sumAT
    revert hall
    generalize contributingCells g surface = cells
    intro hall
    induction cells with
    | nil => simp
    | cons c rest ih =>
      simp only [List.map_cons, List.sum_cons]
      rw [ih (fun c' hc' => hall c' (List.mem_cons_of_mem _ hc')),
        hall c (List.mem_cons_self _ _)]
      ring
  have hne : sumHA E g surface ≠ 0 := by
    rw [e1]
    exact mul_ne_zero hh0 (ne_of_gt hpos)
  rw [hstored, hweighted hne, e1, e2]
  congr 1
  field_simp
  ring

/-- The hypotheses of the amended C9 hold for the slab core of `twoCellGround`,
whose conductance sum is 4. -/
theorem calculateSurfaceAverages_temp_witness :
    (0 : ℚ) < sumA twoCellGround SurfaceType.ST_SLAB_CORE
    ∧ sumHA exampleExternals twoCellGround SurfaceType.ST_SLAB_CORE ≠ 0
    ∧ (calculateSurfaceAverages exampleExternals twoCellGround).1.outputValues
        (SurfaceType.ST_SLAB_CORE, OT_TEMP)
        = some (sumHAT exampleExternals twoCellGround SurfaceType.ST_SLAB_CORE
            / sumHA exampleExternals twoCellGround SurfaceType.ST_SLAB_CORE) :=
  have hpos : (0 : ℚ) < sumA twoCellGround SurfaceType.ST_SLAB_CORE := by
    rw [← (surfaceSums_eq exampleExternals twoCellGround SurfaceType.ST_SLAB_CORE).1,
      twoCellGround_sums.1]
    norm_num
  have hne : sumHA exampleExternals twoCellGround SurfaceType.ST_SLAB_CORE ≠ 0 := by
    rw [← (surfaceSums_eq exampleExternals twoCellGround SurfaceType.ST_SLAB_CORE).2.1,
      twoCellGround_sums.2.1]
    norm_num
  ⟨hpos, hne, (calculateSurfaceAverages_temp exampleExternals twoCellGround
    SurfaceType.ST_SLAB_CORE twoCellGround_listed hpos).1 hne⟩

/-- Every logged division was executed by the iteration of its surface type. -/
theorem loop_divisors_mem (E : Externals K) (g : Ground K)
    (entries : List (SurfaceType × List OutputType))
    (st : OutputValues K × List (SurfaceType × K)) (d : SurfaceType × K)
    (hd : d ∈ (surfaceAveragesLoop E g entries st).2) :
    d ∈ st.2 ∨ ∃ m, d.2 ∈ (storeSurfaceAverages E g d.1 m).2 := by
  induction entries generalizing st with
  | nil => exact Or.inl hd
  | cons e rest ih =>
    have hstep := ih ((storeSurfaceAverages E g e.1 st.1).1,
      st.2 ++ (storeSurfaceAverages E g e.1 st.1).2.map (fun d => (e.1, d)))
    simp only [surfaceAveragesLoop, List.foldl_cons] at hstep hd
    rcases hstep hd with h | h
    · rcases List.mem_append.mp h with h | h
      · exact Or.inl h
      · obtain ⟨x, hx, rfl⟩ := List.mem_map.mp h
        exact Or.inr ⟨st.1, hx⟩
    · exact Or.inr h

/-- The divisors of one iteration: the conductance sum `HA`, the total area
(four times) and `hAvg`, and only when the total area is positive. -/
theorem store_divisor_values (E : Externals K) (g : Ground K) (s : SurfaceType)
    (m : OutputValues K) (d : K) (hd : d ∈ (storeSurfaceAverages E g s m).2) :
    (surfaceSums E g s).totalArea > 0
    ∧ (d = (surfaceSums E g s).HA ∨ d = (surfaceSums E g s).totalArea
        ∨ d = (surfaceSums E g s).HA / (surfaceSums E g s).totalArea) := by
  have hpos := store_divisors E g s m d hd
  refine ⟨hpos, ?_⟩
  unfold storeSurfaceAverages at hd
  simp only [hpos, if_true, List.mem_cons, List.mem_singleton, List.not_mem_nil,
    or_false] at hd
  rcases hd with h | h | h | h | h | h
  · exact Or.inl h
  · exact Or.inr (Or.inl h)
  · exact Or.inr (Or.inl h)
  · exact Or.inr (Or.inl h)
  · exact Or.inr (Or.inl h)
  · exact Or.inr (Or.inr h)

/-- Every division by the total area has a positive divisor, and on a surface
whose conductance sum is not zero every division has a non-zero divisor. -/
theorem divisors_nonzero (E : Externals K) (g : Ground K) (d : SurfaceType × K)
    (hd : d ∈ (calculateSurfaceAverages E g).2) :
    (surfaceSums E g d.1).totalArea > 0
    ∧ ((surfaceSums E g d.1).HA ≠ 0 → d.2 ≠ 0) := by
  rcases loop_divisors_mem E g g.outputMap (g.outputValues, []) d hd with h | ⟨m, hm⟩
  · simp at h
  · obtain ⟨hpos, hval⟩ := store_divisor_values E g d.1 m d.2 hm
    refine ⟨hpos, ?_⟩
    intro hHA
    rcases hval with h | h | h
    · rw [h]; exact hHA
    · rw [h]; exact ne_of_gt hpos
    · rw [h]; exact div_ne_zero hHA (ne_of_gt hpos)

/-- The running sums of `zeroConductanceGround`: rate 0, conductance 0, area 2. -/
theorem zeroConductanceGround_sums :
    (surfaceSums exampleExternals zeroConductanceGround SurfaceType.ST_SLAB_CORE).totalArea = 2
    ∧ (surfaceSums exampleExternals zeroConductanceGround SurfaceType.ST_SLAB_CORE).HA = 0
    ∧ (surfaceSums exampleExternals zeroConductanceGround
        SurfaceType.ST_SLAB_CORE).totalHeatTransferRate = 0 := by
  refine ⟨?_, ?_, ?_⟩ <;>
  · simp [surfaceSums, zeroConductanceGround, exampleGround, exampleFoundation,
      accumulateSurface, accumulateCell, cellH, getConvectionCoeff, areaAt, emissivityAt,
      tempAt, cellAt, exampleCell, exampleExternals, exampleBCs]
    try norm_num

/-- C11, the failing input: on `zeroConductanceGround` (two slab cells of area
1, both with combined coefficient 0) the areas and coefficients are
non-negative and the total area is 2, yet `calculateSurfaceAverages` takes the
branch that divides and executes, in this order, a division by `HA` = 0, four
divisions by the total area 2 and a division by `hAvg` = 0. -/
theorem calculateSurfaceAverages_zero_conductance :
    (∀ c ∈ contributingCells zeroConductanceGround SurfaceType.ST_SLAB_CORE,
      0 ≤ areaAt zeroConductanceGround c.2
      ∧ cellH exampleExternals zeroConductanceGround c.1 c.2 = 0)
    ∧ sumA zeroConductanceGround SurfaceType.ST_SLAB_CORE = 2
    ∧ (calculateSurfaceAverages exampleExternals zeroConductanceGround).2
        = [(SurfaceType.ST_SLAB_CORE, 0), (SurfaceType.ST_SLAB_CORE, 2),
           (SurfaceType.ST_SLAB_CORE, 2), (SurfaceType.ST_SLAB_CORE, 2),
           (SurfaceType.ST_SLAB_CORE, 2), (SurfaceType.ST_SLAB_CORE, 0)] := by
  obtain ⟨s1, s2, s3⟩ := zeroConductanceGround_sums
  refine ⟨?_, ?_, ?_⟩
  · intro c hc
    simp [contributingCells, cellsOfSurfaces, zeroConductanceGround, exampleGround,
      exampleFoundation] at hc
    rcases hc with rfl | rfl <;>
    · simp [areaAt, cellAt, cellH, getConvectionCoeff, emissivityAt, zeroConductanceGround,
        exampleGround, exampleFoundation, exampleCell, exampleExternals]
  · rw [← (surfaceSums_eq exampleExternals zeroConductanceGround SurfaceType.ST_SLAB_CORE).1, s1]
  · have hmap : zeroConductanceGround.outputMap
        = [(SurfaceType.ST_SLAB_CORE, [OT_RATE])] := rfl
    simp only [calculateSurfaceAverages, surfaceAveragesLoop, hmap, List.foldl_cons,
      List.foldl_nil, storeSurfaceAverages, s1, s2, s3]
    norm_num

/-- A query for a key that is present returns its value and changes nothing. -/
theorem getSurfaceAverageValue_present (g : Ground K) (output : SurfaceType × OutputType)
    (val : K) (h : g.outputValues output = some val) :
    getSurfaceAverageValue g output = (val, g) := by
  unfold getSurfaceAverageValue
  rw [h]

/-- A key of a surface type that is not listed in the output map is left as it
was by `calculateSurfaceAverages`. -/
theorem calculateSurfaceAverages_unlisted (E : Externals K) (g : Ground K)
    (surface : SurfaceType) (ot : OutputType) (h : surface ∉ g.outputMap.map Prod.fst) :
    (calculateSurfaceAverages E g).1.outputValues (surface, ot) = g.outputValues (surface, ot) :=
  loop_absent_key E g surface ot g.outputMap (g.outputValues, []) h

/-- C13, the failing input: after `calculateSurfaceAverages` on `twoCellGround`
(which tracks the slab core only) the key (interior wall, temperature) is
absent; `getSurfaceAverageValue` returns 0 for it and leaves a table in which
the key is present with value 0. -/
theorem getSurfaceAverageValue_inserts_key :
    (calculateSurfaceAverages exampleExternals twoCellGround).1.outputValues
        (SurfaceType.ST_WALL_INT, OT_TEMP) = none
    ∧ (getSurfaceAverageValue (calculateSurfaceAverages exampleExternals twoCellGround).1
        (SurfaceType.ST_WALL_INT, OT_TEMP)).1 = 0
    ∧ (getSurfaceAverageValue (calculateSurfaceAverages exampleExternals twoCellGround).1
        (SurfaceType.ST_WALL_INT, OT_TEMP)).2.outputValues
        (SurfaceType.ST_WALL_INT, OT_TEMP) = some 0 := by
  have habsent : (calculateSurfaceAverages exampleExternals twoCellGround).1.outputValues
      (SurfaceType.ST_WALL_INT, OT_TEMP) = none := by
    rw [calculateSurfaceAverages_unlisted]
    · rfl
    · simp [twoCellGround, exampleGround]
  refine ⟨habsent, ?_, ?_⟩
  · unfold getSurfaceAverageValue
    rw [habsent]
  · unfold getSurfaceAverageValue
    rw [habsent]
    simp [setOutputValue]

/-- A sum of terms `h * A * (Tair - T)` with `A >= 0`, `h > 0` and `T < Tair`
is non-negative, and positive as soon as the areas sum to a positive value. -/
theorem sum_rate_pos (cells : List (K × Nat)) (A h T : K × Nat → K) (Tair : K)
    (hA : ∀ c ∈ cells, 0 ≤ A c) (hh : ∀ c ∈ cells, 0 < h c) (hT : ∀ c ∈ cells, T c < Tair) :
    0 ≤ (cells.map (fun c => h c * A c * (Tair - T c))).sum
    ∧ (0 < (cells.map A).sum → 0 < (cells.map (fun c => h c * A c * (Tair - T c))).sum) := by
  induction cells with
  | nil => simp
  | cons c rest ih =>
    obtain ⟨i1, i2⟩ := ih (fun c' hc' => hA c' (List.mem_cons_of_mem _ hc'))
      (fun c' hc' => hh c' (List.mem_cons_of_mem _ hc'))
      (fun c' hc' => hT c' (List.mem_cons_of_mem _ hc'))
    have a0 := hA c (List.mem_cons_self _ _)
    have h0 := hh c (List.mem_cons_self _ _)
    have t0 : 0 < Tair - T c := sub_pos.mpr (hT c (List.mem_cons_self _ _))
    have term0 : 0 ≤ h c * A c * (Tair - T c) :=
      mul_nonneg (mul_nonneg (le_of_lt h0) a0) (le_of_lt t0)
    simp only [List.map_cons, List.sum_cons]
    refine ⟨add_nonneg term0 i1, ?_⟩
    intro hsum
    rcases lt_or_eq_of_le a0 with hpos | hzero
    · exact add_pos_of_pos_of_nonneg (mul_pos (mul_pos h0 hpos) t0) i1
    · rw [← hzero, zero_add] at hsum
      exact add_pos_of_nonneg_of_pos term0 (i2 hsum)

/-- C14: for the slab-core surface, tracked in the output map as in the
BESTEST scenario, if the contributing cell area and the foundation's slab-core
surface area are both positive and every contributing cell (its area being
that of a mesh cell, hence not negative) has a combined coefficient h > 0 and a
temperature strictly below the indoor air temperature, then the rate returned
by `getSurfaceAverageValue` after `calculateSurfaceAverages` is strictly
positive. -/
theorem slab_rate_positive (E : Externals K) (g : Ground K)
    (hlisted : SurfaceType.ST_SLAB_CORE ∈ g.outputMap.map Prod.fst)
    (hpos : 0 < sumA g SurfaceType.ST_SLAB_CORE)
    (harea : 0 < g.foundation.surfaceAreas SurfaceType.ST_SLAB_CORE)
    (hA : ∀ c ∈ contributingCells g SurfaceType.ST_SLAB_CORE, 0 ≤ areaAt g c.2)
    (hh : ∀ c ∈ contributingCells g SurfaceType.ST_SLAB_CORE, 0 < cellH E g c.1 c.2)
    (hT : ∀ c ∈ contributingCells g SurfaceType.ST_SLAB_CORE,
      tempAt g c.2 < g.bcs.indoorTemp) :
    0 < (getSurfaceAverageValue (calculateSurfaceAverages E g).1
          (SurfaceType.ST_SLAB_CORE, OT_RATE)).1 := by
  obtain ⟨eA, -, eR⟩ := surfaceSums_eq E g SurfaceType.ST_SLAB_CORE
  have hgt : (surfaceSums E g SurfaceType.ST_SLAB_CORE).totalArea > 0 := by
    rw [eA]; exact hpos
  have hstored : (calculateSurfaceAverages E g).1.outputValues
      (SurfaceType.ST_SLAB_CORE, OT_RATE)
      = some (sumHAdT E g SurfaceType.ST_SLAB_CORE / sumA g SurfaceType.ST_SLAB_CORE
          * g.foundation.surfaceAreas SurfaceType.ST_SLAB_CORE) := by
    rw [calculateSurfaceAverages_key E g _ _ hlisted,
      (store_positive E g SurfaceType.ST_SLAB_CORE g.outputValues hgt).2.2.1, eA, eR]
  rw [getSurfaceAverageValue_present _ _ _ hstored]
  have hrate : 0 < sumHAdT E g SurfaceType.ST_SLAB_CORE :=
    (sum_rate_pos (contributingCells g SurfaceType.ST_SLAB_CORE) (fun c => areaAt g c.2)
      (fun c => cellH E g c.1 c.2) (fun c => tempAt g c.2) g.bcs.indoorTemp hA hh hT).2 hpos
  exact mul_pos (div_pos hrate hpos) harea

/-- The hypotheses of C14 hold for `twoCellGround`: areas 1 and 1, coefficients 1
and 3, temperatures 0 and 4 below the indoor 10, slab-core area 5. -/
theorem slab_rate_positive_witness :
    (0 : ℚ) < (getSurfaceAverageValue (calculateSurfaceAverages exampleExternals twoCellGround).1
          (SurfaceType.ST_SLAB_CORE, OT_RATE)).1 :=
  slab_rate_positive exampleExternals twoCellGround twoCellGround_listed
    (by
      simp [sumA, contributingCells, cellsOfSurfaces, twoCellGround, exampleGround,
        exampleFoundation, areaAt, cellAt, exampleCell])
    (by simp [twoCellGround, exampleGround, exampleFoundation])
    (by
      intro c hc
      simp [contributingCells, cellsOfSurfaces, twoCellGround, exampleGround,
        exampleFoundation] at hc
      rcases hc with rfl | rfl <;>
      · simp [areaAt, cellAt, twoCellGround, exampleGround, exampleCell])
    (by
      intro c hc
      simp [contributingCells, cellsOfSurfaces, twoCellGround, exampleGround,
        exampleFoundation] at hc
      rcases hc with rfl | rfl <;>
      · simp [cellH, getConvectionCoeff, emissivityAt, tempAt, cellAt, twoCellGround,
          exampleGround, exampleFoundation, exampleCell, exampleExternals])
    (by
      intro c hc
      simp [contributingCells, cellsOfSurfaces, twoCellGround, exampleGround,
        exampleFoundation] at hc
      rcases hc with rfl | rfl <;>
      · simp [tempAt, twoCellGround, exampleGround, exampleBCs]
        try norm_num)

end SurfaceAggregation

/-! ## Boundary-layer table: proofs -/

section BoundaryLayer

/-- In a strictly increasing table the first entry is below the last. -/
theorem first_le_last (p : K × K) (tail : List (K × K)) (last : K × K)
    (hc : StrictlyIncreasing (p :: tail)) (hl : (p :: tail).getLast? = some last) :
    p.1 ≤ last.1 ∧ p.2 ≤ last.2 := by
  induction tail generalizing p with
  | nil =>
    simp at hl
    subst hl
    exact ⟨le_refl _, le_refl _⟩
  | cons q rest ih =>
    rw [List.getLast?_cons_cons] at hl
    have hc' := List.chain'_cons.mp hc
    obtain ⟨h1, h2⟩ := ih q hc'.2 hl
    exact ⟨le_trans (le_of_lt hc'.1.1) h1, le_trans (le_of_lt hc'.1.2) h2⟩

/-- A fraction below the first entry is bracketed nowhere. -/
theorem boundaryDistanceLoop_below (val : K) (p : K × K) (tail : List (K × K)) (dist : K)
    (hc : StrictlyIncreasing (p :: tail)) (hv : val < p.2) :
    boundaryDistanceLoop val (p :: tail) dist = dist := by
  induction tail generalizing p dist with
  | nil => simp [boundaryDistanceLoop]
  | cons q rest ih =>
    have hc' := List.chain'_cons.mp hc
    have hno : ¬ (val ≥ p.2 ∧ val < q.2) := fun h => absurd hv (not_lt.mpr h.1)
    rw [boundaryDistanceLoop, if_neg hno]
    exact ih q dist hc'.2 (lt_trans hv hc'.1.2)

/-- A distance below the first entry is bracketed nowhere. -/
theorem boundaryValueLoop_below (dist : K) (p : K × K) (tail : List (K × K)) (val : K)
    (hc : StrictlyIncreasing (p :: tail)) (hd : dist < p.1) :
    boundaryValueLoop dist (p :: tail) val = val := by
  induction tail generalizing p val with
  | nil => simp [boundaryValueLoop]
  | cons q rest ih =>
    have hc' := List.chain'_cons.mp hc
    have hno : ¬ (dist ≥ p.1 ∧ dist < q.1) := fun h => absurd hd (not_lt.mpr h.1)
    rw [boundaryValueLoop, if_neg hno]
    exact ih q val hc'.2 (lt_trans hd hc'.1.1)

/-- Interpolating a fraction inside a bracket gives a distance inside the
bracket, and interpolating back returns the fraction. -/
theorem interpolate_bracket (p q : K × K) (val : K) (hd : p.1 < q.1) (hf : p.2 < q.2)
    (h1 : p.2 ≤ val) (h2 : val < q.2) :
    p.1 ≤ (val - p.2) / ((q.2 - p.2) / (q.1 - p.1)) + p.1
    ∧ (val - p.2) / ((q.2 - p.2) / (q.1 - p.1)) + p.1 < q.1
    ∧ ((val - p.2) / ((q.2 - p.2) / (q.1 - p.1)) + p.1 - p.1) / ((q.1 - p.1) / (q.2 - p.2)) + p.2
        = val := by
  have hd' : 0 < q.1 - p.1 := sub_pos.mpr hd
  have hf' : 0 < q.2 - p.2 := sub_pos.mpr hf
  have hm : 0 < (q.2 - p.2) / (q.1 - p.1) := div_pos hf' hd'
  have hv' : 0 ≤ val - p.2 := sub_nonneg.mpr h1
  refine ⟨?_, ?_, ?_⟩
  · have : 0 ≤ (val - p.2) / ((q.2 - p.2) / (q.1 - p.1)) := div_nonneg hv' (le_of_lt hm)
    linarith
  · have : (val - p.2) / ((q.2 - p.2) / (q.1 - p.1)) < q.1 - p.1 := by
      rw [div_lt_iff₀ hm]
      have : (q.1 - p.1) * ((q.2 - p.2) / (q.1 - p.1)) = q.2 - p.2 := by
        field_simp
      rw [this]
      linarith
    linarith
  · have hd0 : q.1 - p.1 ≠ 0 := ne_of_gt hd'
    have hf0 : q.2 - p.2 ≠ 0 := ne_of_gt hf'
    field_simp
    ring

/-- The two loops are inverse to each other below the last fraction. -/
theorem boundaryLoops_roundTrip (val : K) (p : K × K) (tail : List (K × K)) (last : K × K)
    (dist : K) (hc : StrictlyIncreasing (p :: tail))
    (hl : (p :: tail).getLast? = some last) (h1 : p.2 ≤ val) (h2 : val < last.2) :
    p.1 ≤ boundaryDistanceLoop val (p :: tail) dist
    ∧ boundaryDistanceLoop val (p :: tail) dist < last.1
    ∧ ∀ acc, boundaryValueLoop (boundaryDistanceLoop val (p :: tail) dist) (p :: tail) acc
        = val := by
  induction tail generalizing p dist with
  | nil =>
    simp at hl
    subst hl
    exact absurd h2 (not_lt.mpr h1)
  | cons q rest ih =>
    have hc' := List.chain'_cons.mp hc
    have hl' : (q :: rest).getLast? = some last := by
      rw [List.getLast?_cons_cons] at hl
      exact hl
    have hql := first_le_last q rest last hc'.2 hl'
    by_cases hq : val < q.2
    · obtain ⟨i1, i2, i3⟩ := interpolate_bracket p q val hc'.1.1 hc'.1.2 h1 hq
      have hyes : val ≥ p.2 ∧ val < q.2 := ⟨h1, hq⟩
      have hD : boundaryDistanceLoop val (p :: q :: rest) dist
          = (val - p.2) / ((q.2 - p.2) / (q.1 - p.1)) + p.1 := by
        rw [boundaryDistanceLoop, if_pos hyes]
        exact boundaryDistanceLoop_below val q rest _ hc'.2 hq
      rw [hD]
      refine ⟨i1, lt_of_lt_of_le i2 hql.1, ?_⟩
      intro acc
      have hyes' : (val - p.2) / ((q.2 - p.2) / (q.1 - p.1)) + p.1 ≥ p.1
          ∧ (val - p.2) / ((q.2 - p.2) / (q.1 - p.1)) + p.1 < q.1 := ⟨i1, i2⟩
      rw [boundaryValueLoop, if_pos hyes', boundaryValueLoop_below _ q rest _ hc'.2 i2]
      exact i3
    · have hno : ¬ (val ≥ p.2 ∧ val < q.2) := fun h => hq h.2
      have hD : boundaryDistanceLoop val (p :: q :: rest) dist
          = boundaryDistanceLoop val (q :: rest) dist := by
        rw [boundaryDistanceLoop, if_neg hno]
      obtain ⟨j1, j2, j3⟩ := ih q dist hc'.2 hl' (not_lt.mp hq)
      rw [hD]
      refine ⟨le_trans (le_of_lt hc'.1.1) j1, j2, ?_⟩
      intro acc
      have hno' : ¬ (boundaryDistanceLoop val (q :: rest) dist ≥ p.1
          ∧ boundaryDistanceLoop val (q :: rest) dist < q.1) := fun h =>
        absurd h.2 (not_lt.mpr j1)
      rw [boundaryValueLoop, if_neg hno']
      exact j3 acc

/-- C4: for every non-empty table and every distance strictly greater than the
distance of its last entry, `getBoundaryValue` returns 1.0. -/
theorem getBoundaryValue_beyond_last (boundaryLayer : List (K × K)) (dist : K)
    (hne : boundaryLayer ≠ [])
    (hdist : (boundaryLayer.getLast hne).1 < dist) :
    getBoundaryValue boundaryLayer dist = some 1 := by
  unfold getBoundaryValue
  rw [List.getLast?_eq_getLast _ hne]
  simp [hdist]

/-- The hypotheses of C4 hold for `exampleTable` and the distance 2. -/
theorem getBoundaryValue_beyond_last_witness :
    getBoundaryValue exampleTable 2 = some 1 :=
  getBoundaryValue_beyond_last exampleTable 2 (by simp [exampleTable])
    (by simp [exampleTable])

/-- C5: for `val < 0` or `val > 1`, `getBoundaryDistance` emits exactly one
message and returns 0.0 whatever the table is (also on the empty table, where
any read of the table would be out of bounds); for `val` in [0,1] it emits no
message. -/
theorem getBoundaryDistance_invalid_query :
    (∀ (boundaryLayer : List (K × K)) (val : K), val < 0 ∨ val > 1 →
      getBoundaryDistance boundaryLayer val
        = (some 0, [{ messageType := MessageType.MSG_ERR,
                      text := "Boundary value passed not between 0.0 and 1.0." }]))
    ∧ (∀ (boundaryLayer : List (K × K)) (val : K), 0 ≤ val → val ≤ 1 →
      (getBoundaryDistance boundaryLayer val).2 = []) := by
  constructor
  · intro boundaryLayer val h
    have h' : val > 1 ∨ val < 0 := h.symm
    simp [getBoundaryDistance, h', showMessage]
  · intro boundaryLayer val h0 h1
    have h' : ¬ (val > 1 ∨ val < 0) := by
      intro h
      rcases h with h | h
      · exact absurd h1 (not_le.mpr h)
      · exact absurd h0 (not_le.mpr h)
    unfold getBoundaryDistance
    rw [if_neg h']
    cases boundaryLayer <;> rfl

/-- C5 evaluated: the query 2 on the empty table and the query 1/2 on
`exampleTable`. -/
theorem getBoundaryDistance_invalid_query_witness :
    getBoundaryDistance ([] : List (ℚ × ℚ)) 2
        = (some 0, [{ messageType := MessageType.MSG_ERR,
                      text := "Boundary value passed not between 0.0 and 1.0." }])
    ∧ (getBoundaryDistance exampleTable (1 / 2)).2 = [] :=
  ⟨getBoundaryDistance_invalid_query.1 [] 2 (Or.inr (by norm_num)),
   getBoundaryDistance_invalid_query.2 exampleTable (1 / 2) (by norm_num) (by norm_num)⟩

/-- C2 fails as stated: `exampleTable` starts at (0,0) and is strictly
increasing in both columns, and for v = 3/4 (above its last fraction 1/2)
`getBoundaryDistance` returns 0 and `getBoundaryValue` of 0 is 0, not 3/4. -/
theorem roundTrip_fails_above_last_fraction :
    exampleTable.head? = some (0, 0)
    ∧ StrictlyIncreasing exampleTable
    ∧ (0 : ℚ) ≤ 3 / 4 ∧ (3 / 4 : ℚ) ≤ 1
    ∧ getBoundaryDistance exampleTable (3 / 4) = (some 0, [])
    ∧ getBoundaryValue exampleTable 0 = some 0
    ∧ getBoundaryValue exampleTable 0 ≠ some (3 / 4) := by
  have hv : getBoundaryValue exampleTable 0 = some 0 := by
    simp [getBoundaryValue, exampleTable, boundaryValueLoop]
  refine ⟨rfl, ?_, by norm_num, by norm_num, ?_, hv, ?_⟩
  · simp [StrictlyIncreasing, exampleTable]
  · have h1 : ¬ ((3 / 4 : ℚ) > 1 ∨ (3 / 4 : ℚ) < 0) := by norm_num
    have h2 : ¬ ((3 / 4 : ℚ) ≥ 0 ∧ (3 / 4 : ℚ) < 1 / 2) := by norm_num
    simp only [getBoundaryDistance, exampleTable, boundaryDistanceLoop, if_neg h1]
    rw [if_neg h2]
  · rw [hv]
    norm_num

/-- C2, amended: for every table that starts at (0,0) and is strictly
increasing in both columns, and every v with 0 <= v <= 1 that lies strictly
below the fraction of the last entry, `getBoundaryDistance` returns a distance
without a message and `getBoundaryValue` of that distance is exactly v. -/
theorem getBoundaryValue_getBoundaryDistance (boundaryLayer : List (K × K)) (last : K × K)
    (v : K)
    (hstart : boundaryLayer.head? = some (0, 0))
    (hinc : StrictlyIncreasing boundaryLayer)
    (hlast : boundaryLayer.getLast? = some last)
    (h0 : 0 ≤ v) (h1 : v ≤ 1) (hv : v < last.2) :
    ∃ dist, getBoundaryDistance boundaryLayer v = (some dist, [])
      ∧ getBoundaryValue boundaryLayer dist = some v := by
  cases boundaryLayer with
  | nil => simp at hstart
  | cons p tail =>
    have hp : p = (0, 0) := by
      simp at hstart
      exact hstart
    have hp2 : p.2 ≤ v := by rw [hp]; exact h0
    obtain ⟨r1, r2, r3⟩ := boundaryLoops_roundTrip v p tail last 0 hinc hlast hp2 hv
    have hvalid : ¬ (v > 1 ∨ v < 0) := by
      intro h
      rcases h with h | h
      · exact absurd h1 (not_le.mpr h)
      · exact absurd h0 (not_le.mpr h)
    refine ⟨boundaryDistanceLoop v (p :: tail) 0, ?_, ?_⟩
    · simp only [getBoundaryDistance, if_neg hvalid]
    · unfold getBoundaryValue
      rw [hlast]
      simp only [if_neg (not_lt.mpr (le_of_lt r2))]
      rw [r3 0]

/-- The hypotheses of the amended C2 hold for `exampleTable` and v = 1/4. -/
theorem getBoundaryValue_getBoundaryDistance_witness :
    ∃ dist, getBoundaryDistance exampleTable (1 / 4) = (some dist, [])
      ∧ getBoundaryValue exampleTable dist = some (1 / 4) :=
  getBoundaryValue_getBoundaryDistance exampleTable (1, 1 / 2) (1 / 4) rfl
    (by simp [StrictlyIncreasing, exampleTable]) rfl (by norm_num) (by norm_num) (by norm_num)

/-- On a ray without positive flux the first loop either fails on a read of the
dividers or leaves its state untouched. -/
theorem rayLoop_no_positive_flux (dividers : List K) (Qz : Nat → K) (is : List Nat)
    (st : RayState K) (hq : ∀ i, ¬ Qz i > 0) :
    rayLoop dividers Qz is st = none ∨ rayLoop dividers Qz is st = some st := by
  induction is with
  | nil => exact Or.inr rfl
  | cons i rest ih =>
    unfold rayLoop
    unfold rayStep
    cases h1 : dividers.get? i with
    | none => exact Or.inl rfl
    | some x1 =>
      cases h2 : dividers.get? (i + 1) with
      | none => exact Or.inl rfl
      | some x2 =>
        simp only [if_neg (hq i)]
        exact ih

/-- With `fluxSums` empty, `fluxSums.size() - 1` is `2 ^ 64 - 1` and the first
pass of the second loop reads `x2s[0]` outside the vector. -/
theorem tableLoop_empty (x1_0 fluxSum : K) (boundaryLayer : List (K × K)) :
    tableLoop ([] : List K) [] x1_0 fluxSum (sizeT (([] : List K).length + 2 ^ 64 - 1)) 0
      boundaryLayer = none := by
  rw [tableLoop]
  simp [sizeT]

/-- On every ray without positive flux `calculateBoundaryLayer` reads outside
a vector. -/
theorem calculateBoundaryLayer_no_positive_flux (dividers : List K) (Qz : Nat → K)
    (i_min nX : Nat) (boundaryLayer : List (K × K)) (hq : ∀ i, ¬ Qz i > 0) :
    calculateBoundaryLayer dividers Qz i_min nX boundaryLayer = none := by
  unfold calculateBoundaryLayer
  rcases rayLoop_no_positive_flux dividers Qz (List.range' i_min (nX - i_min))
    { x2s := [], fluxSums := [], fluxSum := 0, x1_0 := 0, firstIndex := true } hq with h | h
  · rw [h]
  · rw [h]
    exact tableLoop_empty _ _ _

/-- Neighbouring dividers of a strictly increasing mesh. -/
theorem dividers_step (dividers : List K) (hd : dividers.Pairwise (fun a b => a < b))
    (i : Nat) (x1 x2 : K) (h1 : dividers.get? i = some x1)
    (h2 : dividers.get? (i + 1) = some x2) : x1 < x2 := by
  rw [List.get?_eq_getElem?] at h1 h2
  obtain ⟨hi, e1⟩ := List.getElem?_eq_some.mp h1
  obtain ⟨hj, e2⟩ := List.getElem?_eq_some.mp h2
  rw [← e1, ← e2]
  exact List.pairwise_iff_getElem.mp hd i (i + 1) hi hj (Nat.lt_succ_self i)

/-- One pass of the first loop keeps `RayInvariant`. -/
theorem rayStep_invariant (dividers : List K) (Qz : Nat → K) (i_min : Nat)
    (hd : dividers.Pairwise (fun a b => a < b)) (st : RayState K) (i : Nat)
    (hread : i + 1 < dividers.length) (hinv : RayInvariant dividers Qz i_min st i) :
    ∃ st', rayStep dividers Qz st i = some st'
      ∧ RayInvariant dividers Qz i_min st' (i + 1) := by
  obtain ⟨v1, v2, v3, v4, v5, v6, v7, v8, v9, v10⟩ := hinv
  have hi : i < dividers.length := Nat.lt_of_succ_lt hread
  have h1 : dividers.get? i = some dividers[i] := by
    rw [List.get?_eq_getElem?, List.getElem?_eq_getElem hi]
  have h2 : dividers.get? (i + 1) = some dividers[i + 1] := by
    rw [List.get?_eq_getElem?, List.getElem?_eq_getElem hread]
  have hlt : dividers[i] < dividers[i + 1] := dividers_step dividers hd i _ _ h1 h2
  have hnext : ∀ d, dividers.get? (i + 1) = some d → d = dividers[i + 1] := by
    intro d hd'
    rw [h2] at hd'
    exact (Option.some.inj hd').symm
  unfold rayStep
  rw [h1, h2]
  dsimp only
  by_cases hq : Qz i > 0
  · rw [if_pos hq]
    refine ⟨_, rfl, ?_⟩
    have hinc : 0 < max (Qz i) 0 * (dividers[i + 1] - dividers[i]) :=
      mul_pos (lt_max_of_lt_left hq) (sub_pos.mpr hlt)
    refine ⟨?_, ?_, ?_, ?_, ?_, ?_, ?_, ?_, ?_, ?_⟩ <;> try dsimp only
    · simp [v1]
    · simp only [List.length_append, List.length_singleton]
      omega
    · intro h
      simp at h
    · intro _ d hd'
      rw [hnext d hd']
      by_cases hf : st.firstIndex = true
      · simp only [hf, if_true]
        exact le_of_lt hlt
      · have hf' : st.firstIndex = false := by simpa using hf
        simp only [hf']
        exact le_trans (v4 hf' _ h1) (le_of_lt hlt)
    · intro _
      simp
    · rw [List.pairwise_append]
      refine ⟨v6, List.pairwise_singleton _ _, ?_⟩
      intro a ha b hb
      rw [List.mem_singleton] at hb
      rw [hb]
      exact lt_of_le_of_lt ((v7 a ha).2 _ h1) hlt
    · intro x hx
      rcases List.mem_append.mp hx with hx | hx
      · have hne : st.x2s ≠ [] := List.ne_nil_of_mem hx
        have hf' : st.firstIndex = false := by
          cases hb : st.firstIndex
          · rfl
          · exact absurd (v3 hb) hne
        simp only [hf']
        refine ⟨(v7 x hx).1, ?_⟩
        intro d hd'
        rw [hnext d hd']
        exact le_trans ((v7 x hx).2 _ h1) (le_of_lt hlt)
      · rw [List.mem_singleton] at hx
        rw [hx]
        refine ⟨?_, ?_⟩
        · by_cases hf : st.firstIndex = true
          · simp only [hf, if_true]
            exact hlt
          · have hf' : st.firstIndex = false := by simpa using hf
            simp only [hf']
            exact lt_of_le_of_lt (v4 hf' _ h1) hlt
        · intro d hd'
          rw [hnext d hd']
    · rw [List.pairwise_append]
      refine ⟨v8, List.pairwise_singleton _ _, ?_⟩
      intro a ha b hb
      rw [List.mem_singleton] at hb
      rw [hb]
      have := (v9 a ha).2
      linarith
    · intro f hf
      rcases List.mem_append.mp hf with hf | hf
      · have := v9 f hf
        exact ⟨this.1, by linarith [this.2]⟩
      · rw [List.mem_singleton] at hf
        rw [hf]
        exact ⟨by linarith, le_refl _⟩
    · linarith
  · rw [if_neg hq]
    refine ⟨st, rfl, v1, Nat.le_succ_of_le v2, v3, ?_, ?_, v6, ?_, v8, v9, v10⟩
    · intro hf d hd'
      rw [hnext d hd']
      exact le_trans (v4 hf _ h1) (le_of_lt hlt)
    · rintro ⟨j, hj1, hj2, hj3⟩
      by_cases hji : j = i
      · rw [hji] at hj3
        exact absurd hj3 hq
      · exact v5 ⟨j, hj1, by omega, hj3⟩
    · intro x hx
      refine ⟨(v7 x hx).1, ?_⟩
      intro d hd'
      rw [hnext d hd']
      exact le_trans ((v7 x hx).2 _ h1) (le_of_lt hlt)

/-- The first loop over the columns `i, ..., i + n - 1` succeeds and keeps
`RayInvariant`. -/
theorem rayLoop_invariant (dividers : List K) (Qz : Nat → K) (i_min : Nat)
    (hd : dividers.Pairwise (fun a b => a < b)) (n : Nat) (i : Nat) (st : RayState K)
    (hread : i + n < dividers.length) (hinv : RayInvariant dividers Qz i_min st i) :
    ∃ st', rayLoop dividers Qz (List.range' i n) st = some st'
      ∧ RayInvariant dividers Qz i_min st' (i + n) := by
  induction n generalizing i st with
  | zero => exact ⟨st, rfl, hinv⟩
  | succ n ih =>
    obtain ⟨st1, hs1, hinv1⟩ := rayStep_invariant dividers Qz i_min hd st i (by omega) hinv
    obtain ⟨st2, hs2, hinv2⟩ := ih (i + 1) st1 (by omega) hinv1
    refine ⟨st2, ?_, ?_⟩
    · rw [List.range'_succ, rayLoop, hs1]
      exact hs2
    · have : i + (n + 1) = i + 1 + n := by omega
      rw [this]
      exact hinv2

/-- The second loop with a bound inside both vectors appends one entry per
index and reads in range only. -/
theorem tableLoop_spec (x2s fluxSums : List K) (x1_0 fluxSum : K) (bound : Nat)
    (hb1 : bound ≤ x2s.length) (hb2 : bound ≤ fluxSums.length) (n i : Nat)
    (hn : i + n = bound) (boundaryLayer : List (K × K)) :
    tableLoop x2s fluxSums x1_0 fluxSum bound i boundaryLayer
      = some (boundaryLayer ++ (List.range' i n).map
          (fun k => (x2s.getD k 0 - x1_0, fluxSums.getD k 0 / fluxSum))) := by
  induction n generalizing i boundaryLayer with
  | zero =>
    have hi : ¬ i < bound := by omega
    rw [tableLoop, if_neg hi]
    simp
  | succ n ih =>
    have hi : i < bound := by omega
    have h1 : x2s.get? i = some (x2s.getD i 0) := by
      rw [List.get?_eq_getElem?, List.getElem?_eq_getElem (by omega),
        List.getD_eq_getElem _ _ (by omega)]
    have h2 : fluxSums.get? i = some (fluxSums.getD i 0) := by
      rw [List.get?_eq_getElem?, List.getElem?_eq_getElem (by omega),
        List.getD_eq_getElem _ _ (by omega)]
    rw [tableLoop, if_pos hi, h1, h2]
    dsimp only
    rw [ih (i + 1) (by omega), List.range'_succ, List.map_cons, List.append_assoc]
    rfl

/-- On every ray of a strictly increasing mesh that holds a cell with positive
flux, `calculateBoundaryLayer` reads in range only and builds a table that
starts with (0,0), is non-decreasing in both columns and has all its
fractions in [0,1]. -/
theorem calculateBoundaryLayer_wellformed (dividers : List K) (Qz : Nat → K)
    (i_min nX : Nat)
    (hd : dividers.Pairwise (fun a b => a < b))
    (hlen : nX < dividers.length) (hsize : nX < 2 ^ 64)
    (hpos : ∃ j, i_min ≤ j ∧ j < nX ∧ Qz j > 0) :
    ∃ table, calculateBoundaryLayer dividers Qz i_min nX [] = some table
      ∧ table.head? = some (0, 0)
      ∧ NonDecreasing table
      ∧ ∀ p ∈ table, 0 ≤ p.2 ∧ p.2 ≤ 1 := by
  obtain ⟨j0, hj1, hj2, hj3⟩ := hpos
  have hinit : RayInvariant dividers Qz i_min
      { x2s := [], fluxSums := [], fluxSum := 0, x1_0 := 0, firstIndex := true } i_min := by
    refine ⟨rfl, Nat.zero_le _, fun _ => rfl, ?_, ?_, List.Pairwise.nil, ?_,
      List.Pairwise.nil, ?_, le_refl _⟩
    · intro h
      simp at h
    · rintro ⟨j, h1, h2, -⟩
      omega
    · intro x hx
      simp at hx
    · intro f hf
      simp at hf
  obtain ⟨st, hst, v1, v2, v3, v4, v5, v6, v7, v8, v9, v10⟩ :=
    rayLoop_invariant dividers Qz i_min hd (nX - i_min) i_min _ (by omega) hinit
  have hnX : i_min + (nX - i_min) = nX := by omega
  rw [hnX] at v2 v5
  have hne : st.fluxSums ≠ [] := v5 ⟨j0, hj1, hj2, hj3⟩
  have hL : 0 < st.fluxSums.length := List.length_pos.mpr hne
  have hbound : sizeT (st.fluxSums.length + 2 ^ 64 - 1) = st.fluxSums.length - 1 := by
    unfold sizeT
    omega
  have hsum : 0 < st.fluxSum := by
    obtain ⟨f, hf⟩ := List.exists_mem_of_ne_nil _ hne
    exact lt_of_lt_of_le (v9 f hf).1 (v9 f hf).2
  unfold calculateBoundaryLayer
  rw [hst]
  dsimp only
  rw [hbound, tableLoop_spec st.x2s st.fluxSums st.x1_0 st.fluxSum (st.fluxSums.length - 1)
    (by omega) (by omega) (st.fluxSums.length - 1) 0 (by omega)]
  refine ⟨_, rfl, ?_, ?_, ?_⟩
  · simp
  · unfold NonDecreasing
    rw [List.nil_append, List.singleton_append, List.pairwise_cons]
    constructor
    · intro p hp
      obtain ⟨k, hk, rfl⟩ := List.mem_map.mp hp
      rw [List.mem_range'_1] at hk
      have hk1 : k < st.x2s.length := by omega
      have hk2 : k < st.fluxSums.length := by omega
      rw [List.getD_eq_getElem _ _ hk1, List.getD_eq_getElem _ _ hk2]
      have hx := (v7 _ (List.getElem_mem hk1)).1
      have hf := (v9 _ (List.getElem_mem hk2)).1
      exact ⟨by dsimp only; linarith, by dsimp only; exact le_of_lt (div_pos hf hsum)⟩
    · rw [List.pairwise_map]
      refine List.Pairwise.imp_of_mem ?_ (List.pairwise_lt_range' 0 (st.fluxSums.length - 1))
      intro a b ha hb hab
      rw [List.mem_range'_1] at ha hb
      have ha1 : a < st.x2s.length := by omega
      have ha2 : a < st.fluxSums.length := by omega
      have hb1 : b < st.x2s.length := by omega
      have hb2 : b < st.fluxSums.length := by omega
      rw [List.getD_eq_getElem _ _ ha1, List.getD_eq_getElem _ _ ha2,
        List.getD_eq_getElem _ _ hb1, List.getD_eq_getElem _ _ hb2]
      have hx := List.pairwise_iff_getElem.mp v6 a b ha1 hb1 hab
      have hf := List.pairwise_iff_getElem.mp v8 a b ha2 hb2 hab
      constructor
      · dsimp only
        linarith
      · dsimp only
        exact div_le_div_of_nonneg_right (le_of_lt hf) (le_of_lt hsum)
  · intro p hp
    rw [List.nil_append, List.singleton_append, List.mem_cons] at hp
    rcases hp with hp | hp
    · rw [hp]
      exact ⟨le_refl _, zero_le_one⟩
    · obtain ⟨k, hk, rfl⟩ := List.mem_map.mp hp
      rw [List.mem_range'_1] at hk
      have hk2 : k < st.fluxSums.length := by omega
      rw [List.getD_eq_getElem _ _ hk2]
      have hf := v9 _ (List.getElem_mem hk2)
      dsimp only
      exact ⟨le_of_lt (div_pos hf.1 hsum), (div_le_one hsum).mpr hf.2⟩

/-- The table built on the mesh 0, 1, 2, 3 with flux 1 in its three columns:
the last column is left out. -/
theorem calculateBoundaryLayer_unitFlux :
    calculateBoundaryLayer [0, 1, 2, 3] unitFlux 0 3 []
      = some [(0, 0), (1, 1 / 3), (2, 2 / 3)] := by
  have hray : rayLoop [0, 1, 2, 3] unitFlux (List.range' 0 (3 - 0))
      { x2s := [], fluxSums := [], fluxSum := 0, x1_0 := 0, firstIndex := true }
      = some { x2s := [1, 2, 3], fluxSums := [1, 2, 3], fluxSum := 3, x1_0 := 0,
               firstIndex := false } := by
    simp [rayLoop, rayStep, unitFlux, List.range']
  unfold calculateBoundaryLayer
  rw [hray]
  dsimp only
  have hb : sizeT (([1, 2, 3] : List ℚ).length + 2 ^ 64 - 1) = 2 := by
    simp [sizeT]
  rw [hb, tableLoop_spec [1, 2, 3] [1, 2, 3] 0 3 2 (by simp) (by simp) 2 0 rfl]
  simp [List.range']

/-- C3, the failing input: on the ray with dividers 0, 1, 2 and no positive
flux the first loop ends with `x2s` and `fluxSums` empty (all its reads of the
dividers being in range), and the build of the table then reads `x2s[0]`. -/
theorem calculateBoundaryLayer_fault :
    rayLoop exampleDividers noFlux (List.range' 0 (2 - 0))
        { x2s := [], fluxSums := [], fluxSum := 0, x1_0 := 0, firstIndex := true }
      = some { x2s := [], fluxSums := [], fluxSum := 0, x1_0 := 0, firstIndex := true }
    ∧ calculateBoundaryLayer exampleDividers noFlux 0 2 [] = none := by
  constructor
  · simp [rayLoop, rayStep, exampleDividers, noFlux, List.range']
  · exact calculateBoundaryLayer_no_positive_flux exampleDividers noFlux 0 2 []
      (fun _ => by simp [noFlux])

/-! ### Range and monotonicity of `getBoundaryValue` -/

/-- The value interpolated inside a bracket `p <= x < q` between `u` and `w`
lies between every common lower and upper bound of `u` and `w`. -/
theorem interpolate_between (p q u w x : K) (h1 : p ≤ x) (h2 : x < q) :
    (∀ lo, lo ≤ u → lo ≤ w → lo ≤ (x - p) / ((q - p) / (w - u)) + u)
    ∧ (∀ hi, u ≤ hi → w ≤ hi → (x - p) / ((q - p) / (w - u)) + u ≤ hi) := by
  have hD : 0 < q - p := by linarith
  have hxp : 0 ≤ x - p := sub_nonneg.mpr h1
  have hqx : 0 ≤ q - x := by linarith
  have hform : (x - p) / ((q - p) / (w - u)) + u = ((x - p) * (w - u)) / (q - p) + u := by
    rw [div_div_eq_mul_div]
  rw [hform]
  constructor
  · intro lo hu hw
    have hgoal : (lo - u) ≤ ((x - p) * (w - u)) / (q - p) := by
      rw [le_div_iff₀ hD]
      nlinarith [mul_nonneg hqx (sub_nonneg.mpr hu), mul_nonneg hxp (sub_nonneg.mpr hw)]
    linarith
  · intro hi hu hw
    have hgoal : ((x - p) * (w - u)) / (q - p) ≤ hi - u := by
      rw [div_le_iff₀ hD]
      nlinarith [mul_nonneg hqx (sub_nonneg.mpr hu), mul_nonneg hxp (sub_nonneg.mpr hw)]
    linarith

/-- With all fractions of the table and the start value in [0,1], the loop of
`getBoundaryValue` ends in [0,1]. -/
theorem boundaryValueLoop_range (dist : K) (l : List (K × K)) (val : K)
    (hf : ∀ p ∈ l, 0 ≤ p.2 ∧ p.2 ≤ 1) (hv : 0 ≤ val ∧ val ≤ 1) :
    0 ≤ boundaryValueLoop dist l val ∧ boundaryValueLoop dist l val ≤ 1 := by
  induction l generalizing val with
  | nil => simpa [boundaryValueLoop] using hv
  | cons p tail ih =>
    cases tail with
    | nil => simpa [boundaryValueLoop] using hv
    | cons q rest =>
      rw [boundaryValueLoop]
      refine ih _ (fun r hr => hf r (List.mem_cons_of_mem _ hr)) ?_
      have hp := hf p (List.mem_cons_self _ _)
      have hq := hf q (List.mem_cons_of_mem _ (List.mem_cons_self _ _))
      by_cases hb : dist ≥ p.1 ∧ dist < q.1
      · rw [if_pos hb]
        obtain ⟨lo, hi⟩ := interpolate_between p.1 q.1 p.2 q.2 dist hb.1 hb.2
        exact ⟨lo 0 hp.1 hq.1, hi 1 hp.2 hq.2⟩
      · rw [if_neg hb]
        exact hv

/-- For every non-empty table with fractions in [0,1], `getBoundaryValue`
returns a value in [0,1]. -/
theorem getBoundaryValue_range (boundaryLayer : List (K × K)) (dist : K)
    (hne : boundaryLayer ≠ []) (hf : ∀ p ∈ boundaryLayer, 0 ≤ p.2 ∧ p.2 ≤ 1) :
    ∃ v, getBoundaryValue boundaryLayer dist = some v ∧ 0 ≤ v ∧ v ≤ 1 := by
  unfold getBoundaryValue
  rw [List.getLast?_eq_getLast _ hne]
  dsimp only
  split
  · exact ⟨1, rfl, zero_le_one, le_refl _⟩
  · exact ⟨_, rfl, boundaryValueLoop_range dist boundaryLayer 0 hf ⟨le_refl _, zero_le_one⟩⟩

/-- Inside the table (first distance <= dist < last distance) the loop of
`getBoundaryValue` returns a value between the first and the last fraction. -/
theorem boundaryValueLoop_inside (dist : K) (p : K × K) (tail : List (K × K)) (last : K × K)
    (val : K) (hc : StrictlyIncreasing (p :: tail)) (hl : (p :: tail).getLast? = some last)
    (h1 : p.1 ≤ dist) (h2 : dist < last.1) :
    p.2 ≤ boundaryValueLoop dist (p :: tail) val
    ∧ boundaryValueLoop dist (p :: tail) val ≤ last.2 := by
  induction tail generalizing p val with
  | nil =>
    simp at hl
    subst hl
    exact absurd h2 (not_lt.mpr h1)
  | cons q rest ih =>
    have hc' := List.chain'_cons.mp hc
    have hl' : (q :: rest).getLast? = some last := by
      rw [List.getLast?_cons_cons] at hl
      exact hl
    have hql := first_le_last q rest last hc'.2 hl'
    rw [boundaryValueLoop]
    by_cases hq : dist < q.1
    · rw [if_pos ⟨h1, hq⟩, boundaryValueLoop_below dist q rest _ hc'.2 hq]
      obtain ⟨lo, hi⟩ := interpolate_between p.1 q.1 p.2 q.2 dist h1 hq
      exact ⟨lo p.2 (le_refl _) (le_of_lt hc'.1.2),
        le_trans (hi q.2 (le_of_lt hc'.1.2) (le_refl _)) hql.2⟩
    · rw [if_neg (fun h => hq h.2)]
      obtain ⟨j1, j2⟩ := ih q val hc'.2 hl' (not_lt.mp hq)
      exact ⟨le_trans (le_of_lt hc'.1.2) j1, j2⟩

/-- Inside the table the loop of `getBoundaryValue` is non-decreasing in the
distance. -/
theorem boundaryValueLoop_mono (d1 d2 : K) (p : K × K) (tail : List (K × K))
    (last : K × K) (v1 v2 : K) (hc : StrictlyIncreasing (p :: tail))
    (hl : (p :: tail).getLast? = some last)
    (h1 : p.1 ≤ d1) (h12 : d1 ≤ d2) (h2 : d2 < last.1) :
    boundaryValueLoop d1 (p :: tail) v1 ≤ boundaryValueLoop d2 (p :: tail) v2 := by
  induction tail generalizing p v1 v2 with
  | nil =>
    simp at hl
    subst hl
    exact absurd h2 (not_lt.mpr (le_trans h1 h12))
  | cons q rest ih =>
    have hc' := List.chain'_cons.mp hc
    have hl' : (q :: rest).getLast? = some last := by
      rw [List.getLast?_cons_cons] at hl
      exact hl
    rw [boundaryValueLoop, boundaryValueLoop]
    by_cases hq2 : d2 < q.1
    · have hq1 : d1 < q.1 := lt_of_le_of_lt h12 hq2
      rw [if_pos ⟨h1, hq1⟩, if_pos ⟨le_trans h1 h12, hq2⟩,
        boundaryValueLoop_below d1 q rest _ hc'.2 hq1,
        boundaryValueLoop_below d2 q rest _ hc'.2 hq2]
      have hD : 0 < q.1 - p.1 := sub_pos.mpr hc'.1.1
      have hF : 0 ≤ q.2 - p.2 := le_of_lt (sub_pos.mpr hc'.1.2)
      dsimp only
      rw [div_div_eq_mul_div, div_div_eq_mul_div]
      have : (d1 - p.1) * (q.2 - p.2) / (q.1 - p.1) ≤ (d2 - p.1) * (q.2 - p.2) / (q.1 - p.1) :=
        div_le_div_of_nonneg_right
          (mul_le_mul_of_nonneg_right (by linarith) hF) (le_of_lt hD)
      linarith
    · by_cases hq1 : d1 < q.1
      · rw [if_pos ⟨h1, hq1⟩, if_neg (fun h => hq2 h.2),
          boundaryValueLoop_below d1 q rest _ hc'.2 hq1]
        obtain ⟨-, hi⟩ := interpolate_between p.1 q.1 p.2 q.2 d1 h1 hq1
        exact le_trans (hi q.2 (le_of_lt hc'.1.2) (le_refl _))
          (boundaryValueLoop_inside d2 q rest last v2 hc'.2 hl' (not_lt.mp hq2) h2).1
      · rw [if_neg (fun h => hq1 h.2), if_neg (fun h => hq2 h.2)]
        exact ih q v1 v2 hc'.2 hl' (not_lt.mp hq1)

/-- Away from the last distance of the table `getBoundaryValue` is
non-decreasing: for a table that starts at (0,0), is strictly increasing in
both columns and has fractions at most 1, and for `0 <= dist1 <= dist2` both
different from the last distance, the value at `dist1` is at most the value at
`dist2`. -/
theorem getBoundaryValue_mono_off_last (boundaryLayer : List (K × K)) (last : K × K)
    (dist1 dist2 : K)
    (hstart : boundaryLayer.head? = some (0, 0))
    (hinc : StrictlyIncreasing boundaryLayer)
    (hlast : boundaryLayer.getLast? = some last)
    (hf : ∀ p ∈ boundaryLayer, p.2 ≤ 1)
    (h0 : 0 ≤ dist1) (h12 : dist1 ≤ dist2)
    (hn1 : dist1 ≠ last.1) (hn2 : dist2 ≠ last.1) :
    ∃ v1 v2, getBoundaryValue boundaryLayer dist1 = some v1
      ∧ getBoundaryValue boundaryLayer dist2 = some v2 ∧ v1 ≤ v2 := by
  cases boundaryLayer with
  | nil => simp at hstart
  | cons p tail =>
    have hp : p = (0, 0) := by
      simp at hstart
      exact hstart
    have hp1 : p.1 ≤ dist1 := by rw [hp]; exact h0
    have hlast1 : last.2 ≤ 1 := hf last (List.mem_of_getLast?_eq_some hlast)
    unfold getBoundaryValue
    rw [hlast]
    dsimp only
    by_cases hb2 : dist2 > last.1
    · rw [if_pos hb2]
      by_cases hb1 : dist1 > last.1
      · rw [if_pos hb1]
        exact ⟨1, 1, rfl, rfl, le_refl _⟩
      · rw [if_neg hb1]
        have hlt1 : dist1 < last.1 := lt_of_le_of_ne (not_lt.mp hb1) hn1
        exact ⟨_, 1, rfl, rfl,
          le_trans (boundaryValueLoop_inside dist1 p tail last 0 hinc hlast hp1 hlt1).2 hlast1⟩
    · have hlt2 : dist2 < last.1 := lt_of_le_of_ne (not_lt.mp hb2) hn2
      have hb1 : ¬ dist1 > last.1 := not_lt.mpr (le_trans h12 (le_of_lt hlt2))
      rw [if_neg hb2, if_neg hb1]
      exact ⟨_, _, rfl, rfl, boundaryValueLoop_mono dist1 dist2 p tail last 0 0 hinc hlast hp1
        h12 hlt2⟩

/-- C17, the failing input: `exampleTable` starts at (0,0), is strictly
increasing in both columns and has fractions at most 1; its last distance is
1; `getBoundaryValue` is 1/4 at distance 1/2 and 0 at distance 1, so it
decreases between two distances `1/2 <= 1`. -/
theorem getBoundaryValue_drops_at_last :
    exampleTable.head? = some (0, 0)
    ∧ StrictlyIncreasing exampleTable
    ∧ (∀ p ∈ exampleTable, p.2 ≤ 1)
    ∧ exampleTable.getLast? = some (1, 1 / 2)
    ∧ getBoundaryValue exampleTable (1 / 2) = some (1 / 4)
    ∧ getBoundaryValue exampleTable 1 = some 0 := by
  refine ⟨rfl, ?_, ?_, rfl, ?_, ?_⟩
  · simp [StrictlyIncreasing, exampleTable]
  · intro p hp
    simp [exampleTable] at hp
    rcases hp with rfl | rfl <;> norm_num
  · simp [getBoundaryValue, exampleTable, boundaryValueLoop]
    norm_num
  · simp [getBoundaryValue, exampleTable, boundaryValueLoop]

end BoundaryLayer

/-! ## Scheme dispatch: proofs -/

section Schemes

theorem foldl_invariant {α β : Type} (P : β → Prop) (f : β → α → β) (l : List α) (b : β)
    (hb : P b) (hf : ∀ b a, P b → P (f b a)) : P (l.foldl f b) := by
  induction l generalizing b with
  | nil => exact hb
  | cons a rest ih => exact ih (f b a) (hf b a hb)

/-- `setSolarBoundaryConditions` writes cell data only. -/
theorem setSolarBoundaryConditions_cells (E : Externals K) (g : Ground K) :
    ∃ c, setSolarBoundaryConditions E g = { g with cell := c } := by
  unfold setSolarBoundaryConditions
  by_cases h1 : g.foundation.numberOfDimensions = 1
  · rw [if_pos h1]
    exact ⟨g.cell, rfl⟩
  · rw [if_neg h1]
    apply foldl_invariant (fun g' : Ground K => ∃ c, g' = { g with cell := c })
    · exact ⟨g.cell, rfl⟩
    · intro g' s hg'
      dsimp only
      split
      · apply foldl_invariant (fun g'' : Ground K => ∃ c, g'' = { g with cell := c })
        · exact hg'
        · rintro g'' index ⟨c, rfl⟩
          exact ⟨_, rfl⟩
      · exact hg'

/-- `setInteriorRadiationBoundaryConditions` writes cell data only. -/
theorem setInteriorRadiationBoundaryConditions_cells (g : Ground K) :
    ∃ c, setInteriorRadiationBoundaryConditions g = { g with cell := c } := by
  unfold setInteriorRadiationBoundaryConditions
  apply foldl_invariant (fun g' : Ground K => ∃ c, g' = { g with cell := c })
  · exact ⟨g.cell, rfl⟩
  · intro g' s hg'
    dsimp only
    split
    · apply foldl_invariant (fun g'' : Ground K => ∃ c, g'' = { g with cell := c })
      · exact hg'
      · rintro g'' index ⟨c, rfl⟩
        dsimp only
        split
        · exact ⟨_, rfl⟩
        · exact ⟨_, rfl⟩
    · exact hg'

/-- The first part of `calculate` replaces the boundary conditions, the
timestep and cell data, and nothing else. -/
theorem applyBoundaryConditions_frame (E : Externals K) (g : Ground K)
    (boundaryConditions : BoundaryConditions K) (ts : K) :
    ∃ c, applyBoundaryConditions E g boundaryConditions ts
      = { g with bcs := boundaryConditions, timestep := ts, cell := c } := by
  unfold applyBoundaryConditions
  obtain ⟨c1, h1⟩ := setSolarBoundaryConditions_cells E
    { g with bcs := boundaryConditions, timestep := ts }
  obtain ⟨c2, h2⟩ := setInteriorRadiationBoundaryConditions_cells
    (setSolarBoundaryConditions E { g with bcs := boundaryConditions, timestep := ts })
  refine ⟨c2, ?_⟩
  dsimp only
  rw [h2, h1]

/-- The upward sweep writes `U` only. -/
theorem calculateADEUpwardSweep_frame (E : Externals K) (g : Ground K) :
    ∃ u, calculateADEUpwardSweep E g = { g with U := u } := by
  unfold calculateADEUpwardSweep
  apply foldl_invariant (fun g' : Ground K => ∃ u, g' = { g with U := u })
  · exact ⟨g.U, rfl⟩
  · rintro g' index ⟨u, rfl⟩
    exact ⟨_, rfl⟩

/-- The downward sweep writes `V` only. -/
theorem downwardSweepLoop_frame (E : Externals K) (num_cells : Nat) (index : Nat)
    (g0 g : Ground K) (hg : ∃ v, g = { g0 with V := v }) :
    ∃ v, downwardSweepLoop E num_cells index g = { g0 with V := v } := by
  induction index, g using downwardSweepLoop.induct E num_cells with
  | case1 index g hlt ih =>
    rw [downwardSweepLoop, if_pos hlt]
    apply ih
    obtain ⟨v, rfl⟩ := hg
    exact ⟨_, rfl⟩
  | case2 index g hge =>
    rw [downwardSweepLoop, if_neg hge]
    exact hg

theorem calculateADEDownwardSweep_frame (E : Externals K) (g : Ground K) :
    ∃ v, calculateADEDownwardSweep E g = { g with V := v } :=
  downwardSweepLoop_frame E g.num_cells _ g g ⟨g.V, rfl⟩

/-- The closing loop of `calculateADE` over the first `n` indices: it keeps the
sizes of both temperature arrays and makes them agree below `n`. -/
theorem averageSweeps_loop (n : Nat) (g : Ground K) (hN : n ≤ g.TNew.length)
    (hO : n ≤ g.TOld.length) :
    ((List.range n).foldl averageSweeps g).TNew.length = g.TNew.length
    ∧ ((List.range n).foldl averageSweeps g).TOld.length = g.TOld.length
    ∧ ((List.range n).foldl averageSweeps g).num_cells = g.num_cells
    ∧ ∀ i, i < n →
      ((List.range n).foldl averageSweeps g).TOld[i]?
        = ((List.range n).foldl averageSweeps g).TNew[i]? := by
  induction n with
  | zero => simp
  | succ n ih =>
    obtain ⟨l1, l2, l3, l4⟩ := ih (Nat.le_of_succ_le hN) (Nat.le_of_succ_le hO)
    rw [List.range_succ, List.foldl_append]
    simp only [List.foldl_cons, List.foldl_nil, averageSweeps, List.length_set]
    refine ⟨l1, l2, l3, ?_⟩
    intro i hi
    have hn1 : n < ((List.range n).foldl averageSweeps g).TNew.length := by
      rw [l1]; exact hN
    have hn2 : n < ((List.range n).foldl averageSweeps g).TOld.length := by
      rw [l2]; exact hO
    by_cases hin : i = n
    · subst hin
      simp [List.getElem?_set, hn1, hn2, List.getD_eq_getElem?_getD]
    · have hlt : i < n := by omega
      have hne : n ≠ i := fun h => hin h.symm
      simp only [List.getElem?_set, if_neg hne]
      exact l4 i hlt

/-- With both temperature arrays of size `num_cells`, `calculateADE` leaves
them equal at every cell index. -/
theorem calculateADE_TOld (E : Externals K) (g : Ground K)
    (hNew : g.TNew.length = g.num_cells) (hOld : g.TOld.length = g.num_cells)
    (i : Nat) (hi : i < g.num_cells) :
    (calculateADE E g).TOld[i]? = (calculateADE E g).TNew[i]? := by
  obtain ⟨u, hu⟩ := calculateADEUpwardSweep_frame E g
  obtain ⟨v, hv⟩ := calculateADEDownwardSweep_frame E (calculateADEUpwardSweep E g)
  unfold calculateADE
  dsimp only
  rw [hv, hu]
  exact (averageSweeps_loop g.num_cells { g with U := u, V := v }
    (le_of_eq hNew.symm) (le_of_eq hOld.symm)).2.2.2 i hi

theorem calculateExplicit_TOld (E : Externals K) (g : Ground K) :
    (calculateExplicit E g).TOld = (calculateExplicit E g).TNew := rfl

theorem calculateMatrix_TOld (E : Externals K) (scheme : NumericalScheme) (g : Ground K) :
    (calculateMatrix E scheme g).TOld = (calculateMatrix E scheme g).TNew := by
  unfold calculateMatrix clearAmat
  dsimp only
  split <;> rfl

theorem calculateADI_TOld (E : Externals K) (dim : Nat) (g : Ground K) :
    (calculateADI E dim g).TOld = (calculateADI E dim g).TNew := by
  unfold calculateADI clearAmat
  dsimp only
  split <;> rfl

theorem solveLinearSystem_foundation (E : Externals K) (g : Ground K) :
    (solveLinearSystem E g).foundation = g.foundation := by
  unfold solveLinearSystem
  dsimp only
  split
  · rfl
  · split <;> rfl

theorem clearAmat_foundation (g : Ground K) : (clearAmat g).foundation = g.foundation := by
  unfold clearAmat
  split <;> rfl

theorem assembleADI_foundation (E : Externals K) (dim : Nat) (pairs : List (Nat × Nat))
    (g : Ground K) : (assembleADI E dim pairs g).foundation = g.foundation := by
  unfold assembleADI
  apply foldl_invariant (fun g' : Ground K => g'.foundation = g.foundation)
  · rfl
  · intro g' p hg'
    exact hg'

theorem readBackADI_foundation (pairs : List (Nat × Nat)) (g : Ground K) :
    (readBackADI pairs g).foundation = g.foundation := by
  unfold readBackADI
  apply foldl_invariant (fun g' : Ground K => g'.foundation = g.foundation)
  · rfl
  · intro g' p hg'
    exact hg'

/-- A sweep leaves the configuration alone. -/
theorem calculateADI_foundation (E : Externals K) (dim : Nat) (g : Ground K) :
    (calculateADI E dim g).foundation = g.foundation := by
  unfold calculateADI
  dsimp only
  rw [clearAmat_foundation]
  show (readBackADI _ (solveLinearSystem E (assembleADI E dim _ g))).foundation = g.foundation
  rw [readBackADI_foundation, solveLinearSystem_foundation, assembleADI_foundation]

/-- C7: under the ADI scheme one call of `calculate` runs, on the state left by
the boundary-condition update, sweep 1 when there is more than one dimension,
then sweep 2 in 3-D only, then sweep 3 always and last: the order is [1, 2, 3]
in 3-D, [1, 3] in 2-D and [3] in 1-D.  Each sweep is applied to the state
returned by the sweep before it, and every sweep ends with `TOld` equal to the
`TNew` it has written. -/
theorem calculate_ADI_sweeps (E : Externals K) (g : Ground K)
    (boundaryConditions : BoundaryConditions K) (ts : K)
    (hADI : g.foundation.numericalScheme = NumericalScheme.NS_ADI) :
    calculate E g boundaryConditions ts
        = ((if g.foundation.numberOfDimensions > 1 then [1] else [])
            ++ (if g.foundation.numberOfDimensions = 3 then [2] else []) ++ [3]).foldl
            (fun g dim => calculateADI E dim g)
            (applyBoundaryConditions E g boundaryConditions ts)
    ∧ (g.foundation.numberOfDimensions = 3 →
      calculate E g boundaryConditions ts
        = [1, 2, 3].foldl (fun g dim => calculateADI E dim g)
            (applyBoundaryConditions E g boundaryConditions ts))
    ∧ (g.foundation.numberOfDimensions = 2 →
      calculate E g boundaryConditions ts
        = [1, 3].foldl (fun g dim => calculateADI E dim g)
            (applyBoundaryConditions E g boundaryConditions ts))
    ∧ (g.foundation.numberOfDimensions = 1 →
      calculate E g boundaryConditions ts
        = [3].foldl (fun g dim => calculateADI E dim g)
            (applyBoundaryConditions E g boundaryConditions ts))
    ∧ ∀ (dim : Nat) (g' : Ground K),
        (calculateADI E dim g').TOld = (calculateADI E dim g').TNew := by
  obtain ⟨c, hc⟩ := applyBoundaryConditions_frame E g boundaryConditions ts
  have hf : (applyBoundaryConditions E g boundaryConditions ts).foundation = g.foundation := by
    rw [hc]
  have hs : (applyBoundaryConditions E g boundaryConditions ts).foundation.numericalScheme
      = NumericalScheme.NS_ADI := by rw [hf, hADI]
  have hcalc : calculate E g boundaryConditions ts
      = calculateADI E 3
          ((fun g1 : Ground K =>
              if g1.foundation.numberOfDimensions = 3 then calculateADI E 2 g1 else g1)
            (if (applyBoundaryConditions E g boundaryConditions ts).foundation.numberOfDimensions
                > 1
              then calculateADI E 1 (applyBoundaryConditions E g boundaryConditions ts)
              else applyBoundaryConditions E g boundaryConditions ts)) := by
    unfold calculate
    simp only [hs]
  refine ⟨?_, ?_, ?_, ?_, fun dim g' => calculateADI_TOld E dim g'⟩
  · rw [hcalc]
    by_cases h1 : g.foundation.numberOfDimensions > 1
    · by_cases h3 : g.foundation.numberOfDimensions = 3
      · simp [hf, h3, calculateADI_foundation]
      · simp [hf, h1, h3, calculateADI_foundation]
    · have h3 : ¬ g.foundation.numberOfDimensions = 3 := by omega
      simp [hf, h1, h3]
  · intro h3
    rw [hcalc]
    simp [hf, h3, calculateADI_foundation]
  · intro h2
    rw [hcalc]
    simp [hf, h2, calculateADI_foundation]
  · intro h1
    rw [hcalc]
    simp [hf, h1]

/-- The hypothesis of C7 holds for the two-cell ADI state in 2-D. -/
theorem calculate_ADI_sweeps_witness :
    calculate exampleExternals
        (exampleGround NumericalScheme.NS_ADI 2 [exampleCell 0 1 1, exampleCell 1 1 3] [0, 4])
        exampleBCs 1
      = [1, 3].foldl (fun g dim => calculateADI exampleExternals dim g)
          (applyBoundaryConditions exampleExternals
            (exampleGround NumericalScheme.NS_ADI 2 [exampleCell 0 1 1, exampleCell 1 1 3] [0, 4])
            exampleBCs 1) :=
  (calculate_ADI_sweeps exampleExternals
    (exampleGround NumericalScheme.NS_ADI 2 [exampleCell 0 1 1, exampleCell 1 1 3] [0, 4])
    exampleBCs 1 rfl).2.2.1 rfl

/-- From an index inside the range the downward loop visits that index, then
every smaller one down to 0, and stops when the decrement of 0 wraps around. -/
theorem downwardSweepLoop_descending (E : Externals K) (num_cells : Nat)
    (hsize : num_cells < 2 ^ 64) (index : Nat) (hi : index < num_cells) (g : Ground K) :
    downwardSweepLoop E num_cells index g
      = (List.range (index + 1)).reverse.foldl
          (fun g i => { g with V := E.calcCellADEDown g i }) g := by
  have hn : sizeT num_cells = num_cells := by
    unfold sizeT
    omega
  induction index generalizing g with
  | zero =>
    have hwrap : sizeT (0 + 2 ^ 64 - 1) = 2 ^ 64 - 1 := by
      unfold sizeT
      omega
    have hstop : ¬ (2 ^ 64 - 1 < sizeT num_cells) := by
      rw [hn]
      omega
    rw [downwardSweepLoop, if_pos (by rw [hn]; exact hi), hwrap, downwardSweepLoop,
      if_neg hstop]
    rfl
  | succ k ih =>
    have hdec : sizeT (k + 1 + 2 ^ 64 - 1) = k := by
      unfold sizeT
      omega
    rw [downwardSweepLoop, if_pos (by rw [hn]; exact hi), hdec, ih (by omega),
      List.range_succ (k + 1), List.reverse_append, List.reverse_singleton,
      List.singleton_append, List.foldl_cons]

/-- C20: the loop of `calculateADEDownwardSweep` over the unsigned index
terminates for every `num_cells` (a `size_t`, so below 2^64) and visits exactly
the indices `num_cells - 1, ..., 1, 0`, each once and in descending order (none
when `num_cells` = 0): it is the fold of the cell kernel over the reversed
range, the mirror image of `calculateADEUpwardSweep`, which folds its kernel
over the range `0, ..., num_cells - 1`. -/
theorem sweep_orders (E : Externals K) (g : Ground K) (hsize : g.num_cells < 2 ^ 64) :
    calculateADEDownwardSweep E g
        = (List.range g.num_cells).reverse.foldl
            (fun g index => { g with V := E.calcCellADEDown g index }) g
    ∧ calculateADEUpwardSweep E g
        = (List.range g.num_cells).foldl
            (fun g index => { g with U := E.calcCellADEUp g index }) g
    ∧ (List.range g.num_cells).reverse.Pairwise (fun i j => i > j)
    ∧ (∀ i, i ∈ (List.range g.num_cells).reverse ↔ i < g.num_cells) := by
  refine ⟨?_, rfl, ?_, ?_⟩
  · unfold calculateADEDownwardSweep
    by_cases h0 : g.num_cells = 0
    · have hstart : sizeT (g.num_cells + 2 ^ 64 - 1) = 2 ^ 64 - 1 := by
        unfold sizeT
        omega
      have hstop : ¬ (2 ^ 64 - 1 < sizeT g.num_cells) := by
        unfold sizeT
        omega
      rw [hstart, downwardSweepLoop, if_neg hstop, h0]
      rfl
    · have hstart : sizeT (g.num_cells + 2 ^ 64 - 1) = g.num_cells - 1 := by
        unfold sizeT
        omega
      have hsucc : g.num_cells - 1 + 1 = g.num_cells := by omega
      rw [hstart, downwardSweepLoop_descending E g.num_cells hsize (g.num_cells - 1)
        (by omega) g, hsucc]
  · rw [List.pairwise_reverse]
    exact List.pairwise_lt_range g.num_cells
  · intro i
    rw [List.mem_reverse, List.mem_range]

/-- The hypothesis of C20 holds for the two-cell state: the downward sweep is
the kernel at index 1 followed by the kernel at index 0. -/
theorem sweep_orders_witness :
    calculateADEDownwardSweep exampleExternals sparseGround
      = [1, 0].foldl
          (fun g index => { g with V := exampleExternals.calcCellADEDown g index })
          sparseGround :=
  (sweep_orders exampleExternals sparseGround (by decide)).1

/-! ### One sweep of the ADI scheme -/

/-- Appending one pair to the pairs visited by the assembly loop. -/
theorem assembleADI_append (E : Externals K) (dim : Nat) (init : List (Nat × Nat))
    (p : Nat × Nat) (g : Ground K) :
    assembleADI E dim (init ++ [p]) g
      = setValuesADI (assembleADI E dim init g) p.2
          (E.calcCellADI dim (assembleADI E dim init g) p.1).Am
          (E.calcCellADI dim (assembleADI E dim init g) p.1).A
          (E.calcCellADI dim (assembleADI E dim init g) p.1).Ap
          (E.calcCellADI dim (assembleADI E dim init g) p.1).bVal := by
  unfold assembleADI
  rw [List.foldl_append]
  rfl

/-- The assembly loop writes into `a1`, `a2`, `a3` and `b_` only, and keeps
their sizes. -/
theorem assembleADI_frame (E : Externals K) (dim : Nat) (pairs : List (Nat × Nat))
    (g : Ground K) :
    (assembleADI E dim pairs g).a1.length = g.a1.length
    ∧ (assembleADI E dim pairs g).a2.length = g.a2.length
    ∧ (assembleADI E dim pairs g).a3.length = g.a3.length
    ∧ (assembleADI E dim pairs g).b_.length = g.b_.length
    ∧ (assembleADI E dim pairs g).x_ = g.x_
    ∧ (assembleADI E dim pairs g).TNew = g.TNew := by
  unfold assembleADI
  apply foldl_invariant (fun g' : Ground K =>
    g'.a1.length = g.a1.length ∧ g'.a2.length = g.a2.length ∧ g'.a3.length = g.a3.length
    ∧ g'.b_.length = g.b_.length ∧ g'.x_ = g.x_ ∧ g'.TNew = g.TNew)
  · exact ⟨rfl, rfl, rfl, rfl, rfl, rfl⟩
  · rintro g' p ⟨h1, h2, h3, h4, h5, h6⟩
    simp only [setValuesADI, List.length_set]
    exact ⟨h1, h2, h3, h4, h5, h6⟩

/-- After the assembly loop over pairs with distinct destinations inside the
vectors, the row computed for the `k`-th pair sits at its destination. -/
theorem assembleADI_rows (E : Externals K) (dim : Nat) (pairs : List (Nat × Nat))
    (g : Ground K) (hnodup : (pairs.map Prod.snd).Nodup)
    (hlt : ∀ p ∈ pairs, p.2 < g.a1.length ∧ p.2 < g.a2.length ∧ p.2 < g.a3.length
      ∧ p.2 < g.b_.length)
    (k : Nat) (p : Nat × Nat) (hk : pairs[k]? = some p) :
    (assembleADI E dim pairs g).a1[p.2]?
        = some (E.calcCellADI dim (assembleADI E dim (pairs.take k) g) p.1).Am
    ∧ (assembleADI E dim pairs g).a2[p.2]?
        = some (E.calcCellADI dim (assembleADI E dim (pairs.take k) g) p.1).A
    ∧ (assembleADI E dim pairs g).a3[p.2]?
        = some (E.calcCellADI dim (assembleADI E dim (pairs.take k) g) p.1).Ap
    ∧ (assembleADI E dim pairs g).b_[p.2]?
        = some (E.calcCellADI dim (assembleADI E dim (pairs.take k) g) p.1).bVal := by
  induction pairs using List.reverseRecOn generalizing k p with
  | nil => simp at hk
  | append_singleton init q ih =>
    rw [List.map_append, List.nodup_append] at hnodup
    obtain ⟨hn1, -, hdisj⟩ := hnodup
    have hlt' : ∀ p ∈ init, p.2 < g.a1.length ∧ p.2 < g.a2.length ∧ p.2 < g.a3.length
        ∧ p.2 < g.b_.length := fun p hp => hlt p (List.mem_append_left _ hp)
    obtain ⟨f1, f2, f3, f4, -, -⟩ := assembleADI_frame E dim init g
    obtain ⟨q1, q2, q3, q4⟩ := hlt q (List.mem_append_right _ (List.mem_singleton_self q))
    rw [assembleADI_append]
    simp only [setValuesADI]
    by_cases hki : k < init.length
    · rw [List.getElem?_append_left hki] at hk
      have hmem : p ∈ init := List.getElem?_mem hk
      have hne : q.2 ≠ p.2 := by
        intro heq
        exact hdisj (List.mem_map_of_mem Prod.snd hmem)
          (by rw [← heq]; exact List.mem_map_of_mem Prod.snd (List.mem_singleton_self q))
      have htake : (init ++ [q]).take k = init.take k :=
        List.take_append_of_le_length (le_of_lt hki)
      rw [htake, List.getElem?_set_ne hne, List.getElem?_set_ne hne, List.getElem?_set_ne hne,
        List.getElem?_set_ne hne]
      exact ih hn1 hlt' k p hk
    · have hlen : k < (init ++ [q]).length := by
        by_contra hcon
        rw [List.getElem?_eq_none (not_lt.mp hcon)] at hk
        exact absurd hk (by simp)
      have hkeq : k = init.length := by
        rw [List.length_append, List.length_singleton] at hlen
        omega
      have hpq : p = q := by
        rw [hkeq, List.getElem?_append_right (le_refl _)] at hk
        simpa using hk.symm
      have htake : (init ++ [q]).take k = init := by
        rw [hkeq]
        exact List.take_left _ _
      rw [htake, hpq]
      refine ⟨?_, ?_, ?_, ?_⟩
      · exact List.getElem?_set_self (by rw [f1]; exact q1)
      · exact List.getElem?_set_self (by rw [f2]; exact q2)
      · exact List.getElem?_set_self (by rw [f3]; exact q3)
      · exact List.getElem?_set_self (by rw [f4]; exact q4)

/-- The read-back loop writes `TNew` only; with distinct cell positions inside
`TNew`, every visited cell receives the component of `x_` at its destination. -/
theorem readBackADI_spec (pairs : List (Nat × Nat)) (g : Ground K)
    (hnodup : (pairs.map Prod.fst).Nodup) (hlt : ∀ p ∈ pairs, p.1 < g.TNew.length) :
    (readBackADI pairs g).x_ = g.x_
    ∧ (readBackADI pairs g).a1 = g.a1
    ∧ (readBackADI pairs g).a2 = g.a2
    ∧ (readBackADI pairs g).a3 = g.a3
    ∧ (readBackADI pairs g).b_ = g.b_
    ∧ (readBackADI pairs g).TNew.length = g.TNew.length
    ∧ ∀ p ∈ pairs, (readBackADI pairs g).TNew[p.1]? = some (g.x_.getD p.2 0) := by
  induction pairs using List.reverseRecOn with
  | nil =>
    refine ⟨rfl, rfl, rfl, rfl, rfl, rfl, ?_⟩
    intro p hp
    simp at hp
  | append_singleton init q ih =>
    rw [List.map_append, List.nodup_append] at hnodup
    obtain ⟨hn1, -, hdisj⟩ := hnodup
    obtain ⟨r1, r2, r3, r4, r5, r6, r7⟩ := ih hn1
      (fun p hp => hlt p (List.mem_append_left _ hp))
    have hq := hlt q (List.mem_append_right _ (List.mem_singleton_self q))
    have hstep : readBackADI (init ++ [q]) g
        = { readBackADI init g with
            TNew := (readBackADI init g).TNew.set q.1 ((readBackADI init g).x_.getD q.2 0) } := by
      unfold readBackADI
      rw [List.foldl_append]
      rfl
    rw [hstep]
    refine ⟨r1, r2, r3, r4, r5, ?_, ?_⟩
    · simp only [List.length_set]
      exact r6
    · intro p hp
      rcases List.mem_append.mp hp with hp | hp
      · have hne : q.1 ≠ p.1 := by
          intro heq
          exact hdisj (List.mem_map_of_mem Prod.fst hp)
            (by rw [← heq]; exact List.mem_map_of_mem Prod.fst (List.mem_singleton_self q))
        simp only [List.getElem?_set_ne hne]
        exact r7 p hp
      · rw [List.mem_singleton] at hp
        rw [hp, r1]
        exact List.getElem?_set_self (by rw [r6]; exact hq)

/-- On the tri-diagonal path `solveLinearSystem` replaces the five vectors by
those left by `solveTDM` and keeps `TNew`. -/
theorem solveLinearSystem_tdm (E : Externals K) (g : Ground K)
    (h : g.foundation.numericalScheme = NumericalScheme.NS_ADI
      ∨ g.foundation.numberOfDimensions = 1) :
    (solveLinearSystem E g).a1 = (E.solveTDM ⟨g.a1, g.a2, g.a3, g.b_, g.x_⟩).a1
    ∧ (solveLinearSystem E g).a2 = (E.solveTDM ⟨g.a1, g.a2, g.a3, g.b_, g.x_⟩).a2
    ∧ (solveLinearSystem E g).a3 = (E.solveTDM ⟨g.a1, g.a2, g.a3, g.b_, g.x_⟩).a3
    ∧ (solveLinearSystem E g).b_ = (E.solveTDM ⟨g.a1, g.a2, g.a3, g.b_, g.x_⟩).b_
    ∧ (solveLinearSystem E g).x_ = (E.solveTDM ⟨g.a1, g.a2, g.a3, g.b_, g.x_⟩).x_
    ∧ (solveLinearSystem E g).TNew = g.TNew := by
  have hc : (g.foundation.numericalScheme = NumericalScheme.NS_ADI
      ∨ g.foundation.numberOfDimensions = 1) ∧ TDMA = true := ⟨h, rfl⟩
  unfold solveLinearSystem
  rw [if_pos hc]
  exact ⟨rfl, rfl, rfl, rfl, rfl, rfl⟩

/-- On the tri-diagonal path `clearAmat` zeroes the three diagonals and the
right-hand side, keeping their sizes, and leaves `x_` and `TNew` alone. -/
theorem clearAmat_tdm (g : Ground K)
    (h : g.foundation.numericalScheme = NumericalScheme.NS_ADI
      ∨ g.foundation.numberOfDimensions = 1) :
    (clearAmat g).a1 = List.replicate g.a1.length 0
    ∧ (clearAmat g).a2 = List.replicate g.a2.length 0
    ∧ (clearAmat g).a3 = List.replicate g.a3.length 0
    ∧ (clearAmat g).b_ = List.replicate g.b_.length 0
    ∧ (clearAmat g).x_ = g.x_
    ∧ (clearAmat g).TNew = g.TNew := by
  have hc : (g.foundation.numericalScheme = NumericalScheme.NS_ADI
      ∨ g.foundation.numberOfDimensions = 1) ∧ TDMA = true := ⟨h, rfl⟩
  unfold clearAmat
  rw [if_pos hc]
  exact ⟨rfl, rfl, rfl, rfl, rfl, rfl⟩

/-- `calculateADI` in terms of its three phases. -/
theorem calculateADI_phases (E : Externals K) (dim : Nat) (g : Ground K) :
    calculateADI E dim g
      = clearAmat
          { readBackADI (destIndexOf g dim).enum
              (solveLinearSystem E (assembleADI E dim (destIndexOf g dim).enum g)) with
            TOld := (readBackADI (destIndexOf g dim).enum
              (solveLinearSystem E (assembleADI E dim (destIndexOf g dim).enum g))).TNew } :=
  rfl

/-- C15: under the ADI scheme, for every axis `dim` whose destination-index
vector is a permutation of `0..num_cells-1` (the vectors of the tri-diagonal
system and `TNew` having size `num_cells`, and `solveTDM` keeping the size of
vectors of that size), `calculateADI` stores the row (Am, A, Ap, bVal) computed
for cell `c` at position `dest[c]` of `a1`, `a2`, `a3`, `b_`, every position
being written exactly once; after the solve `TNew[c] = x_[dest[c]]` for every
cell `c`, where `x_` is what `solveTDM` returns for the assembled system; and
on return `a1`, `a2`, `a3` and `b_` are all zero with their sizes unchanged. -/
theorem calculateADI_permutation (E : Externals K) (dim : Nat) (g : Ground K)
    (hADI : g.foundation.numericalScheme = NumericalScheme.NS_ADI)
    (hperm : (destIndexOf g dim).Perm (List.range g.num_cells))
    (ha1 : g.a1.length = g.num_cells) (ha2 : g.a2.length = g.num_cells)
    (ha3 : g.a3.length = g.num_cells) (hb : g.b_.length = g.num_cells)
    (hx : g.x_.length = g.num_cells) (hT : g.TNew.length = g.num_cells)
    (hsolve : ∀ v : TDMVectors K, v.a1.length = g.num_cells → v.a2.length = g.num_cells →
      v.a3.length = g.num_cells → v.b_.length = g.num_cells → v.x_.length = g.num_cells →
      (E.solveTDM v).a1.length = g.num_cells ∧ (E.solveTDM v).a2.length = g.num_cells
      ∧ (E.solveTDM v).a3.length = g.num_cells ∧ (E.solveTDM v).b_.length = g.num_cells
      ∧ (E.solveTDM v).x_.length = g.num_cells) :
    (∀ c d, (destIndexOf g dim)[c]? = some d →
      (assembleADI E dim (destIndexOf g dim).enum g).a1[d]?
          = some (E.calcCellADI dim
              (assembleADI E dim ((destIndexOf g dim).enum.take c) g) c).Am
      ∧ (assembleADI E dim (destIndexOf g dim).enum g).a2[d]?
          = some (E.calcCellADI dim
              (assembleADI E dim ((destIndexOf g dim).enum.take c) g) c).A
      ∧ (assembleADI E dim (destIndexOf g dim).enum g).a3[d]?
          = some (E.calcCellADI dim
              (assembleADI E dim ((destIndexOf g dim).enum.take c) g) c).Ap
      ∧ (assembleADI E dim (destIndexOf g dim).enum g).b_[d]?
          = some (E.calcCellADI dim
              (assembleADI E dim ((destIndexOf g dim).enum.take c) g) c).bVal)
    ∧ (∀ p, p < g.num_cells → ((destIndexOf g dim).enum.map Prod.snd).count p = 1)
    ∧ (calculateADI E dim g).x_
        = (E.solveTDM
            ⟨(assembleADI E dim (destIndexOf g dim).enum g).a1,
             (assembleADI E dim (destIndexOf g dim).enum g).a2,
             (assembleADI E dim (destIndexOf g dim).enum g).a3,
             (assembleADI E dim (destIndexOf g dim).enum g).b_,
             (assembleADI E dim (destIndexOf g dim).enum g).x_⟩).x_
    ∧ (∀ c, c < g.num_cells → ∃ d v, (destIndexOf g dim)[c]? = some d ∧ d < g.num_cells
        ∧ (calculateADI E dim g).x_[d]? = some v
        ∧ (calculateADI E dim g).TNew[c]? = some v)
    ∧ (calculateADI E dim g).a1 = List.replicate g.a1.length 0
    ∧ (calculateADI E dim g).a2 = List.replicate g.a2.length 0
    ∧ (calculateADI E dim g).a3 = List.replicate g.a3.length 0
    ∧ (calculateADI E dim g).b_ = List.replicate g.b_.length 0 := by
  have hlen : (destIndexOf g dim).length = g.num_cells := by
    rw [hperm.length_eq, List.length_range]
  have hnd : (destIndexOf g dim).Nodup := (hperm.nodup_iff).mpr (List.nodup_range _)
  have hmem : ∀ d ∈ destIndexOf g dim, d < g.num_cells := fun d hd =>
    List.mem_range.mp ((hperm.mem_iff).mp hd)
  have hsnd : (destIndexOf g dim).enum.map Prod.snd = destIndexOf g dim :=
    List.enum_map_snd _
  have hfst : (destIndexOf g dim).enum.map Prod.fst = List.range (destIndexOf g dim).length :=
    List.enum_map_fst _
  have hpairs : ∀ p ∈ (destIndexOf g dim).enum, p.1 < g.num_cells ∧ p.2 < g.num_cells := by
    intro p hp
    refine ⟨?_, hmem p.2 (List.snd_mem_of_mem_enum hp)⟩
    rw [← hlen]
    exact List.fst_lt_of_mem_enum hp
  -- the assembled system
  obtain ⟨f1, f2, f3, f4, f5, f6⟩ := assembleADI_frame E dim (destIndexOf g dim).enum g
  have hAf := assembleADI_foundation E dim (destIndexOf g dim).enum g
  have hAtdm : (assembleADI E dim (destIndexOf g dim).enum g).foundation.numericalScheme
      = NumericalScheme.NS_ADI ∨
      (assembleADI E dim (destIndexOf g dim).enum g).foundation.numberOfDimensions = 1 := by
    rw [hAf]
    exact Or.inl hADI
  -- the solved system
  obtain ⟨s1, s2, s3, s4, s5, s6⟩ := solveLinearSystem_tdm E
    (assembleADI E dim (destIndexOf g dim).enum g) hAtdm
  obtain ⟨t1, t2, t3, t4, t5⟩ := hsolve
    ⟨(assembleADI E dim (destIndexOf g dim).enum g).a1,
     (assembleADI E dim (destIndexOf g dim).enum g).a2,
     (assembleADI E dim (destIndexOf g dim).enum g).a3,
     (assembleADI E dim (destIndexOf g dim).enum g).b_,
     (assembleADI E dim (destIndexOf g dim).enum g).x_⟩
    (by rw [f1]; exact ha1) (by rw [f2]; exact ha2) (by rw [f3]; exact ha3)
    (by rw [f4]; exact hb) (by rw [f5]; exact hx)
  -- the read-back
  obtain ⟨r1, r2, r3, r4, r5, r6, r7⟩ := readBackADI_spec (destIndexOf g dim).enum
    (solveLinearSystem E (assembleADI E dim (destIndexOf g dim).enum g))
    (by rw [hfst]; exact List.nodup_range _)
    (by
      intro p hp
      rw [s6, f6, hT]
      exact (hpairs p hp).1)
  have hRf : (readBackADI (destIndexOf g dim).enum
      (solveLinearSystem E (assembleADI E dim (destIndexOf g dim).enum g))).foundation
      = g.foundation := by
    rw [readBackADI_foundation, solveLinearSystem_foundation, hAf]
  obtain ⟨c1, c2, c3, c4, c5, c6⟩ := clearAmat_tdm
    { readBackADI (destIndexOf g dim).enum
        (solveLinearSystem E (assembleADI E dim (destIndexOf g dim).enum g)) with
      TOld := (readBackADI (destIndexOf g dim).enum
        (solveLinearSystem E (assembleADI E dim (destIndexOf g dim).enum g))).TNew }
    (by
      show (readBackADI (destIndexOf g dim).enum
        (solveLinearSystem E (assembleADI E dim (destIndexOf g dim).enum g))).foundation.numericalScheme
          = NumericalScheme.NS_ADI ∨ _
      rw [hRf]
      exact Or.inl hADI)
  rw [← calculateADI_phases] at c1 c2 c3 c4 c5 c6
  refine ⟨?_, ?_, ?_, ?_, ?_, ?_, ?_, ?_⟩
  · intro c d hcd
    have hk : (destIndexOf g dim).enum[c]? = some (c, d) := by
      rw [List.getElem?_enum, hcd]
      rfl
    exact assembleADI_rows E dim (destIndexOf g dim).enum g (by rw [hsnd]; exact hnd)
      (by
        intro p hp
        have := (hpairs p hp).2
        exact ⟨by rw [ha1]; exact this, by rw [ha2]; exact this, by rw [ha3]; exact this,
          by rw [hb]; exact this⟩)
      c (c, d) hk
  · intro p hp
    rw [hsnd]
    exact List.count_eq_one_of_mem hnd ((hperm.mem_iff).mpr (List.mem_range.mpr hp))
  · rw [c5]
    show (readBackADI _ _).x_ = _
    rw [r1, s5]
  · intro c hc
    have hcl : c < (destIndexOf g dim).length := by rw [hlen]; exact hc
    have hcd : (destIndexOf g dim)[c]? = some (destIndexOf g dim)[c] :=
      List.getElem?_eq_getElem hcl
    have hd : (destIndexOf g dim)[c] < g.num_cells := hmem _ (List.getElem_mem hcl)
    have hin : (c, (destIndexOf g dim)[c]) ∈ (destIndexOf g dim).enum :=
      List.mk_mem_enum_iff_getElem?.mpr hcd
    have hxlen : (destIndexOf g dim)[c]
        < (solveLinearSystem E (assembleADI E dim (destIndexOf g dim).enum g)).x_.length := by
      rw [s5, t5]
      exact hd
    refine ⟨(destIndexOf g dim)[c],
      (solveLinearSystem E (assembleADI E dim (destIndexOf g dim).enum g)).x_.getD
        (destIndexOf g dim)[c] 0, hcd, hd, ?_, ?_⟩
    · rw [c5]
      show (readBackADI _ _).x_[_]? = _
      rw [r1, List.getD_eq_getElem _ _ hxlen, List.getElem?_eq_getElem hxlen]
    · rw [c6]
      exact r7 _ hin
  · rw [c1]
    show List.replicate (readBackADI _ _).a1.length 0 = _
    rw [r2, s1, t1, ha1]
  · rw [c2]
    show List.replicate (readBackADI _ _).a2.length 0 = _
    rw [r3, s2, t2, ha2]
  · rw [c3]
    show List.replicate (readBackADI _ _).a3.length 0 = _
    rw [r4, s3, t3, ha3]
  · rw [c4]
    show List.replicate (readBackADI _ _).b_.length 0 = _
    rw [r5, s4, t4, hb]

/-- The hypotheses of C15 hold for `adiGround` and axis 1, whose traversal
order is [1, 0]: on return `a1` is zero with its size 2. -/
theorem calculateADI_permutation_witness :
    (calculateADI exampleExternals 1 adiGround).a1 = List.replicate adiGround.a1.length 0 :=
  (calculateADI_permutation exampleExternals 1 adiGround rfl (by decide) rfl rfl rfl rfl rfl
    rfl
    (by
      intro v h1 h2 h3 h4 h5
      exact ⟨h1, h2, h3, h4, h4⟩)).2.2.2.2.1

end Schemes

/-! ## Linear-system management: proofs -/

section LinearSystem

theorem resize_length (v : List K) (n : Nat) (val : K) : (resize v n val).length = n := by
  simp only [resize, List.length_append, List.length_take, List.length_replicate]
  omega

theorem tdm_cond (foundation : Foundation K) (h : usesTDM foundation) :
    (foundation.numericalScheme = NumericalScheme.NS_ADI ∨ foundation.numberOfDimensions = 1)
      ∧ TDMA = true :=
  ⟨h, rfl⟩

theorem sparse_cond (foundation : Foundation K) (h : ¬ usesTDM foundation) :
    ¬ ((foundation.numericalScheme = NumericalScheme.NS_ADI
        ∨ foundation.numberOfDimensions = 1) ∧ TDMA = true) :=
  fun h' => h h'.1

/-- `buildDomain` gives the vectors of the chosen representation the size
`num_cells`. -/
theorem buildDomain_sizes (domain : Domain K) (g : Ground K) :
    (usesTDM g.foundation →
      (buildDomain domain g).a1.length = (buildDomain domain g).num_cells
      ∧ (buildDomain domain g).a2.length = (buildDomain domain g).num_cells
      ∧ (buildDomain domain g).a3.length = (buildDomain domain g).num_cells
      ∧ (buildDomain domain g).b_.length = (buildDomain domain g).num_cells
      ∧ (buildDomain domain g).x_.length = (buildDomain domain g).num_cells)
    ∧ (buildDomain domain g).b.length = (buildDomain domain g).num_cells
    ∧ (buildDomain domain g).x.length = (buildDomain domain g).num_cells
    ∧ (buildDomain domain g).TNew.length = (buildDomain domain g).num_cells
    ∧ (buildDomain domain g).TOld.length = (buildDomain domain g).num_cells
    ∧ (buildDomain domain g).foundation = g.foundation := by
  refine ⟨?_, ?_, ?_, ?_, ?_, ?_⟩
  · intro h
    have hc := tdm_cond g.foundation h
    unfold buildDomain
    dsimp only
    split <;> simp [hc, resize_length]
  · unfold buildDomain
    dsimp only
    split <;> split <;> simp [resize_length]
  · unfold buildDomain
    dsimp only
    split <;> split <;> simp
  · unfold buildDomain
    dsimp only
    split <;> split <;> simp [resize_length]
  · unfold buildDomain
    dsimp only
    split <;> split <;> simp [resize_length]
  · unfold buildDomain
    dsimp only
    split <;> split <;> rfl

theorem setAmatValue_foundation (g : Ground K) (i j : Nat) (val : K) :
    (setAmatValue g i j val).foundation = g.foundation := by
  unfold setAmatValue
  split
  · split
    · rfl
    · split <;> rfl
  · rfl

theorem setbValue_foundation (g : Ground K) (i : Nat) (val : K) :
    (setbValue g i val).foundation = g.foundation := by
  unfold setbValue
  split <;> rfl

theorem assembleRow_foundation (E : Externals K) (scheme : NumericalScheme) (g : Ground K)
    (index : Nat) : (assembleRow E scheme g index).foundation = g.foundation := by
  unfold assembleRow
  dsimp only
  rw [setbValue_foundation]
  repeat' split
  all_goals simp only [setAmatValue_foundation]

theorem assembly_foundation (E : Externals K) (scheme : NumericalScheme) (g : Ground K)
    (indices : List Nat) :
    (indices.foldl (assembleRow E scheme) g).foundation = g.foundation := by
  apply foldl_invariant (fun g' : Ground K => g'.foundation = g.foundation)
  · rfl
  · intro g' index hg'
    rw [assembleRow_foundation, hg']

/-- C8: the tri-diagonal representation is used exactly when the scheme is ADI
or the problem is one-dimensional (`usesTDM`), and the sparse one otherwise:
`buildDomain` sizes the vectors of the chosen representation to `num_cells`,
and `setAmatValue`, `setbValue`, `solveLinearSystem`, `clearAmat`, `getxValue`
and `getXvalues` all act on the representation chosen by that same condition,
so that `calculateMatrix` reads back the solution of the system it has
assembled. -/
theorem linear_system_choice (E : Externals K) (g : Ground K) :
    (∀ domain : Domain K,
      (usesTDM g.foundation →
        (buildDomain domain g).a1.length = (buildDomain domain g).num_cells
        ∧ (buildDomain domain g).a2.length = (buildDomain domain g).num_cells
        ∧ (buildDomain domain g).a3.length = (buildDomain domain g).num_cells
        ∧ (buildDomain domain g).b_.length = (buildDomain domain g).num_cells
        ∧ (buildDomain domain g).x_.length = (buildDomain domain g).num_cells)
      ∧ (buildDomain domain g).b.length = (buildDomain domain g).num_cells
      ∧ (buildDomain domain g).x.length = (buildDomain domain g).num_cells)
    ∧ (∀ (i j : Nat) (val : K),
      (usesTDM g.foundation →
        setAmatValue g i j val
          = if j < i then { g with a1 := g.a1.set i val }
            else if j = i then { g with a2 := g.a2.set i val }
            else { g with a3 := g.a3.set i val })
      ∧ (¬ usesTDM g.foundation →
        setAmatValue g i j val = { g with tripletList := g.tripletList ++ [(i, j, val)] }))
    ∧ (∀ (i : Nat) (val : K),
      (usesTDM g.foundation → setbValue g i val = { g with b_ := g.b_.set i val })
      ∧ (¬ usesTDM g.foundation → setbValue g i val = { g with b := g.b.set i val }))
    ∧ ((usesTDM g.foundation →
        (solveLinearSystem E g).x_ = (E.solveTDM ⟨g.a1, g.a2, g.a3, g.b_, g.x_⟩).x_
        ∧ (solveLinearSystem E g).x = g.x
        ∧ (solveLinearSystem E g).messages = g.messages)
      ∧ (¬ usesTDM g.foundation →
        (solveLinearSystem E g).x
          = (E.solveWithGuess g.solverMaxIterations g.solverTolerance g.num_cells
              g.tripletList g.b g.x).x
        ∧ (solveLinearSystem E g).x_ = g.x_))
    ∧ ((usesTDM g.foundation →
        (clearAmat g).a1 = List.replicate g.a1.length 0
        ∧ (clearAmat g).a2 = List.replicate g.a2.length 0
        ∧ (clearAmat g).a3 = List.replicate g.a3.length 0
        ∧ (clearAmat g).b_ = List.replicate g.b_.length 0
        ∧ (clearAmat g).tripletList = g.tripletList)
      ∧ (¬ usesTDM g.foundation →
        (clearAmat g).tripletList = []
        ∧ (clearAmat g).a1 = g.a1 ∧ (clearAmat g).a2 = g.a2 ∧ (clearAmat g).a3 = g.a3
        ∧ (clearAmat g).b_ = g.b_))
    ∧ (∀ i : Nat,
      (usesTDM g.foundation → getxValue g i = g.x_.getD i 0)
      ∧ (¬ usesTDM g.foundation → getxValue g i = g.x.getD i 0))
    ∧ ((usesTDM g.foundation → getXvalues g = g.x_)
      ∧ (¬ usesTDM g.foundation → getXvalues g = g.x))
    ∧ (∀ scheme : NumericalScheme,
      (usesTDM g.foundation →
        (calculateMatrix E scheme g).TNew
          = (E.solveTDM
              ⟨((List.range g.num_cells).foldl (assembleRow E scheme) g).a1,
               ((List.range g.num_cells).foldl (assembleRow E scheme) g).a2,
               ((List.range g.num_cells).foldl (assembleRow E scheme) g).a3,
               ((List.range g.num_cells).foldl (assembleRow E scheme) g).b_,
               ((List.range g.num_cells).foldl (assembleRow E scheme) g).x_⟩).x_)
      ∧ (¬ usesTDM g.foundation →
        (calculateMatrix E scheme g).TNew
          = (E.solveWithGuess
              ((List.range g.num_cells).foldl (assembleRow E scheme) g).solverMaxIterations
              ((List.range g.num_cells).foldl (assembleRow E scheme) g).solverTolerance
              ((List.range g.num_cells).foldl (assembleRow E scheme) g).num_cells
              ((List.range g.num_cells).foldl (assembleRow E scheme) g).tripletList
              ((List.range g.num_cells).foldl (assembleRow E scheme) g).b
              ((List.range g.num_cells).foldl (assembleRow E scheme) g).x).x)) := by
  refine ⟨?_, ?_, ?_, ?_, ?_, ?_, ?_, ?_⟩
  · intro domain
    obtain ⟨h1, h2, h3, -⟩ := buildDomain_sizes domain g
    exact ⟨h1, h2, h3⟩
  · intro i j val
    constructor
    · intro h
      unfold setAmatValue
      rw [if_pos (tdm_cond _ h)]
    · intro h
      unfold setAmatValue
      rw [if_neg (sparse_cond _ h)]
  · intro i val
    constructor
    · intro h
      unfold setbValue
      rw [if_pos (tdm_cond _ h)]
    · intro h
      unfold setbValue
      rw [if_neg (sparse_cond _ h)]
  · constructor
    · intro h
      unfold solveLinearSystem
      rw [if_pos (tdm_cond _ h)]
      exact ⟨rfl, rfl, rfl⟩
    · intro h
      unfold solveLinearSystem
      rw [if_neg (sparse_cond _ h)]
      dsimp only
      split <;> exact ⟨rfl, rfl⟩
  · constructor
    · intro h
      unfold clearAmat
      rw [if_pos (tdm_cond _ h)]
      exact ⟨rfl, rfl, rfl, rfl, rfl⟩
    · intro h
      unfold clearAmat
      rw [if_neg (sparse_cond _ h)]
      exact ⟨rfl, rfl, rfl, rfl, rfl⟩
  · intro i
    constructor
    · intro h
      unfold getxValue
      rw [if_pos (tdm_cond _ h)]
    · intro h
      unfold getxValue
      rw [if_neg (sparse_cond _ h)]
  · constructor
    · intro h
      unfold getXvalues
      rw [if_pos (tdm_cond _ h)]
    · intro h
      unfold getXvalues
      rw [if_neg (sparse_cond _ h)]
  · intro scheme
    have hA := assembly_foundation E scheme g (List.range g.num_cells)
    constructor
    · intro h
      have hc := tdm_cond _ h
      rw [← hA] at hc
      have hS := solveLinearSystem_foundation E
        ((List.range g.num_cells).foldl (assembleRow E scheme) g)
      have hc' := hc
      rw [← hS] at hc'
      unfold calculateMatrix clearAmat
      dsimp only
      rw [if_pos hc']
      dsimp only
      unfold getXvalues
      rw [if_pos hc']
      unfold solveLinearSystem
      rw [if_pos hc]
    · intro h
      have hc := sparse_cond _ h
      rw [← hA] at hc
      have hS := solveLinearSystem_foundation E
        ((List.range g.num_cells).foldl (assembleRow E scheme) g)
      have hc' := hc
      rw [← hS] at hc'
      unfold calculateMatrix clearAmat
      dsimp only
      rw [if_neg hc']
      dsimp only
      unfold getXvalues
      rw [if_neg hc']
      unfold solveLinearSystem
      rw [if_neg hc]
      dsimp only
      split <;> rfl

/-- C8 evaluated: the two-cell ADI state reads its solution from `x_`, the
two-cell steady-state state in 2-D from `x`. -/
theorem linear_system_choice_witness :
    getXvalues (exampleGround NumericalScheme.NS_ADI 2 [] [0, 4]) = [0, 0]
    ∧ getXvalues (exampleGround NumericalScheme.NS_STEADY_STATE 2 [] [0, 4])
        = [28315 / 100, 28315 / 100] :=
  ⟨(linear_system_choice exampleExternals
      (exampleGround NumericalScheme.NS_ADI 2 [] [0, 4])).2.2.2.2.2.2.1.1 (Or.inl rfl),
   (linear_system_choice exampleExternals
      (exampleGround NumericalScheme.NS_STEADY_STATE 2 [] [0, 4])).2.2.2.2.2.2.1.2
      (by simp [usesTDM, exampleGround, exampleFoundation])⟩

/-- On the sparse path `calculateMatrix` copies the vector returned by the
solver into `TNew`, whatever the status of the solver. -/
theorem calculateMatrix_sparse_TNew (E : Externals K) (scheme : NumericalScheme)
    (g : Ground K) (h : ¬ usesTDM g.foundation) :
    (calculateMatrix E scheme g).TNew
      = (E.solveWithGuess
          ((List.range g.num_cells).foldl (assembleRow E scheme) g).solverMaxIterations
          ((List.range g.num_cells).foldl (assembleRow E scheme) g).solverTolerance
          ((List.range g.num_cells).foldl (assembleRow E scheme) g).num_cells
          ((List.range g.num_cells).foldl (assembleRow E scheme) g).tripletList
          ((List.range g.num_cells).foldl (assembleRow E scheme) g).b
          ((List.range g.num_cells).foldl (assembleRow E scheme) g).x).x := by
  have hA := assembly_foundation E scheme g (List.range g.num_cells)
  have hc := sparse_cond _ h
  rw [← hA] at hc
  have hS := solveLinearSystem_foundation E
    ((List.range g.num_cells).foldl (assembleRow E scheme) g)
  have hc' := hc
  rw [← hS] at hc'
  unfold calculateMatrix clearAmat
  dsimp only
  rw [if_neg hc']
  dsimp only
  unfold getXvalues
  rw [if_neg hc']
  unfold solveLinearSystem
  rw [if_neg hc]
  dsimp only
  split <;> rfl

/-- C12 fails as stated: on `sparseGround`, whose solver reports failure after
7 iterations with residual 1/2, `solveLinearSystem` emits one message, and its
level is `MSG_ERR`, not the warning level. -/
theorem nonconvergence_is_reported_as_error :
    ¬ usesTDM sparseGround.foundation
    ∧ (exampleExternals.solveWithGuess sparseGround.solverMaxIterations
        sparseGround.solverTolerance sparseGround.num_cells sparseGround.tripletList
        sparseGround.b sparseGround.x).success = false
    ∧ (solveLinearSystem exampleExternals sparseGround).messages
        = [Message.mk MessageType.MSG_ERR
            "Solution did not converge after 7 iterations. The final residual was: (0.5)."]
    ∧ ∀ m ∈ (solveLinearSystem exampleExternals sparseGround).messages,
        m.messageType ≠ MessageType.MSG_WARN := by
  have hs : ¬ usesTDM sparseGround.foundation := by
    simp [usesTDM, sparseGround, exampleGround, exampleFoundation]
  have hm : (solveLinearSystem exampleExternals sparseGround).messages
      = [Message.mk MessageType.MSG_ERR
          "Solution did not converge after 7 iterations. The final residual was: (0.5)."] := by
    unfold solveLinearSystem
    rw [if_neg (sparse_cond _ hs)]
    simp [exampleExternals, showMessage, sparseGround, exampleGround]
    decide
  refine ⟨hs, rfl, hm, ?_⟩
  intro m hmem
  rw [hm, List.mem_singleton] at hmem
  rw [hmem]
  decide

/-- C12, amended: on the sparse path, when the solver's status is not Success,
`solveLinearSystem` emits exactly one message, of level `MSG_ERR`, whose text
carries the iteration count and the residual, and returns; `calculateMatrix`
copies the iterate returned by the solver into `TNew` and `TOld` whatever the
status is; when the status is Success no message is emitted. -/
theorem solveLinearSystem_nonconvergence (E : Externals K) (g : Ground K)
    (hsparse : ¬ usesTDM g.foundation) :
    ((E.solveWithGuess g.solverMaxIterations g.solverTolerance g.num_cells g.tripletList
        g.b g.x).success = false →
      (solveLinearSystem E g).messages
        = g.messages ++ [Message.mk MessageType.MSG_ERR
            ("Solution did not converge after " ++
              toString (E.solveWithGuess g.solverMaxIterations g.solverTolerance g.num_cells
                g.tripletList g.b g.x).iterations ++
              " iterations. The final residual was: (" ++
              E.formatDouble (E.solveWithGuess g.solverMaxIterations g.solverTolerance
                g.num_cells g.tripletList g.b g.x).error ++ ").")])
    ∧ ((E.solveWithGuess g.solverMaxIterations g.solverTolerance g.num_cells g.tripletList
        g.b g.x).success = true →
      (solveLinearSystem E g).messages = g.messages)
    ∧ (solveLinearSystem E g).x
        = (E.solveWithGuess g.solverMaxIterations g.solverTolerance g.num_cells g.tripletList
            g.b g.x).x
    ∧ ∀ scheme : NumericalScheme,
        (calculateMatrix E scheme g).TNew
          = (E.solveWithGuess
              ((List.range g.num_cells).foldl (assembleRow E scheme) g).solverMaxIterations
              ((List.range g.num_cells).foldl (assembleRow E scheme) g).solverTolerance
              ((List.range g.num_cells).foldl (assembleRow E scheme) g).num_cells
              ((List.range g.num_cells).foldl (assembleRow E scheme) g).tripletList
              ((List.range g.num_cells).foldl (assembleRow E scheme) g).b
              ((List.range g.num_cells).foldl (assembleRow E scheme) g).x).x
        ∧ (calculateMatrix E scheme g).TOld = (calculateMatrix E scheme g).TNew := by
  have hc := sparse_cond _ hsparse
  refine ⟨?_, ?_, ?_, ?_⟩
  · intro hfail
    unfold solveLinearSystem
    rw [if_neg hc]
    simp [hfail, showMessage]
  · intro hok
    unfold solveLinearSystem
    rw [if_neg hc]
    simp [hok]
  · unfold solveLinearSystem
    rw [if_neg hc]
    dsimp only
    split <;> rfl
  · intro scheme
    exact ⟨calculateMatrix_sparse_TNew E scheme g hsparse, calculateMatrix_TOld E scheme g⟩

/-- The hypothesis of the amended C12 holds for `sparseGround`, whose solver
fails: the two temperature arrays receive the vector returned by the solver. -/
theorem solveLinearSystem_nonconvergence_witness :
    (solveLinearSystem exampleExternals sparseGround).x
      = (exampleExternals.solveWithGuess sparseGround.solverMaxIterations
          sparseGround.solverTolerance sparseGround.num_cells sparseGround.tripletList
          sparseGround.b sparseGround.x).x :=
  (solveLinearSystem_nonconvergence exampleExternals sparseGround
    (by simp [usesTDM, sparseGround, exampleGround, exampleFoundation])).2.2.1

/-! ### Both temperature arrays hold a value at every cell after `calculate` -/

/-- Two arrays that agree at an index inside the second one both hold a value
there. -/
theorem stored_at (TOld TNew : List K) (n i : Nat) (hlen : TNew.length = n)
    (heq : TOld[i]? = TNew[i]?) (hi : i < n) :
    ∃ v, TOld[i]? = some v ∧ TNew[i]? = some v := by
  have hlt : i < TNew.length := by rw [hlen]; exact hi
  refine ⟨TNew[i], ?_, List.getElem?_eq_getElem hlt⟩
  rw [heq]
  exact List.getElem?_eq_getElem hlt

theorem clearAmat_keeps (g : Ground K) :
    (clearAmat g).num_cells = g.num_cells ∧ (clearAmat g).TNew = g.TNew
    ∧ (clearAmat g).TOld = g.TOld := by
  unfold clearAmat
  split <;> exact ⟨rfl, rfl, rfl⟩

theorem solveLinearSystem_keeps (E : Externals K) (g : Ground K) :
    (solveLinearSystem E g).num_cells = g.num_cells
    ∧ (solveLinearSystem E g).TNew = g.TNew := by
  unfold solveLinearSystem
  dsimp only
  split
  · exact ⟨rfl, rfl⟩
  · split <;> exact ⟨rfl, rfl⟩

theorem assembleADI_num_cells (E : Externals K) (dim : Nat) (pairs : List (Nat × Nat))
    (g : Ground K) : (assembleADI E dim pairs g).num_cells = g.num_cells := by
  unfold assembleADI
  apply foldl_invariant (fun g' : Ground K => g'.num_cells = g.num_cells)
  · rfl
  · intro g' p hg'
    exact hg'

theorem readBackADI_keeps (pairs : List (Nat × Nat)) (g : Ground K) :
    (readBackADI pairs g).num_cells = g.num_cells
    ∧ (readBackADI pairs g).TNew.length = g.TNew.length := by
  unfold readBackADI
  apply foldl_invariant (fun g' : Ground K =>
    g'.num_cells = g.num_cells ∧ g'.TNew.length = g.TNew.length)
  · exact ⟨rfl, rfl⟩
  · rintro g' p ⟨h1, h2⟩
    simp only [List.length_set]
    exact ⟨h1, h2⟩

/-- One ADI sweep keeps `num_cells` and the size of `TNew`. -/
theorem calculateADI_keeps (E : Externals K) (dim : Nat) (g : Ground K) :
    (calculateADI E dim g).num_cells = g.num_cells
    ∧ (calculateADI E dim g).TNew.length = g.TNew.length := by
  rw [calculateADI_phases]
  obtain ⟨c1, c2, -⟩ := clearAmat_keeps
    { readBackADI (destIndexOf g dim).enum
        (solveLinearSystem E (assembleADI E dim (destIndexOf g dim).enum g)) with
      TOld := (readBackADI (destIndexOf g dim).enum
        (solveLinearSystem E (assembleADI E dim (destIndexOf g dim).enum g))).TNew }
  obtain ⟨r1, r2⟩ := readBackADI_keeps (destIndexOf g dim).enum
    (solveLinearSystem E (assembleADI E dim (destIndexOf g dim).enum g))
  obtain ⟨s1, s2⟩ := solveLinearSystem_keeps E (assembleADI E dim (destIndexOf g dim).enum g)
  have a1 := assembleADI_num_cells E dim (destIndexOf g dim).enum g
  have a2 := (assembleADI_frame E dim (destIndexOf g dim).enum g).2.2.2.2.2
  rw [c1, c2]
  dsimp only
  rw [r1, r2, s1, s2, a1, a2]
  exact ⟨rfl, rfl⟩

/-- After one ADI sweep on a state whose `TNew` has size `num_cells`, both
arrays hold the same value at every cell index. -/
theorem calculateADI_stored (E : Externals K) (dim : Nat) (g : Ground K)
    (hNew : g.TNew.length = g.num_cells) :
    (calculateADI E dim g).num_cells = g.num_cells
    ∧ ∀ i, i < g.num_cells →
      ∃ v, (calculateADI E dim g).TOld[i]? = some v
        ∧ (calculateADI E dim g).TNew[i]? = some v := by
  obtain ⟨k1, k2⟩ := calculateADI_keeps E dim g
  refine ⟨k1, fun i hi => ?_⟩
  exact stored_at _ _ g.num_cells i (by rw [k2, hNew]) (by rw [calculateADI_TOld]) hi

/-- The three sweeps of the ADI scheme as `calculate` chains them. -/
theorem calculateADI_chain_stored (E : Externals K) (g : Ground K)
    (hNew : g.TNew.length = g.num_cells) :
    (calculateADI E 3
        (if (if g.foundation.numberOfDimensions > 1 then calculateADI E 1 g
              else g).foundation.numberOfDimensions = 3
          then calculateADI E 2
            (if g.foundation.numberOfDimensions > 1 then calculateADI E 1 g else g)
          else (if g.foundation.numberOfDimensions > 1 then calculateADI E 1 g
            else g))).num_cells = g.num_cells
    ∧ ∀ i, i < g.num_cells →
      ∃ v, (calculateADI E 3
          (if (if g.foundation.numberOfDimensions > 1 then calculateADI E 1 g
                else g).foundation.numberOfDimensions = 3
            then calculateADI E 2
              (if g.foundation.numberOfDimensions > 1 then calculateADI E 1 g else g)
            else (if g.foundation.numberOfDimensions > 1 then calculateADI E 1 g
              else g))).TOld[i]? = some v
        ∧ (calculateADI E 3
          (if (if g.foundation.numberOfDimensions > 1 then calculateADI E 1 g
                else g).foundation.numberOfDimensions = 3
            then calculateADI E 2
              (if g.foundation.numberOfDimensions > 1 then calculateADI E 1 g else g)
            else (if g.foundation.numberOfDimensions > 1 then calculateADI E 1 g
              else g))).TNew[i]? = some v := by
  have step : ∀ (c : Prop) [Decidable c] (dim : Nat) (g' : Ground K),
      g'.num_cells = g.num_cells ∧ g'.TNew.length = g.num_cells →
      (if c then calculateADI E dim g' else g').num_cells = g.num_cells
      ∧ (if c then calculateADI E dim g' else g').TNew.length = g.num_cells := by
    intro c _ dim g' hg'
    split
    · obtain ⟨k1, k2⟩ := calculateADI_keeps E dim g'
      exact ⟨by rw [k1, hg'.1], by rw [k2, hg'.2]⟩
    · exact hg'
  have h1 := step (g.foundation.numberOfDimensions > 1) 1 g ⟨rfl, hNew⟩
  have h2 := step ((if g.foundation.numberOfDimensions > 1 then calculateADI E 1 g
      else g).foundation.numberOfDimensions = 3) 2 _ h1
  obtain ⟨k1, k2⟩ := calculateADI_stored E 3 _ (h2.2.trans h2.1.symm)
  refine ⟨k1.trans h2.1, fun i hi => ?_⟩
  exact k2 i (by rw [h2.1]; exact hi)

/-- After `calculateExplicit` on a state whose `TNew` has size `num_cells`,
both arrays hold the same value at every cell index. -/
theorem calculateExplicit_stored (E : Externals K) (g : Ground K)
    (hNew : g.TNew.length = g.num_cells) :
    (calculateExplicit E g).num_cells = g.num_cells
    ∧ ∀ i, i < g.num_cells →
      ∃ v, (calculateExplicit E g).TOld[i]? = some v
        ∧ (calculateExplicit E g).TNew[i]? = some v := by
  have hfold : ((List.range g.num_cells).foldl
      (fun g index => { g with TNew := g.TNew.set index (E.calcCellExplicit g index) })
      g).num_cells = g.num_cells
    ∧ ((List.range g.num_cells).foldl
      (fun g index => { g with TNew := g.TNew.set index (E.calcCellExplicit g index) })
      g).TNew.length = g.TNew.length := by
    apply foldl_invariant (fun g' : Ground K =>
      g'.num_cells = g.num_cells ∧ g'.TNew.length = g.TNew.length)
    · exact ⟨rfl, rfl⟩
    · rintro g' index ⟨h1, h2⟩
      simp only [List.length_set]
      exact ⟨h1, h2⟩
  unfold calculateExplicit
  dsimp only
  refine ⟨hfold.1, fun i hi => ?_⟩
  exact stored_at _ _ g.num_cells i (by rw [hfold.2, hNew]) rfl hi

/-- After `calculateADE` on a state whose two temperature arrays have size
`num_cells`, both arrays hold the same value at every cell index. -/
theorem calculateADE_stored (E : Externals K) (g : Ground K)
    (hNew : g.TNew.length = g.num_cells) (hOld : g.TOld.length = g.num_cells) :
    (calculateADE E g).num_cells = g.num_cells
    ∧ ∀ i, i < g.num_cells →
      ∃ v, (calculateADE E g).TOld[i]? = some v ∧ (calculateADE E g).TNew[i]? = some v := by
  obtain ⟨u, hu⟩ := calculateADEUpwardSweep_frame E g
  obtain ⟨v, hv⟩ := calculateADEDownwardSweep_frame E (calculateADEUpwardSweep E g)
  obtain ⟨l1, -, l3, l4⟩ := averageSweeps_loop g.num_cells { g with U := u, V := v }
    (le_of_eq hNew.symm) (le_of_eq hOld.symm)
  unfold calculateADE
  dsimp only
  rw [hv, hu]
  refine ⟨l3, fun i hi => ?_⟩
  exact stored_at _ _ g.num_cells i (by rw [l1]; exact hNew) (l4 i hi) hi

/-- The assembly loop of `calculateMatrix` keeps `num_cells`, the sizes of the
vectors of both representations, and the vectors `x_` and `x`. -/
theorem assembly_sizes (E : Externals K) (scheme : NumericalScheme) (g : Ground K)
    (indices : List Nat) :
    (indices.foldl (assembleRow E scheme) g).num_cells = g.num_cells
    ∧ (indices.foldl (assembleRow E scheme) g).a1.length = g.a1.length
    ∧ (indices.foldl (assembleRow E scheme) g).a2.length = g.a2.length
    ∧ (indices.foldl (assembleRow E scheme) g).a3.length = g.a3.length
    ∧ (indices.foldl (assembleRow E scheme) g).b_.length = g.b_.length
    ∧ (indices.foldl (assembleRow E scheme) g).x_ = g.x_
    ∧ (indices.foldl (assembleRow E scheme) g).b.length = g.b.length
    ∧ (indices.foldl (assembleRow E scheme) g).x = g.x := by
  have hA : ∀ (g' : Ground K) (i j : Nat) (val : K),
      (setAmatValue g' i j val).num_cells = g'.num_cells
      ∧ (setAmatValue g' i j val).a1.length = g'.a1.length
      ∧ (setAmatValue g' i j val).a2.length = g'.a2.length
      ∧ (setAmatValue g' i j val).a3.length = g'.a3.length
      ∧ (setAmatValue g' i j val).b_.length = g'.b_.length
      ∧ (setAmatValue g' i j val).x_ = g'.x_
      ∧ (setAmatValue g' i j val).b.length = g'.b.length
      ∧ (setAmatValue g' i j val).x = g'.x := by
    intro g' i j val
    unfold setAmatValue
    split
    · split
      · simp [List.length_set]
      · split
        · simp [List.length_set]
        · simp [List.length_set]
    · exact ⟨rfl, rfl, rfl, rfl, rfl, rfl, rfl, rfl⟩
  have hb : ∀ (g' : Ground K) (i : Nat) (val : K),
      (setbValue g' i val).num_cells = g'.num_cells
      ∧ (setbValue g' i val).a1.length = g'.a1.length
      ∧ (setbValue g' i val).a2.length = g'.a2.length
      ∧ (setbValue g' i val).a3.length = g'.a3.length
      ∧ (setbValue g' i val).b_.length = g'.b_.length
      ∧ (setbValue g' i val).x_ = g'.x_
      ∧ (setbValue g' i val).b.length = g'.b.length
      ∧ (setbValue g' i val).x = g'.x := by
    intro g' i val
    unfold setbValue
    split
    · simp [List.length_set]
    · simp [List.length_set]
  have hite : ∀ (c : Prop) [Decidable c] (g0 g' : Ground K) (i j : Nat) (val : K),
      (g'.num_cells = g0.num_cells ∧ g'.a1.length = g0.a1.length
        ∧ g'.a2.length = g0.a2.length ∧ g'.a3.length = g0.a3.length
        ∧ g'.b_.length = g0.b_.length ∧ g'.x_ = g0.x_ ∧ g'.b.length = g0.b.length
        ∧ g'.x = g0.x) →
      ((if c then setAmatValue g' i j val else g').num_cells = g0.num_cells
        ∧ (if c then setAmatValue g' i j val else g').a1.length = g0.a1.length
        ∧ (if c then setAmatValue g' i j val else g').a2.length = g0.a2.length
        ∧ (if c then setAmatValue g' i j val else g').a3.length = g0.a3.length
        ∧ (if c then setAmatValue g' i j val else g').b_.length = g0.b_.length
        ∧ (if c then setAmatValue g' i j val else g').x_ = g0.x_
        ∧ (if c then setAmatValue g' i j val else g').b.length = g0.b.length
        ∧ (if c then setAmatValue g' i j val else g').x = g0.x) := by
    intro c _ g0 g' i j val h
    split
    · obtain ⟨e1, e2, e3, e4, e5, e6, e7, e8⟩ := hA g' i j val
      obtain ⟨f1, f2, f3, f4, f5, f6, f7, f8⟩ := h
      exact ⟨e1.trans f1, e2.trans f2, e3.trans f3, e4.trans f4, e5.trans f5, e6.trans f6,
        e7.trans f7, e8.trans f8⟩
    · exact h
  apply foldl_invariant (fun g' : Ground K =>
    g'.num_cells = g.num_cells ∧ g'.a1.length = g.a1.length ∧ g'.a2.length = g.a2.length
    ∧ g'.a3.length = g.a3.length ∧ g'.b_.length = g.b_.length ∧ g'.x_ = g.x_
    ∧ g'.b.length = g.b.length ∧ g'.x = g.x)
  · exact ⟨rfl, rfl, rfl, rfl, rfl, rfl, rfl, rfl⟩
  · intro g' index hg'
    unfold assembleRow
    dsimp only
    have h0 := hite True g g' index index (E.calcCellMatrix scheme g' index).A hg'
    rw [if_pos trivial] at h0
    have h1 := hite ((E.calcCellMatrix scheme g' index).Aip ≠ 0) g _ index
      (cellAt g' index).i_up (E.calcCellMatrix scheme g' index).Aip h0
    have h2 := hite ((E.calcCellMatrix scheme g' index).Aim ≠ 0) g _ index
      (cellAt g' index).i_down (E.calcCellMatrix scheme g' index).Aim h1
    have h3 := hite ((E.calcCellMatrix scheme g' index).Ajp ≠ 0) g _ index
      (cellAt g' index).j_up (E.calcCellMatrix scheme g' index).Ajp h2
    have h4 := hite ((E.calcCellMatrix scheme g' index).Ajm ≠ 0) g _ index
      (cellAt g' index).j_down (E.calcCellMatrix scheme g' index).Ajm h3
    have h5 := hite ((E.calcCellMatrix scheme g' index).Akp ≠ 0) g _ index
      (cellAt g' index).k_up (E.calcCellMatrix scheme g' index).Akp h4
    have h6 := hite ((E.calcCellMatrix scheme g' index).Akm ≠ 0) g _ index
      (cellAt g' index).k_down (E.calcCellMatrix scheme g' index).Akm h5
    obtain ⟨f1, f2, f3, f4, f5, f6, f7, f8⟩ := h6
    obtain ⟨e1, e2, e3, e4, e5, e6, e7, e8⟩ := hb _ index
      (E.calcCellMatrix scheme g' index).bVal
    exact ⟨e1.trans f1, e2.trans f2, e3.trans f3, e4.trans f4, e5.trans f5, e6.trans f6,
      e7.trans f7, e8.trans f8⟩

/-- After `calculateMatrix` on a state whose linear-system vectors have size
`num_cells`, with solvers that return a solution of that size, both arrays hold
the same value at every cell index. -/
theorem calculateMatrix_stored (E : Externals K) (scheme : NumericalScheme) (g : Ground K)
    (hb : g.b.length = g.num_cells) (hx : g.x.length = g.num_cells)
    (htdm : usesTDM g.foundation →
      g.a1.length = g.num_cells ∧ g.a2.length = g.num_cells ∧ g.a3.length = g.num_cells
      ∧ g.b_.length = g.num_cells ∧ g.x_.length = g.num_cells)
    (hsolveTDM : ∀ v : TDMVectors K, v.a1.length = g.num_cells → v.a2.length = g.num_cells →
      v.a3.length = g.num_cells → v.b_.length = g.num_cells → v.x_.length = g.num_cells →
      (E.solveTDM v).x_.length = g.num_cells)
    (hsolveSparse : ∀ (maxIterations : Nat) (tolerance : K) (triplets : List (Nat × Nat × K))
      (b x : List K), b.length = g.num_cells → x.length = g.num_cells →
      (E.solveWithGuess maxIterations tolerance g.num_cells triplets b x).x.length
        = g.num_cells) :
    (calculateMatrix E scheme g).num_cells = g.num_cells
    ∧ ∀ i, i < g.num_cells →
      ∃ v, (calculateMatrix E scheme g).TOld[i]? = some v
        ∧ (calculateMatrix E scheme g).TNew[i]? = some v := by
  obtain ⟨s1, s2, s3, s4, s5, s6, s7, s8⟩ :=
    assembly_sizes E scheme g (List.range g.num_cells)
  have hf := assembly_foundation E scheme g (List.range g.num_cells)
  have hT : (calculateMatrix E scheme g).TNew
      = getXvalues (solveLinearSystem E
          ((List.range g.num_cells).foldl (assembleRow E scheme) g)) := by
    unfold calculateMatrix clearAmat
    dsimp only
    split <;> rfl
  have hn : (calculateMatrix E scheme g).num_cells
      = (solveLinearSystem E
          ((List.range g.num_cells).foldl (assembleRow E scheme) g)).num_cells := by
    unfold calculateMatrix clearAmat
    dsimp only
    split <;> rfl
  have hlen : (getXvalues (solveLinearSystem E
      ((List.range g.num_cells).foldl (assembleRow E scheme) g))).length = g.num_cells := by
    by_cases h : usesTDM g.foundation
    · have hc := tdm_cond ((List.range g.num_cells).foldl (assembleRow E scheme) g).foundation
        (by rw [hf]; exact h)
      obtain ⟨t1, t2, t3, t4, t5⟩ := htdm h
      unfold getXvalues
      rw [solveLinearSystem_foundation, if_pos hc,
        (solveLinearSystem_tdm E _ hc.1).2.2.2.2.1]
      exact hsolveTDM _ (s2.trans t1) (s3.trans t2) (s4.trans t3) (s5.trans t4)
        ((congrArg List.length s6).trans t5)
    · have hc := sparse_cond
        ((List.range g.num_cells).foldl (assembleRow E scheme) g).foundation
        (by rw [hf]; exact h)
      have hxs : (solveLinearSystem E
          ((List.range g.num_cells).foldl (assembleRow E scheme) g)).x
          = (E.solveWithGuess
              ((List.range g.num_cells).foldl (assembleRow E scheme) g).solverMaxIterations
              ((List.range g.num_cells).foldl (assembleRow E scheme) g).solverTolerance
              ((List.range g.num_cells).foldl (assembleRow E scheme) g).num_cells
              ((List.range g.num_cells).foldl (assembleRow E scheme) g).tripletList
              ((List.range g.num_cells).foldl (assembleRow E scheme) g).b
              ((List.range g.num_cells).foldl (assembleRow E scheme) g).x).x := by
        unfold solveLinearSystem
        rw [if_neg hc]
        dsimp only
        split <;> rfl
      unfold getXvalues
      rw [solveLinearSystem_foundation, if_neg hc, hxs, s1]
      exact hsolveSparse _ _ _ _ _ (s7.trans hb) ((congrArg List.length s8).trans hx)
  refine ⟨?_, fun i hi => ?_⟩
  · rw [hn, (solveLinearSystem_keeps E _).1, s1]
  · exact stored_at _ _ g.num_cells i (by rw [hT]; exact hlen)
      (by rw [calculateMatrix_TOld]) hi

/-- C6: for every scheme (Explicit, ADE, ADI, Implicit, Crank-Nicolson,
Steady-State) and every dimensionality, when `calculate` returns `num_cells`
is what it was and, for every cell index `i < num_cells`, the
previous-temperature array and the new one both hold a value at `i` and it is
the same value.  The state is one whose vectors have the size `num_cells` that
`buildDomain` gives them, the tri-diagonal solve keeps the size of `x_`, and
the sparse solve of a system of `num_cells` rows returns `num_cells` values. -/
theorem calculate_TOld_eq_TNew (E : Externals K) (g : Ground K)
    (boundaryConditions : BoundaryConditions K) (ts : K)
    (hNew : g.TNew.length = g.num_cells) (hOld : g.TOld.length = g.num_cells)
    (hb : g.b.length = g.num_cells) (hx : g.x.length = g.num_cells)
    (htdm : usesTDM g.foundation →
      g.a1.length = g.num_cells ∧ g.a2.length = g.num_cells ∧ g.a3.length = g.num_cells
      ∧ g.b_.length = g.num_cells ∧ g.x_.length = g.num_cells)
    (hsolveTDM : ∀ v : TDMVectors K, v.a1.length = g.num_cells → v.a2.length = g.num_cells →
      v.a3.length = g.num_cells → v.b_.length = g.num_cells → v.x_.length = g.num_cells →
      (E.solveTDM v).x_.length = g.num_cells)
    (hsolveSparse : ∀ (maxIterations : Nat) (tolerance : K) (triplets : List (Nat × Nat × K))
      (b x : List K), b.length = g.num_cells → x.length = g.num_cells →
      (E.solveWithGuess maxIterations tolerance g.num_cells triplets b x).x.length
        = g.num_cells) :
    (calculate E g boundaryConditions ts).num_cells = g.num_cells
    ∧ ∀ i, i < g.num_cells →
      ∃ v, (calculate E g boundaryConditions ts).TOld[i]? = some v
        ∧ (calculate E g boundaryConditions ts).TNew[i]? = some v := by
  obtain ⟨c, hc⟩ := applyBoundaryConditions_frame E g boundaryConditions ts
  unfold calculate
  dsimp only
  rw [hc]
  split
  · exact calculateADE_stored E
      { g with bcs := boundaryConditions, timestep := ts, cell := c } hNew hOld
  · exact calculateExplicit_stored E
      { g with bcs := boundaryConditions, timestep := ts, cell := c } hNew
  · exact calculateADI_chain_stored E
      { g with bcs := boundaryConditions, timestep := ts, cell := c } hNew
  · exact calculateMatrix_stored E NumericalScheme.NS_IMPLICIT
      { g with bcs := boundaryConditions, timestep := ts, cell := c } hb hx htdm hsolveTDM
      hsolveSparse
  · exact calculateMatrix_stored E NumericalScheme.NS_CRANK_NICOLSON
      { g with bcs := boundaryConditions, timestep := ts, cell := c } hb hx htdm hsolveTDM
      hsolveSparse
  · exact calculateMatrix_stored E NumericalScheme.NS_STEADY_STATE
      { g with bcs := boundaryConditions, timestep := ts, cell := c } hb hx htdm hsolveTDM
      hsolveSparse

/-- The hypotheses of C6 hold for `sparseGround`, a two-cell steady-state
state on the sparse path, with the solvers of `exampleExternals`: after
`calculate` both arrays hold one value at cell 1. -/
theorem calculate_TOld_eq_TNew_witness :
    ∃ v, (calculate exampleExternals sparseGround exampleBCs 1).TOld[1]? = some v
      ∧ (calculate exampleExternals sparseGround exampleBCs 1).TNew[1]? = some v :=
  (calculate_TOld_eq_TNew exampleExternals sparseGround exampleBCs 1 rfl rfl rfl rfl
    (fun _ => ⟨rfl, rfl, rfl, rfl, rfl⟩)
    (by
      intro v h1 h2 h3 h4 h5
      exact h4)
    (by
      intro maxIterations tolerance triplets b x hb hx
      exact hb)).2 1 (by decide)

end LinearSystem

/-! ## Perimeter correction: proofs -/

section Perimeter

/-- The three neighbour indices of a vertex of a polygon with at least two
vertices, without the unsigned arithmetic. -/
theorem neighbourIndices_eq (nV v : Nat) (hnV : 2 ≤ nV) (hsize : nV < 2 ^ 64) (hv : v < nV) :
    (neighbourIndices nV v).1 = (if v = 0 then nV - 1 else v - 1)
    ∧ (neighbourIndices nV v).2.1 = (if v = nV - 1 then 0 else v + 1)
    ∧ (neighbourIndices nV v).2.2
        = (if v = nV - 2 then 0 else if v = nV - 1 then 1 else v + 2) := by
  have e1 : sizeT (nV + 2 ^ 64 - 1) = nV - 1 := by
    unfold sizeT
    omega
  have e2 : sizeT (nV + 2 ^ 64 - 2) = nV - 2 := by
    unfold sizeT
    omega
  have e3 : sizeT (v + 1) = v + 1 := by
    unfold sizeT
    omega
  unfold neighbourIndices
  dsimp only
  rw [e1, e2]
  refine ⟨?_, ?_, ?_⟩
  · by_cases h0 : v = 0
    · rw [if_pos h0, if_pos h0]
    · have e5 : sizeT (v + 2 ^ 64 - 1) = v - 1 := by
        unfold sizeT
        omega
      rw [if_neg h0, if_neg h0, e5]
  · by_cases h1 : v = nV - 1
    · rw [if_pos h1, if_pos h1]
    · rw [if_neg h1, if_neg h1, e3]
  · by_cases h2 : v = nV - 2
    · rw [if_pos h2, if_pos h2]
    · rw [if_neg h2, if_neg h2]
      by_cases h1 : v = nV - 1
      · rw [if_pos h1, if_pos h1]
      · have e4 : sizeT (v + 2) = v + 2 := by
          unfold sizeT
          omega
        rw [if_neg h1, if_neg h1, e4]

/-- C19: for every polygon with `nV >= 2` vertices (`nV` a `size_t`) and every
vertex index `v < nV`, the neighbour indices computed by
`setNewBoundaryGeometry` are `vPrev = (v + nV - 1) mod nV`,
`vNext = (v + 1) mod nV` and `vNext2 = (v + 2) mod nV`, all below `nV`, so that
with one exposure flag per vertex the four reads of the polygon and the three
reads of `isExposedPerimeter` are inside the vectors. -/
theorem neighbourIndices_cyclic (nV v : Nat) (hnV : 2 ≤ nV) (hsize : nV < 2 ^ 64)
    (hv : v < nV) :
    (neighbourIndices nV v).1 = (v + nV - 1) % nV
    ∧ (neighbourIndices nV v).2.1 = (v + 1) % nV
    ∧ (neighbourIndices nV v).2.2 = (v + 2) % nV
    ∧ (neighbourIndices nV v).1 < nV
    ∧ (neighbourIndices nV v).2.1 < nV
    ∧ (neighbourIndices nV v).2.2 < nV
    ∧ ∀ (fnd : BoundaryFoundation K), fnd.polygon.length = nV →
        fnd.isExposedPerimeter.length = nV →
        (fnd.polygon[(neighbourIndices nV v).1]?).isSome = true
        ∧ (fnd.polygon[v]?).isSome = true
        ∧ (fnd.polygon[(neighbourIndices nV v).2.1]?).isSome = true
        ∧ (fnd.polygon[(neighbourIndices nV v).2.2]?).isSome = true
        ∧ (fnd.isExposedPerimeter[(neighbourIndices nV v).1]?).isSome = true
        ∧ (fnd.isExposedPerimeter[v]?).isSome = true
        ∧ (fnd.isExposedPerimeter[(neighbourIndices nV v).2.1]?).isSome = true := by
  obtain ⟨e1, e2, e3⟩ := neighbourIndices_eq nV v hnV hsize hv
  have m1 : (v + nV - 1) % nV = (if v = 0 then nV - 1 else v - 1) := by
    by_cases h0 : v = 0
    · rw [if_pos h0, h0, Nat.zero_add]
      exact Nat.mod_eq_of_lt (by omega)
    · rw [if_neg h0]
      have : v + nV - 1 = v - 1 + nV := by omega
      rw [this, Nat.add_mod_right]
      exact Nat.mod_eq_of_lt (by omega)
  have m2 : (v + 1) % nV = (if v = nV - 1 then 0 else v + 1) := by
    by_cases h1 : v = nV - 1
    · rw [if_pos h1]
      have : v + 1 = nV := by omega
      rw [this, Nat.mod_self]
    · rw [if_neg h1]
      exact Nat.mod_eq_of_lt (by omega)
  have m3 : (v + 2) % nV = (if v = nV - 2 then 0 else if v = nV - 1 then 1 else v + 2) := by
    by_cases h2 : v = nV - 2
    · rw [if_pos h2]
      have : v + 2 = nV := by omega
      rw [this, Nat.mod_self]
    · rw [if_neg h2]
      by_cases h1 : v = nV - 1
      · rw [if_pos h1]
        have : v + 2 = 1 + nV := by omega
        rw [this, Nat.add_mod_right]
        exact Nat.mod_eq_of_lt (by omega)
      · rw [if_neg h1]
        exact Nat.mod_eq_of_lt (by omega)
  have b1 : (neighbourIndices nV v).1 < nV := by
    rw [e1, ← m1]
    exact Nat.mod_lt _ (by omega)
  have b2 : (neighbourIndices nV v).2.1 < nV := by
    rw [e2, ← m2]
    exact Nat.mod_lt _ (by omega)
  have b3 : (neighbourIndices nV v).2.2 < nV := by
    rw [e3, ← m3]
    exact Nat.mod_lt _ (by omega)
  refine ⟨by rw [e1, m1], by rw [e2, m2], by rw [e3, m3], b1, b2, b3, ?_⟩
  intro fnd hp hf
  refine ⟨?_, ?_, ?_, ?_, ?_, ?_, ?_⟩
  · rw [List.getElem?_eq_getElem (by rw [hp]; exact b1)]; rfl
  · rw [List.getElem?_eq_getElem (by rw [hp]; exact hv)]; rfl
  · rw [List.getElem?_eq_getElem (by rw [hp]; exact b2)]; rfl
  · rw [List.getElem?_eq_getElem (by rw [hp]; exact b3)]; rfl
  · rw [List.getElem?_eq_getElem (by rw [hf]; exact b1)]; rfl
  · rw [List.getElem?_eq_getElem (by rw [hf]; exact hv)]; rfl
  · rw [List.getElem?_eq_getElem (by rw [hf]; exact b2)]; rfl

/-- The hypotheses of C19 hold for the last vertex of a square: its neighbours
are 2, 0 and 1. -/
theorem neighbourIndices_cyclic_witness :
    (neighbourIndices 4 3).1 = (3 + 4 - 1) % 4
    ∧ (neighbourIndices 4 3).2.1 = (3 + 1) % 4
    ∧ (neighbourIndices 4 3).2.2 = (3 + 2) % 4 :=
  ⟨(neighbourIndices_cyclic (K := ℚ) 4 3 (by decide) (by decide) (by decide)).1,
   (neighbourIndices_cyclic (K := ℚ) 4 3 (by decide) (by decide) (by decide)).2.1,
   (neighbourIndices_cyclic (K := ℚ) 4 3 (by decide) (by decide) (by decide)).2.2.1⟩

/-- The two assignments `A = min(A,B); B = min(A,B)` leave `min(A,B)` in both
legs. -/
theorem chamferLegs_eq (A B d : K) :
    chamferLegs A B d = if A < d ∨ B < d then (min A B, min A B) else (d, d) := by
  unfold chamferLegs
  by_cases h : A < d ∨ B < d
  · rw [if_pos h, if_pos h]
    dsimp only
    rw [min_assoc, min_self]
  · rw [if_neg h, if_neg h]

/-- At a vertex whose reads succeed and whose two adjacent edges are exposed,
the loop body is the U-turn part followed by the chamfer of the corner. -/
theorem vertexStep_exposed (E : Externals K) (G : GeometryExternals K)
    (boundaryLayer : List (K × K)) (fnd : BoundaryFoundation K) (nV v : Nat)
    (st : PerimeterState K) (a b c d : Point K)
    (ha : fnd.polygon[(neighbourIndices nV v).1]? = some a)
    (hb : fnd.polygon[v]? = some b)
    (hc : fnd.polygon[(neighbourIndices nV v).2.1]? = some c)
    (hd : fnd.polygon[(neighbourIndices nV v).2.2]? = some d)
    (hePrev : fnd.isExposedPerimeter[(neighbourIndices nV v).1]? = some true)
    (heV : fnd.isExposedPerimeter[v]? = some true) :
    vertexStep E G boundaryLayer fnd nV st v
      = (uTurnPart E G boundaryLayer fnd.isExposedPerimeter (neighbourIndices nV v).2.1
          a b c d true true st).bind (chamferCorner E G boundaryLayer a b c) := by
  unfold vertexStep
  simp only [ha, hb, hc, hd, hePrev, heV]
  cases uTurnPart E G boundaryLayer fnd.isExposedPerimeter (neighbourIndices nV v).2.1
      a b c d true true st with
  | none => rfl
  | some st1 =>
    simp only [Option.bind, Bool.and_self, if_true]
    cases chamferCorner E G boundaryLayer a b c st1 with
    | none => rfl
    | some st2 => simp

/-- C16: at a corner of `setNewBoundaryGeometry` whose two adjacent edges are
exposed and whose angle `alpha` has `sin(alpha) > 0`, with edge lengths `A`,
`B` and chamfer distance `d` computed from the distance returned by
`getBoundaryDistance`: if `A < d` or `B < d` both chamfer legs are `min(A, B)`,
otherwise both are `d`; and the perimeter is changed by
`sqrt(A'*A' + B'*B' - 2*A'*B'*cos(alpha)) - (A' + B')` for the resulting legs
`A'`, `B'`, the interior perimeter being left as it is. -/
theorem chamfer_legs_and_perimeter (E : Externals K) (G : GeometryExternals K)
    (boundaryLayer : List (K × K)) (a b c : Point K) (st : PerimeterState K)
    (dist : K) (msgs : List Message)
    (hsin : E.sin (G.getAngle a b c) > 0)
    (hdist : getBoundaryDistance boundaryLayer
        (1 - E.sin (G.getAngle a b c / 2) / (1 + E.cos (G.getAngle a b c / 2)))
      = (some dist, msgs)) :
    ((G.getDistance a b < chamferDistance E (G.getAngle a b c) dist
        ∨ G.getDistance b c < chamferDistance E (G.getAngle a b c) dist) →
      chamferLegs (G.getDistance a b) (G.getDistance b c)
          (chamferDistance E (G.getAngle a b c) dist)
        = (min (G.getDistance a b) (G.getDistance b c),
           min (G.getDistance a b) (G.getDistance b c)))
    ∧ (¬ (G.getDistance a b < chamferDistance E (G.getAngle a b c) dist
        ∨ G.getDistance b c < chamferDistance E (G.getAngle a b c) dist) →
      chamferLegs (G.getDistance a b) (G.getDistance b c)
          (chamferDistance E (G.getAngle a b c) dist)
        = (chamferDistance E (G.getAngle a b c) dist,
           chamferDistance E (G.getAngle a b c) dist))
    ∧ chamferDistance E (G.getAngle a b c) dist
        = dist / E.sin (G.getAngle a b c / 2) / E.cos (G.getAngle a b c / 2)
    ∧ chamferCorner E G boundaryLayer a b c st
        = some (PerimeterState.mk
            (st.perimeter
              + (G.sqrt
                  ((chamferLegs (G.getDistance a b) (G.getDistance b c)
                        (chamferDistance E (G.getAngle a b c) dist)).1
                      * (chamferLegs (G.getDistance a b) (G.getDistance b c)
                        (chamferDistance E (G.getAngle a b c) dist)).1
                    + (chamferLegs (G.getDistance a b) (G.getDistance b c)
                        (chamferDistance E (G.getAngle a b c) dist)).2
                      * (chamferLegs (G.getDistance a b) (G.getDistance b c)
                        (chamferDistance E (G.getAngle a b c) dist)).2
                    - 2 * (chamferLegs (G.getDistance a b) (G.getDistance b c)
                        (chamferDistance E (G.getAngle a b c) dist)).1
                      * (chamferLegs (G.getDistance a b) (G.getDistance b c)
                        (chamferDistance E (G.getAngle a b c) dist)).2
                      * E.cos (G.getAngle a b c))
                - ((chamferLegs (G.getDistance a b) (G.getDistance b c)
                        (chamferDistance E (G.getAngle a b c) dist)).1
                  + (chamferLegs (G.getDistance a b) (G.getDistance b c)
                        (chamferDistance E (G.getAngle a b c) dist)).2)))
            st.interiorPerimeter
            (st.messages ++ msgs))
    ∧ ∀ (fnd : BoundaryFoundation K) (nV v : Nat) (st0 : PerimeterState K) (d : Point K),
        fnd.polygon[(neighbourIndices nV v).1]? = some a →
        fnd.polygon[v]? = some b →
        fnd.polygon[(neighbourIndices nV v).2.1]? = some c →
        fnd.polygon[(neighbourIndices nV v).2.2]? = some d →
        fnd.isExposedPerimeter[(neighbourIndices nV v).1]? = some true →
        fnd.isExposedPerimeter[v]? = some true →
        vertexStep E G boundaryLayer fnd nV st0 v
          = (uTurnPart E G boundaryLayer fnd.isExposedPerimeter (neighbourIndices nV v).2.1
              a b c d true true st0).bind (chamferCorner E G boundaryLayer a b c) := by
  refine ⟨?_, ?_, rfl, ?_, ?_⟩
  · intro h
    rw [chamferLegs_eq, if_pos h]
  · intro h
    rw [chamferLegs_eq, if_neg h]
  · unfold chamferCorner
    dsimp only
    rw [if_pos hsin, hdist]
  · intro fnd nV v st0 d ha hb hc hd hePrev heV
    exact vertexStep_exposed E G boundaryLayer fnd nV v st0 a b c d ha hb hc hd hePrev heV

/-- The hypotheses of C16 hold with `sin` = 3/5, `cos` = 4/5, `unitTable` and
edges of length 1: the fraction asked for is 2/3, the distance returned 2/3,
the chamfer distance 25/18, and both legs are shortened to 1. -/
theorem chamfer_legs_and_perimeter_witness :
    chamferLegs (exampleGeometry.getDistance (Point.mk 0 0) (Point.mk 1 0))
        (exampleGeometry.getDistance (Point.mk 1 0) (Point.mk 1 1))
        (chamferDistance chamferExternals
          (exampleGeometry.getAngle (Point.mk 0 0) (Point.mk 1 0) (Point.mk 1 1)) (2 / 3))
      = (min (exampleGeometry.getDistance (Point.mk 0 0) (Point.mk 1 0))
            (exampleGeometry.getDistance (Point.mk 1 0) (Point.mk 1 1)),
         min (exampleGeometry.getDistance (Point.mk 0 0) (Point.mk 1 0))
            (exampleGeometry.getDistance (Point.mk 1 0) (Point.mk 1 1))) :=
  (chamfer_legs_and_perimeter chamferExternals exampleGeometry unitTable
    (Point.mk 0 0) (Point.mk 1 0) (Point.mk 1 1)
    (PerimeterState.mk 48 0 []) (2 / 3) []
    (by simp [chamferExternals])
    (by
      have h1 : ¬ ((2 / 3 : ℚ) > 1 ∨ (2 / 3 : ℚ) < 0) := by norm_num
      have h2 : ((2 / 3 : ℚ) ≥ 0 ∧ (2 / 3 : ℚ) < 1) := by norm_num
      have hval : (1 : ℚ) - 3 / 5 / (1 + 4 / 5) = 2 / 3 := by norm_num
      simp only [chamferExternals, exampleGeometry, unitTable, hval, getBoundaryDistance,
        boundaryDistanceLoop, if_neg h1]
      rw [if_pos h2]
      norm_num)).1
    (Or.inl (by
      simp only [exampleGeometry, chamferDistance, chamferExternals]
      norm_num))

/-! ### The corrections never increase the perimeter -/

/-- The chamfer term is not positive for non-negative legs. -/
theorem chamfer_term_nonpos (sqrt : K → K) (cosAlpha A B : K)
    (hcos : -1 ≤ cosAlpha) (hsqrt : ∀ x y, 0 ≤ y → x ≤ y * y → sqrt x ≤ y)
    (hA : 0 ≤ A) (hB : 0 ≤ B) :
    sqrt (A * A + B * B - 2 * A * B * cosAlpha) - (A + B) ≤ 0 := by
  have hle : A * A + B * B - 2 * A * B * cosAlpha ≤ (A + B) * (A + B) := by
    nlinarith [mul_nonneg (mul_nonneg hA hB) (by linarith : (0 : K) ≤ 1 + cosAlpha)]
  have := hsqrt _ _ (add_nonneg hA hB) hle
  linarith

/-- With all distances of the table and the start value non-negative, the
loop of `getBoundaryDistance` ends with a non-negative distance. -/
theorem boundaryDistanceLoop_nonneg (val : K) (l : List (K × K)) (dist : K)
    (hd : ∀ p ∈ l, 0 ≤ p.1) (h0 : 0 ≤ dist) :
    0 ≤ boundaryDistanceLoop val l dist := by
  induction l generalizing dist with
  | nil => simpa [boundaryDistanceLoop] using h0
  | cons p tail ih =>
    cases tail with
    | nil => simpa [boundaryDistanceLoop] using h0
    | cons q rest =>
      rw [boundaryDistanceLoop]
      refine ih _ (fun r hr => hd r (List.mem_cons_of_mem _ hr)) ?_
      by_cases hb : val ≥ p.2 ∧ val < q.2
      · rw [if_pos hb]
        exact (interpolate_between p.2 q.2 p.1 q.1 val hb.1 hb.2).1 0
          (hd p (List.mem_cons_self _ _))
          (hd q (List.mem_cons_of_mem _ (List.mem_cons_self _ _)))
      · rw [if_neg hb]
        exact h0

/-- On a non-empty table with non-negative distances `getBoundaryDistance`
returns a non-negative distance for every query. -/
theorem getBoundaryDistance_nonneg (boundaryLayer : List (K × K)) (val : K)
    (hne : boundaryLayer ≠ []) (hd : ∀ p ∈ boundaryLayer, 0 ≤ p.1) :
    ∃ dist msgs, getBoundaryDistance boundaryLayer val = (some dist, msgs) ∧ 0 ≤ dist := by
  unfold getBoundaryDistance
  by_cases hv : val > 1 ∨ val < 0
  · rw [if_pos hv]
    exact ⟨0, _, rfl, le_refl _⟩
  · rw [if_neg hv]
    cases boundaryLayer with
    | nil => exact absurd rfl hne
    | cons p tail =>
      exact ⟨_, [], rfl, boundaryDistanceLoop_nonneg val (p :: tail) 0 hd (le_refl _)⟩

/-- The chamfer distance is non-negative for a non-negative distance. -/
theorem chamferDistance_nonneg (E : Externals K) (alpha dist : K)
    (hhalf : 0 < E.sin (alpha / 2) * E.cos (alpha / 2)) (hdist : 0 ≤ dist) :
    0 ≤ chamferDistance E alpha dist := by
  unfold chamferDistance
  dsimp only
  rw [div_div]
  exact div_nonneg hdist (le_of_lt hhalf)

/-- Both chamfer legs are non-negative. -/
theorem chamferLegs_nonneg (A B d : K) (hA : 0 ≤ A) (hB : 0 ≤ B) (hd : 0 ≤ d) :
    0 ≤ (chamferLegs A B d).1 ∧ 0 ≤ (chamferLegs A B d).2 := by
  rw [chamferLegs_eq]
  by_cases h : A < d ∨ B < d
  · rw [if_pos h]
    exact ⟨le_min hA hB, le_min hA hB⟩
  · rw [if_neg h]
    exact ⟨hd, hd⟩

/-- The chamfer of a corner succeeds and does not increase the perimeter. -/
theorem chamferCorner_le (E : Externals K) (G : GeometryExternals K)
    (boundaryLayer : List (K × K)) (a b c : Point K) (st : PerimeterState K)
    (hcos : ∀ alpha, -1 ≤ E.cos alpha)
    (hsqrt : ∀ x y, 0 ≤ y → x ≤ y * y → G.sqrt x ≤ y)
    (hhalf : ∀ alpha, E.sin alpha > 0 → 0 < E.sin (alpha / 2) * E.cos (alpha / 2))
    (hdistance : ∀ p q, 0 ≤ G.getDistance p q)
    (hne : boundaryLayer ≠ []) (hd : ∀ p ∈ boundaryLayer, 0 ≤ p.1) :
    ∃ st', chamferCorner E G boundaryLayer a b c st = some st'
      ∧ st'.perimeter ≤ st.perimeter := by
  unfold chamferCorner
  dsimp only
  by_cases hsin : E.sin (G.getAngle a b c) > 0
  · rw [if_pos hsin]
    obtain ⟨dist, msgs, hr, hdist⟩ := getBoundaryDistance_nonneg boundaryLayer
      (1 - E.sin (G.getAngle a b c / 2) / (1 + E.cos (G.getAngle a b c / 2))) hne hd
    rw [hr]
    dsimp only
    refine ⟨_, rfl, ?_⟩
    dsimp only
    obtain ⟨l1, l2⟩ := chamferLegs_nonneg (G.getDistance a b) (G.getDistance b c)
      (chamferDistance E (G.getAngle a b c) dist) (hdistance a b) (hdistance b c)
      (chamferDistance_nonneg E _ dist (hhalf _ hsin) hdist)
    have := chamfer_term_nonpos G.sqrt (E.cos (G.getAngle a b c)) _ _ (hcos _) hsqrt l1 l2
    linarith
  · rw [if_neg hsin]
    exact ⟨st, rfl, le_refl _⟩

/-- The correction of a U-turn succeeds and does not increase the perimeter. -/
theorem correctUTurn_le (E : Externals K) (G : GeometryExternals K)
    (boundaryLayer : List (K × K)) (a b c d : Point K) (st : PerimeterState K)
    (hdistance : ∀ p q, 0 ≤ G.getDistance p q)
    (hne : boundaryLayer ≠ []) (hf : ∀ p ∈ boundaryLayer, 0 ≤ p.2 ∧ p.2 ≤ 1) :
    ∃ st', correctUTurn E G boundaryLayer a b c d st = some st'
      ∧ st'.perimeter ≤ st.perimeter := by
  unfold correctUTurn
  dsimp only
  split
  · obtain ⟨v, hv, -, hv1⟩ := getBoundaryValue_range boundaryLayer (G.getDistance b c) hne hf
    rw [hv]
    dsimp only
    refine ⟨_, rfl, ?_⟩
    dsimp only
    have hmin : 0 ≤ min (G.getDistance a b) (G.getDistance c d) :=
      le_min (hdistance a b) (hdistance c d)
    have : 0 ≤ 2 * min (G.getDistance a b) (G.getDistance c d) * (1 - v) :=
      mul_nonneg (mul_nonneg (by norm_num) hmin) (by linarith)
    linarith
  · exact ⟨st, rfl, le_refl _⟩

/-- The three neighbour indices are inside a polygon with at least two
vertices. -/
theorem neighbourIndices_lt (nV v : Nat) (hnV : 2 ≤ nV) (hsize : nV < 2 ^ 64) (hv : v < nV) :
    (neighbourIndices nV v).1 < nV ∧ (neighbourIndices nV v).2.1 < nV
    ∧ (neighbourIndices nV v).2.2 < nV := by
  obtain ⟨e1, e2, e3⟩ := neighbourIndices_eq nV v hnV hsize hv
  rw [e1, e2, e3]
  refine ⟨?_, ?_, ?_⟩
  · split <;> omega
  · split <;> omega
  · split
    · omega
    · split <;> omega

/-- One pass of the loop over the vertices succeeds and does not increase the
perimeter. -/
theorem vertexStep_le (E : Externals K) (G : GeometryExternals K)
    (boundaryLayer : List (K × K)) (fnd : BoundaryFoundation K) (st : PerimeterState K)
    (v : Nat)
    (hcos : ∀ alpha, -1 ≤ E.cos alpha)
    (hsqrt : ∀ x y, 0 ≤ y → x ≤ y * y → G.sqrt x ≤ y)
    (hhalf : ∀ alpha, E.sin alpha > 0 → 0 < E.sin (alpha / 2) * E.cos (alpha / 2))
    (hdistance : ∀ p q, 0 ≤ G.getDistance p q)
    (hne : boundaryLayer ≠ []) (hf : ∀ p ∈ boundaryLayer, 0 ≤ p.2 ∧ p.2 ≤ 1)
    (hd : ∀ p ∈ boundaryLayer, 0 ≤ p.1)
    (hnV : 2 ≤ fnd.polygon.length) (hsize : fnd.polygon.length < 2 ^ 64)
    (hflags : fnd.isExposedPerimeter.length = fnd.polygon.length)
    (hv : v < fnd.polygon.length) :
    ∃ st', vertexStep E G boundaryLayer fnd fnd.polygon.length st v = some st'
      ∧ st'.perimeter ≤ st.perimeter := by
  obtain ⟨b1, b2, b3⟩ := neighbourIndices_lt fnd.polygon.length v hnV hsize hv
  obtain ⟨a, ha⟩ : ∃ a, fnd.polygon[(neighbourIndices fnd.polygon.length v).1]? = some a :=
    ⟨_, List.getElem?_eq_getElem b1⟩
  obtain ⟨b, hb⟩ : ∃ b, fnd.polygon[v]? = some b := ⟨_, List.getElem?_eq_getElem hv⟩
  obtain ⟨c, hc⟩ : ∃ c, fnd.polygon[(neighbourIndices fnd.polygon.length v).2.1]? = some c :=
    ⟨_, List.getElem?_eq_getElem b2⟩
  obtain ⟨d, hd4⟩ : ∃ d, fnd.polygon[(neighbourIndices fnd.polygon.length v).2.2]? = some d :=
    ⟨_, List.getElem?_eq_getElem b3⟩
  obtain ⟨eP, heP⟩ : ∃ e,
      fnd.isExposedPerimeter[(neighbourIndices fnd.polygon.length v).1]? = some e :=
    ⟨_, List.getElem?_eq_getElem (by rw [hflags]; exact b1)⟩
  obtain ⟨eV, heV⟩ : ∃ e, fnd.isExposedPerimeter[v]? = some e :=
    ⟨_, List.getElem?_eq_getElem (by rw [hflags]; exact hv)⟩
  obtain ⟨eN, heN⟩ : ∃ e,
      fnd.isExposedPerimeter[(neighbourIndices fnd.polygon.length v).2.1]? = some e :=
    ⟨_, List.getElem?_eq_getElem (by rw [hflags]; exact b2)⟩
  unfold vertexStep
  dsimp only
  rw [ha, hb, hc, hd4, heP, heV]
  dsimp only
  -- the U-turn part
  have hU : ∃ st1, uTurnPart E G boundaryLayer fnd.isExposedPerimeter
      (neighbourIndices fnd.polygon.length v).2.1 a b c d eP eV st = some st1
      ∧ st1.perimeter ≤ st.perimeter := by
    unfold uTurnPart
    split
    · rw [heN]
      dsimp only
      split
      · exact correctUTurn_le E G boundaryLayer _ _ _ _ st hdistance hne hf
      · exact ⟨st, rfl, le_refl _⟩
    · exact ⟨st, rfl, le_refl _⟩
  obtain ⟨st1, hU1, hU2⟩ := hU
  rw [hU1]
  dsimp only
  -- the chamfer
  have hC : ∃ st2, (if (eP && eV) = true then chamferCorner E G boundaryLayer a b c st1
      else some st1) = some st2 ∧ st2.perimeter ≤ st1.perimeter := by
    split
    · exact chamferCorner_le E G boundaryLayer _ _ _ st1 hcos hsqrt hhalf hdistance hne hd
    · exact ⟨st1, rfl, le_refl _⟩
  obtain ⟨st2, hC1, hC2⟩ := hC
  rw [hC1]
  dsimp only
  split
  · exact ⟨_, rfl, le_trans hC2 hU2⟩
  · exact ⟨_, rfl, le_trans hC2 hU2⟩

/-- The loop over vertices inside the polygon succeeds and does not increase
the perimeter. -/
theorem vertexLoop_le (E : Externals K) (G : GeometryExternals K)
    (boundaryLayer : List (K × K)) (fnd : BoundaryFoundation K) (vs : List Nat)
    (st : PerimeterState K)
    (hcos : ∀ alpha, -1 ≤ E.cos alpha)
    (hsqrt : ∀ x y, 0 ≤ y → x ≤ y * y → G.sqrt x ≤ y)
    (hhalf : ∀ alpha, E.sin alpha > 0 → 0 < E.sin (alpha / 2) * E.cos (alpha / 2))
    (hdistance : ∀ p q, 0 ≤ G.getDistance p q)
    (hne : boundaryLayer ≠ []) (hf : ∀ p ∈ boundaryLayer, 0 ≤ p.2 ∧ p.2 ≤ 1)
    (hd : ∀ p ∈ boundaryLayer, 0 ≤ p.1)
    (hnV : 2 ≤ fnd.polygon.length) (hsize : fnd.polygon.length < 2 ^ 64)
    (hflags : fnd.isExposedPerimeter.length = fnd.polygon.length)
    (hvs : ∀ v ∈ vs, v < fnd.polygon.length) :
    ∃ st', vertexLoop E G boundaryLayer fnd fnd.polygon.length vs st = some st'
      ∧ st'.perimeter ≤ st.perimeter := by
  induction vs generalizing st with
  | nil => exact ⟨st, rfl, le_refl _⟩
  | cons v rest ih =>
    obtain ⟨st1, h1, h2⟩ := vertexStep_le E G boundaryLayer fnd st v hcos hsqrt hhalf hdistance
      hne hf hd hnV hsize hflags (hvs v (List.mem_cons_self _ _))
    obtain ⟨st2, h3, h4⟩ := ih st1 (fun v' hv' => hvs v' (List.mem_cons_of_mem _ hv'))
    refine ⟨st2, ?_, le_trans h4 h2⟩
    rw [vertexLoop, h1]
    exact h3

/-- The integer square root of the integer part of `x` is at most `y` when
`x` is at most the square of a non-negative `y`. -/
theorem integerRoot_le (x y : ℚ) (hy : 0 ≤ y) (hx : x ≤ y * y) :
    ((Nat.sqrt ⌊x⌋₊ : Nat) : ℚ) ≤ y := by
  by_cases h0 : 0 ≤ x
  · have h1 : Nat.sqrt ⌊x⌋₊ * Nat.sqrt ⌊x⌋₊ ≤ ⌊x⌋₊ := Nat.sqrt_le _
    have h2 : ((⌊x⌋₊ : Nat) : ℚ) ≤ x := Nat.floor_le h0
    have h3 : ((Nat.sqrt ⌊x⌋₊ : Nat) : ℚ) * ((Nat.sqrt ⌊x⌋₊ : Nat) : ℚ) ≤ ((⌊x⌋₊ : Nat) : ℚ) := by
      exact_mod_cast h1
    have h4 : (0 : ℚ) ≤ ((Nat.sqrt ⌊x⌋₊ : Nat) : ℚ) := Nat.cast_nonneg _
    by_contra hlt
    push_neg at hlt
    nlinarith
  · push_neg at h0
    have : ⌊x⌋₊ = 0 := Nat.floor_of_nonpos (le_of_lt h0)
    rw [this]
    simpa using hy

/-- The cosine, sine and square root of the real numbers satisfy what the
perimeter bound asks of the routines of `<cmath>`. -/
theorem real_routines_facts :
    (∀ alpha : ℝ, -1 ≤ Real.cos alpha)
    ∧ (∀ x y : ℝ, 0 ≤ y → x ≤ y * y → Real.sqrt x ≤ y)
    ∧ (∀ alpha : ℝ, Real.sin alpha > 0 → 0 < Real.sin (alpha / 2) * Real.cos (alpha / 2)) := by
  refine ⟨Real.neg_one_le_cos, ?_, ?_⟩
  · intro x y hy hx
    calc Real.sqrt x ≤ Real.sqrt (y * y) := Real.sqrt_le_sqrt hx
      _ = y := Real.sqrt_mul_self hy
  · intro alpha h
    have h2 : Real.sin alpha = 2 * Real.sin (alpha / 2) * Real.cos (alpha / 2) := by
      rw [← Real.sin_two_mul]
      congr 1
      ring
    rw [h2] at h
    linarith

/-- C18: `setNewBoundaryGeometry` never increases the perimeter it corrects.
With `cos >= -1`, `sqrt x <= y` whenever `x <= y*y` and `y >= 0`,
`sin(alpha/2)*cos(alpha/2) > 0` whenever `sin(alpha) > 0`, non-negative
distances between points, and a non-empty boundary-layer table whose fractions
are in [0,1] and whose distances are non-negative: (1) for all legs
`A, B >= 0` and every angle the chamfer term
`sqrt(A*A + B*B - 2*A*B*cos(alpha)) - (A + B)` is `<= 0`; (2) for all
`AB, CD >= 0` and every `BC`, `getBoundaryValue(BC)` returns a value and the
U-turn term `2*min(AB, CD)*(1 - getBoundaryValue(BC))` is `>= 0`; (3) on a
polygon that does not have exactly one vertex, with a flag for every vertex,
the function returns, with strategy `RS_CUSTOM`, `twoParameters = false`,
`reductionLength2 = area / (perimeter - interiorPerimeter)` for the corrected
perimeter, and the corrected perimeter is at most the perimeter of the
polygon. -/
theorem perimeter_never_increases (E : Externals K) (G : GeometryExternals K)
    (boundaryLayer : List (K × K)) (fnd : BoundaryFoundation K)
    (hcos : ∀ alpha, -1 ≤ E.cos alpha)
    (hsqrt : ∀ x y, 0 ≤ y → x ≤ y * y → G.sqrt x ≤ y)
    (hhalf : ∀ alpha, E.sin alpha > 0 → 0 < E.sin (alpha / 2) * E.cos (alpha / 2))
    (hdistance : ∀ p q, 0 ≤ G.getDistance p q)
    (hne : boundaryLayer ≠ [])
    (hf : ∀ p ∈ boundaryLayer, 0 ≤ p.2 ∧ p.2 ≤ 1)
    (hd : ∀ p ∈ boundaryLayer, 0 ≤ p.1)
    (hnV : fnd.polygon.length ≠ 1) (hsize : fnd.polygon.length < 2 ^ 64)
    (hflags : fnd.isExposedPerimeter.length = fnd.polygon.length) :
    (∀ A B alpha : K, 0 ≤ A → 0 ≤ B →
      G.sqrt (A * A + B * B - 2 * A * B * E.cos alpha) - (A + B) ≤ 0)
    ∧ (∀ AB BC CD : K, 0 ≤ AB → 0 ≤ CD →
      ∃ value, getBoundaryValue boundaryLayer BC = some value
        ∧ 0 ≤ 2 * min AB CD * (1 - value))
    ∧ ∃ fnd' st, setNewBoundaryGeometry E G boundaryLayer fnd = some (fnd', st)
        ∧ st.perimeter ≤ G.perimeter fnd.polygon
        ∧ fnd'.reductionLength2 = G.area fnd.polygon / (st.perimeter - st.interiorPerimeter)
        ∧ fnd'.reductionStrategy = ReductionStrategy.RS_CUSTOM
        ∧ fnd'.twoParameters = false := by
  refine ⟨?_, ?_, ?_⟩
  · intro A B alpha hA hB
    exact chamfer_term_nonpos G.sqrt (E.cos alpha) A B (hcos alpha) hsqrt hA hB
  · intro AB BC CD hAB hCD
    obtain ⟨v, hv, -, hv1⟩ := getBoundaryValue_range boundaryLayer BC hne hf
    exact ⟨v, hv, mul_nonneg (mul_nonneg (by norm_num) (le_min hAB hCD)) (by linarith)⟩
  · have hloop : ∃ st, vertexLoop E G boundaryLayer fnd fnd.polygon.length
          (List.range fnd.polygon.length)
          (PerimeterState.mk (G.perimeter fnd.polygon) 0 []) = some st
        ∧ st.perimeter ≤ G.perimeter fnd.polygon := by
      by_cases h0 : fnd.polygon.length = 0
      · rw [h0]
        exact ⟨_, rfl, le_refl _⟩
      · exact vertexLoop_le E G boundaryLayer fnd (List.range fnd.polygon.length)
          (PerimeterState.mk (G.perimeter fnd.polygon) 0 []) hcos hsqrt hhalf hdistance hne hf hd
          (by omega) hsize hflags (fun v hv => List.mem_range.mp hv)
    obtain ⟨st, h1, h2⟩ := hloop
    unfold setNewBoundaryGeometry
    dsimp only
    rw [h1]
    exact ⟨_, st, rfl, h2, rfl, rfl, rfl⟩

/-- The hypotheses of C18 hold for `squareFoundation` with `sin` = 3/5,
`cos` = 4/5, the integer square root and `unitTable`; the corrected perimeter
of the square is at most 48. -/
theorem perimeter_never_increases_witness :
    ∃ fnd' st, setNewBoundaryGeometry chamferExternals integerRootGeometry unitTable
          squareFoundation = some (fnd', st)
        ∧ st.perimeter ≤ integerRootGeometry.perimeter squareFoundation.polygon
        ∧ fnd'.reductionLength2
            = integerRootGeometry.area squareFoundation.polygon
              / (st.perimeter - st.interiorPerimeter)
        ∧ fnd'.reductionStrategy = ReductionStrategy.RS_CUSTOM
        ∧ fnd'.twoParameters = false :=
  (perimeter_never_increases chamferExternals integerRootGeometry unitTable squareFoundation
    (by intro alpha; simp [chamferExternals]; norm_num)
    (by intro x y hy hx; exact integerRoot_le x y hy hx)
    (by intro alpha _; simp [chamferExternals])
    (by intro p q; simp [integerRootGeometry, exampleGeometry])
    (by simp [unitTable])
    (by
      intro p hp
      simp only [unitTable, List.mem_cons, List.mem_singleton, List.not_mem_nil, or_false] at hp
      rcases hp with rfl | rfl <;> norm_num)
    (by
      intro p hp
      simp only [unitTable, List.mem_cons, List.mem_singleton, List.not_mem_nil, or_false] at hp
      rcases hp with rfl | rfl <;> norm_num)
    (by simp [squareFoundation])
    (by simp [squareFoundation])
    (by simp [squareFoundation])).2.2

end Perimeter

end Kiva
